import Mathlib

/-!
# concourse/atc: resource caches and the container provider

A shallow embedding of `dbng/resource_cache.go` and `worker/container_provider.go`.

Every collaborator of the Go code (the garden client, the volume client, the image
factory, the database, the clock) is an interface value there.  Here a collaborator is
a function on an abstract world state `σ`; a call runs the function on the current
state and appends one `Event` to a log, so that statements about which calls a function
makes, in which order and with which arguments, are statements about the log.

Go results `(value, error)` whose value is tested against `nil` by the code are pairs
of options; results whose value is used only after the error check are `Except`.
-/

namespace Atc

/-! ## Errors -/

/-- Go `error` values that the two packages produce or receive. The named sentinels are
the package-level `errors.New` variables; `ContainerNotFoundError` is the garden struct
error; `pqError` is a `*pq.Error` seen through `Code.Name()`; `other` is any other error. -/
inductive Error where
  | ErrCreatedContainerNotFound
  | ContainerNotFoundError (handle : String)
  | ErrSafeRetryFindOrCreate
  | ErrResourceCacheAlreadyExists
  | ErrResourceCacheDisappeared
  | ErrWorkerNotPresent
  | ErrNoRows
  | pqError (codeName : String)
  | other (msg : String)
  deriving DecidableEq, Repr

/-- The type assertion `err.(garden.ContainerNotFoundError)`. -/
def Error.isContainerNotFound : Error → Bool
  | .ContainerNotFoundError _ => true
  | _ => false

/-- The test `pqErr, ok := err.(*pq.Error); ok && pqErr.Code.Name() == name`. -/
def Error.isPq (name : String) : Error → Bool
  | .pqError c => c == name
  | _ => false

/-! ## dbng: resource caches -/

/-- Go `atc.Version`, a `map[string]string`; `none` is the nil map. -/
abbrev Version := Option (List (String × String))

/-- Go `atc.Params`, a `map[string]interface{}`; `none` is the nil map, values are kept
as their JSON text. -/
abbrev Params := Option (List (String × String))

/-- Go `atc.Source`, a `map[string]interface{}`; `none` is the nil map, values are kept
as their JSON text. -/
abbrev Source := Option (List (String × String))

/-- Go `atc.ResourceTypes`, each resource type kept as its JSON text. -/
abbrev ResourceTypes := List String

/-- The library functions `json.Marshal` (on maps) and hex-printed `sha256.Sum256`. -/
structure Lib where
  jsonMarshal : Option (List (String × String)) → String
  sha256Hex : String → String

/-- Go `mapHash`. -/
def mapHash (lib : Lib) (m : Option (List (String × String))) : String :=
  lib.sha256Hex (lib.jsonMarshal m)

/-- Go `paramsHash`. -/
def paramsHash (lib : Lib) (p : Params) : String :=
  if p ≠ none then mapHash lib p else mapHash lib (some [])

/-- The part of `UsedResourceConfig` the code reads. -/
structure UsedResourceConfig where
  ID : Int
  deriving DecidableEq, Repr

/-- Go `ResourceCache`; the `ResourceConfig` field is not read by the functions below. -/
structure ResourceCache where
  Version : Version
  Params : Params
  deriving DecidableEq, Repr

/-- Go `UsedResourceCache`. -/
structure UsedResourceCache where
  ID : Int
  ResourceConfig : UsedResourceConfig
  Version : Version
  deriving DecidableEq, Repr

/-- Go `ResourceCache.version`. -/
def ResourceCache.version (lib : Lib) (cache : ResourceCache) : String :=
  lib.jsonMarshal cache.Version

/-- SQL statements issued on the transaction. -/
inductive Stmt where
  | selectResourceCache (resourceConfigID : Int) (version : String)
  | insertResourceCache (resourceConfigID : Int) (version : String) (paramsHash : String)
  | selectResourceCacheUse (resourceCacheID : Int) (column : String) (columnID : Int)
  | insertResourceCacheUse (resourceCacheID : Int) (column : String) (columnID : Int)
  | deleteResourceCache (id : Int)
  deriving DecidableEq, Repr

/-- The transaction `tx` as the code uses it: each statement maps the database state to
an outcome and a new state. `query` is `QueryRow().Scan(&n)`, `exec` is `Exec()` with
`RowsAffected()`. -/
structure Tx (σ : Type) where
  query : Stmt → σ → Except Error Int × σ
  exec : Stmt → σ → Except Error Int × σ

/-- A database state together with the statements issued so far, oldest first, each
with its outcome. -/
structure Db (σ : Type) where
  st : σ
  log : List (Stmt × Except Error Int)

/-- Run a `QueryRow().Scan` statement. -/
def Tx.runQuery {σ : Type} (tx : Tx σ) (q : Stmt) (d : Db σ) : Except Error Int × Db σ :=
  ((tx.query q d.st).1, ⟨(tx.query q d.st).2, d.log ++ [(q, (tx.query q d.st).1)]⟩)

/-- Run an `Exec` statement. -/
def Tx.runExec {σ : Type} (tx : Tx σ) (q : Stmt) (d : Db σ) : Except Error Int × Db σ :=
  ((tx.exec q d.st).1, ⟨(tx.exec q d.st).2, d.log ++ [(q, (tx.exec q d.st).1)]⟩)

/-- Go `ResourceCache.findWithResourceConfig`: `(id, found, err)`. -/
def findWithResourceConfig {σ : Type} (lib : Lib) (tx : Tx σ) (cache : ResourceCache)
    (resourceConfig : UsedResourceConfig) (d : Db σ) : (Int × Bool × Option Error) × Db σ :=
  match tx.runQuery (.selectResourceCache resourceConfig.ID (cache.version lib)) d with
  | (.error err, d1) =>
    if err = Error.ErrNoRows then ((0, false, none), d1) else ((0, false, some err), d1)
  | (.ok id, d1) => ((id, true, none), d1)

/-- The second half of Go `ResourceCache.findOrCreate`, from `rc := &UsedResourceCache`
on: ensure the row of `resource_cache_uses`. -/
def findOrCreateUse {σ : Type} (tx : Tx σ) (rc : UsedResourceCache)
    (forColumnName : String) (forColumnID : Int) (d : Db σ) :
    (Option UsedResourceCache × Option Error) × Db σ :=
  match tx.runQuery (.selectResourceCacheUse rc.ID forColumnName forColumnID) d with
  | (.error err, d1) =>
    if err = Error.ErrNoRows then
      match tx.runExec (.insertResourceCacheUse rc.ID forColumnName forColumnID) d1 with
      | (.error err2, d2) =>
        if err2.isPq "foreign_key_violation" then ((none, some Error.ErrSafeRetryFindOrCreate), d2)
        else ((none, some err2), d2)
      | (.ok _, d2) => ((some rc, none), d2)
    else ((none, some err), d1)
  | (.ok _, d1) => ((some rc, none), d1)

/-- Go `ResourceCache.findOrCreate`. -/
def findOrCreate {σ : Type} (lib : Lib) (tx : Tx σ) (cache : ResourceCache)
    (resourceConfig : UsedResourceConfig) (forColumnName : String) (forColumnID : Int)
    (d : Db σ) : (Option UsedResourceCache × Option Error) × Db σ :=
  match findWithResourceConfig lib tx cache resourceConfig d with
  | ((_, _, some err), d1) => ((none, some err), d1)
  | ((id, true, none), d1) =>
    findOrCreateUse tx ⟨id, resourceConfig, cache.Version⟩ forColumnName forColumnID d1
  | ((_, false, none), d1) =>
    match tx.runQuery (.insertResourceCache resourceConfig.ID (cache.version lib)
        (paramsHash lib cache.Params)) d1 with
    | (.error err, d2) =>
      if err.isPq "foreign_key_violation" then ((none, some Error.ErrSafeRetryFindOrCreate), d2)
      else if err.isPq "unique_violation" then ((none, some Error.ErrSafeRetryFindOrCreate), d2)
      else ((none, some err), d2)
    | (.ok id, d2) =>
      findOrCreateUse tx ⟨id, resourceConfig, cache.Version⟩ forColumnName forColumnID d2

/-- Go `UsedResourceCache.Destroy`: `(destroyed, err)`. -/
def UsedResourceCache.Destroy {σ : Type} (tx : Tx σ) (cache : UsedResourceCache) (d : Db σ) :
    (Bool × Option Error) × Db σ :=
  match tx.runExec (.deleteResourceCache cache.ID) d with
  | (.error err, d1) => ((false, some err), d1)
  | (.ok affected, d1) =>
    if affected = 0 then ((false, some Error.ErrResourceCacheDisappeared), d1)
    else ((true, none), d1)

/-! ## dbng: the tables behind the transaction -/

/-- A row of `resource_caches`. -/
structure ResourceCacheRow where
  id : Int
  resourceConfigID : Int
  version : String
  paramsHash : String
  deriving DecidableEq, Repr

/-- A row of `resource_cache_uses`: the cache and the owner column with its id. -/
structure ResourceCacheUseRow where
  resourceCacheID : Int
  column : String
  columnID : Int
  deriving DecidableEq, Repr

/-- Modelled from the spec: the database schema, which is declared in migration files
that are not among the sources. The spec lists `resource_caches(id PK, resource_config_id
FK, version, params_hash)` with `UNIQUE(resource_config_id, version)` and
`resource_cache_uses(resource_cache_id, owner column)` without a unique index.
`resourceConfigs` and `owners` hold the keys that the foreign keys point to, `nextID` is
the serial of `resource_caches.id`. -/
structure Store where
  resourceConfigs : List Int
  owners : List (String × Int)
  resourceCaches : List ResourceCacheRow
  resourceCacheUses : List ResourceCacheUseRow
  nextID : Int
  deriving DecidableEq, Repr

/-- The rows of `resource_caches` with a given config and version. -/
def Store.cachesFor (st : Store) (resourceConfigID : Int) (version : String) :
    List ResourceCacheRow :=
  st.resourceCaches.filter (fun r => r.resourceConfigID = resourceConfigID ∧ r.version = version)

/-- The rows of `resource_cache_uses` of a given cache and owner. -/
def Store.usesFor (st : Store) (resourceCacheID : Int) (column : String) (columnID : Int) :
    List ResourceCacheUseRow :=
  st.resourceCacheUses.filter (fun u => u = ⟨resourceCacheID, column, columnID⟩)

/-- The rows of `resource_cache_uses` of a given cache, whatever the owner. -/
def Store.usesOf (st : Store) (resourceCacheID : Int) : List ResourceCacheUseRow :=
  st.resourceCacheUses.filter (fun u => u.resourceCacheID = resourceCacheID)

/-- The rows of `resource_caches` with a given id. -/
def Store.cachesWithID (st : Store) (id : Int) : List ResourceCacheRow :=
  st.resourceCaches.filter (fun r => r.id = id)

/-- Modelled from the spec: what PostgreSQL answers to the statements of
`resource_cache.go` on the tables of `Store`.
* The lookup returns the id of the first row with the config and version, or
  `sql.ErrNoRows`.
* The insert into `resource_caches` checks the foreign key to `resource_configs` and the
  unique index on the config and version, then adds a row under the next serial id.
* The insert into `resource_cache_uses` checks the foreign keys to the cache and to the
  owner, then adds a row.
* The delete removes the rows of `resource_caches` with the id and answers their number;
  the spec says of a resource cache that "deletion cascades to its rows in the uses
  table", so the rows of `resource_cache_uses` that point to the id are removed with
  them. -/
def Store.run (q : Stmt) (st : Store) : Except Error Int × Store :=
  match q with
  | .selectResourceCache cfg ver =>
    match st.cachesFor cfg ver with
    | [] => (.error .ErrNoRows, st)
    | r :: _ => (.ok r.id, st)
  | .insertResourceCache cfg ver ph =>
    if cfg ∉ st.resourceConfigs then (.error (.pqError "foreign_key_violation"), st)
    else if st.cachesFor cfg ver ≠ [] then (.error (.pqError "unique_violation"), st)
    else
      (.ok st.nextID,
        { st with
          resourceCaches := st.resourceCaches ++ [⟨st.nextID, cfg, ver, ph⟩]
          nextID := st.nextID + 1 })
  | .selectResourceCacheUse id col cid =>
    match st.usesFor id col cid with
    | [] => (.error .ErrNoRows, st)
    | _ :: _ => (.ok 1, st)
  | .insertResourceCacheUse id col cid =>
    if st.cachesWithID id = [] then (.error (.pqError "foreign_key_violation"), st)
    else if (col, cid) ∉ st.owners then (.error (.pqError "foreign_key_violation"), st)
    else (.ok 1, { st with resourceCacheUses := st.resourceCacheUses ++ [⟨id, col, cid⟩] })
  | .deleteResourceCache id =>
    if st.cachesWithID id = [] then (.ok 0, st)
    else
      (.ok (st.cachesWithID id).length,
        { st with
          resourceCaches := st.resourceCaches.filter (fun r => r.id ≠ id)
          resourceCacheUses :=
            st.resourceCacheUses.filter (fun u => u.resourceCacheID ≠ id) })

/-- The transaction on the tables of `Store`. -/
def storeTx : Tx Store where
  query := Store.run
  exec := Store.run

/-! ## worker: data -/

/-- Go `time.Duration`: a count of nanoseconds. -/
abbrev Duration := Int

/-- Go `time.Second`. -/
def Second : Duration := 1000000000

/-- Go `time.Minute`. -/
def Minute : Duration := 60 * Second

/-- Go `time.Hour`. -/
def Hour : Duration := 60 * Minute

/-- Go `creatingContainerRetryDelay`. -/
def creatingContainerRetryDelay : Duration := 1 * Second

/-- Constants that the file uses and that are declared in files which are not among the
sources: `db.ContainerTypeCheck`, `userPropertyName`, `ephemeralPropertyName`. -/
structure Consts where
  ContainerTypeCheck : String
  userPropertyName : String
  ephemeralPropertyName : String

/-- The methods of the `Volume` interface that the code calls. -/
structure Volume where
  Handle : String
  Path : String
  deriving DecidableEq, Repr

/-- Go `VolumeMount`. -/
structure VolumeMount where
  Volume : Volume
  MountPath : String
  deriving DecidableEq, Repr

/-- The two volume strategies built by the code. -/
inductive Strategy where
  | OutputStrategy (Name : String)
  | ContainerRootFSStrategy (Parent : Volume)
  deriving DecidableEq, Repr

/-- Go `VolumeSpec`, the fields set by the code. -/
structure VolumeSpec where
  Strategy : Strategy
  Privileged : Bool
  deriving DecidableEq, Repr

/-- Go `ImageSpec`; only `Privileged` is read here, the image source is kept as text. -/
structure ImageSpec where
  Source : String
  Privileged : Bool
  deriving DecidableEq, Repr

/-- Go `ContainerSpec`, the fields read by the code. -/
structure ContainerSpec where
  ImageSpec : ImageSpec
  TeamID : Int
  User : String
  Ephemeral : Bool
  Env : List String
  Mounts : List VolumeMount
  Inputs : List VolumeMount
  deriving DecidableEq, Repr

/-- Go `ImageMetadata`. -/
structure ImageMetadata where
  Env : List String
  User : String
  deriving DecidableEq, Repr

/-- Go `FetchedImage`. -/
structure FetchedImage where
  Metadata : ImageMetadata
  URL : String
  Version : Version
  deriving DecidableEq, Repr

/-- An `Image` value returned by the image factory. -/
structure Image where
  id : Nat
  deriving DecidableEq, Repr

/-- Go `Identifier`, the fields read or written by the code. -/
structure Identifier where
  BuildID : Int
  PlanID : String
  ResourceID : Int
  ResourceTypeVersion : Version
  deriving DecidableEq, Repr

/-- Go `Metadata`, the fields read or written by the code; `type` is `Metadata.Type`. -/
structure Metadata where
  type : String
  StepName : String
  PipelineID : Int
  WorkerName : String
  Handle : String
  User : String
  deriving DecidableEq, Repr

/-- Go `dbng.CreatingContainer`. -/
structure CreatingContainer where
  ID : Int
  Handle : String
  deriving DecidableEq, Repr

/-- Go `dbng.CreatedContainer`. -/
structure CreatedContainer where
  ID : Int
  Handle : String
  deriving DecidableEq, Repr

/-- Go `dbng.CreatedVolume`. -/
structure CreatedVolume where
  Handle : String
  Path : String
  deriving DecidableEq, Repr

/-- Go `garden.Container`, seen through `Handle()`. -/
structure GardenContainer where
  Handle : String
  deriving DecidableEq, Repr

/-- Go `garden.BindMountMode`. -/
inductive BindMountMode where
  | BindMountModeRO
  | BindMountModeRW
  deriving DecidableEq, Repr

/-- Go `garden.BindMount`. -/
structure BindMount where
  SrcPath : String
  DstPath : String
  Mode : BindMountMode
  deriving DecidableEq, Repr

/-- Go `garden.Properties`, a `map[string]string`, as an association list. -/
abbrev Properties := List (String × String)

/-- Map assignment `m[k] = v`. -/
def Properties.set (m : Properties) (k v : String) : Properties :=
  m.filter (fun kv => kv.1 ≠ k) ++ [(k, v)]

/-- Go `garden.ContainerSpec`, the fields set by the code. -/
structure GardenSpec where
  BindMounts : List BindMount
  Privileged : Bool
  Properties : Properties
  RootFSPath : String
  Env : List String
  Handle : String
  deriving DecidableEq, Repr

/-- The `worker.Container` built by `newGardenWorkerContainer`. -/
structure Container where
  gardenContainer : Option GardenContainer
  dbContainer : Option CreatedContainer
  volumeMounts : List VolumeMount
  deriving DecidableEq, Repr

/-- A lock returned by `AcquireContainerCreatingLock`. -/
structure Lock where
  id : Nat
  deriving DecidableEq, Repr

/-- The fields of `containerProvider` that are plain values. -/
structure Provider where
  workerName : String
  httpProxyURL : String
  httpsProxyURL : String
  noProxy : String
  deriving DecidableEq, Repr

/-! ## worker: collaborators and the call log -/

/-- The collaborators of `containerProvider`, each a function on the world state `σ`.
`newGardenWorkerContainer` is a function of the package whose file is not among the
sources; it is taken as a collaborator too. -/
structure Collab (σ : Type) where
  Lookup : String → σ → (Option GardenContainer × Option Error) × σ
  Create : GardenSpec → σ → Except Error GardenContainer × σ
  FindOrCreateVolumeForContainer :
    VolumeSpec → CreatingContainer → Int → String → σ → Except Error Volume × σ
  GetImage : ImageSpec → Int → Identifier → Metadata → σ → Except Error Image × σ
  FetchForContainer : Image → CreatingContainer → σ → Except Error FetchedImage × σ
  AcquireContainerCreatingLock : Int → σ → (Lock × Bool × Option Error) × σ
  Release : Lock → σ → Unit × σ
  Sleep : Duration → σ → Unit × σ
  UpdateContainerTTLToBeRemoved : Identifier → Metadata → Duration → σ → Option Error × σ
  Created : CreatingContainer → σ → (Option CreatedContainer × Option Error) × σ
  FindVolumesForContainer : Option CreatedContainer → σ → Except Error (List CreatedVolume) × σ
  newGardenWorkerContainer : Option GardenContainer → Option CreatedContainer →
    List CreatedVolume → String → σ → (Option Container × Option Error) × σ
  FindContainerByHandle : Int → String → σ → (Option CreatedContainer × Bool × Option Error) × σ
  Uptime : σ → Duration

/-- Go `dbng.Worker` as the closures of the entry points build it, from
`p.worker.Name()` and `p.worker.Address()`. -/
structure DbWorker where
  Name : String
  GardenAddr : String
  deriving DecidableEq, Repr

/-- The collaborators that only `FindOrCreateResourceGetContainer` calls: the three
methods of `dbResourceCacheFactory`, the two methods of the team returned by
`dbTeamFactory.GetByID(teamID)` (the team id is their first argument), and
`p.worker.Address()`. -/
structure CacheCollab (σ : Type) where
  FindOrCreateResourceCacheForBuild : Int → String → Version → Source → Params → Int →
    ResourceTypes → σ → Except Error UsedResourceCache × σ
  FindOrCreateResourceCacheForResource : Int → String → Version → Source → Params → Int →
    ResourceTypes → σ → Except Error UsedResourceCache × σ
  FindOrCreateResourceCacheForResourceType : String → Version → Source → Params → Int →
    ResourceTypes → σ → Except Error UsedResourceCache × σ
  FindResourceGetContainer : Int → DbWorker → UsedResourceCache → String → σ →
    (Option CreatingContainer × Option CreatedContainer × Option Error) × σ
  CreateResourceGetContainer : Int → DbWorker → UsedResourceCache → String → σ →
    Except Error CreatingContainer × σ
  Address : σ → String

/-- One entry of the call log per collaborator call. -/
inductive Event where
  | findContainerFunc
  | createContainerFunc
  | Lookup (handle : String)
  | Create (spec : GardenSpec)
  | FindOrCreateVolumeForContainer (spec : VolumeSpec) (creating : CreatingContainer)
      (teamID : Int) (mountPath : String)
  | GetImage (imageSpec : ImageSpec) (teamID : Int) (id : Identifier) (metadata : Metadata)
  | FetchForContainer (image : Image) (creating : CreatingContainer)
  | AcquireContainerCreatingLock (id : Int)
  | Release (lock : Lock)
  | Sleep (d : Duration)
  | UpdateContainerTTLToBeRemoved (id : Identifier) (metadata : Metadata) (ttl : Duration)
  | Created (creating : CreatingContainer)
  | FindVolumesForContainer (created : Option CreatedContainer)
  | newGardenWorkerContainer (gardenContainer : Option GardenContainer)
      (created : Option CreatedContainer) (volumes : List CreatedVolume) (workerName : String)
  | FindContainerByHandle (teamID : Int) (handle : String)
  | FindOrCreateResourceCacheForBuild (buildID : Int) (resourceTypeName : String)
      (version : Version) (source : Source) (params : Params) (pipelineID : Int)
      (resourceTypes : ResourceTypes)
  | FindOrCreateResourceCacheForResource (resourceID : Int) (resourceTypeName : String)
      (version : Version) (source : Source) (params : Params) (pipelineID : Int)
      (resourceTypes : ResourceTypes)
  | FindOrCreateResourceCacheForResourceType (resourceTypeName : String)
      (version : Version) (source : Source) (params : Params) (pipelineID : Int)
      (resourceTypes : ResourceTypes)
  deriving DecidableEq, Repr

/-- The world state together with the calls made so far, oldest first. -/
structure World (σ : Type) where
  st : σ
  log : List Event

/-- Make one collaborator call: run it on the state and record the event. -/
def World.call {σ α : Type} (w : World σ) (e : Event) (f : σ → α × σ) : α × World σ :=
  ((f w.st).1, ⟨(f w.st).2, w.log ++ [e]⟩)

/-! ## worker: the container provider -/

section provider

variable {σ : Type}

/-- Go `containerProvider.maxContainerLifetime`; `p.worker.Uptime()` reads the state. -/
def maxContainerLifetime (k : Consts) (c : Collab σ) (metadata : Metadata) (s : σ) : Duration :=
  if metadata.type = k.ContainerTypeCheck then
    if c.Uptime s < 5 * Minute then 5 * Minute
    else if c.Uptime s > 1 * Hour then 1 * Hour
    else c.Uptime s
  else 0

/-- The loop `for name, outputPath := range outputPaths` of `createGardenContainer`;
`outputPaths` lists the entries of the map in the order the iteration visits them. -/
def outputVolumeMounts (c : Collab σ) (creatingContainer : CreatingContainer)
    (spec : ContainerSpec) :
    List (String × String) → List VolumeMount → World σ →
      Except Error (List VolumeMount) × World σ
  | [], volumeMounts, w => (.ok volumeMounts, w)
  | (name, outputPath) :: rest, volumeMounts, w =>
    match w.call
        (.FindOrCreateVolumeForContainer ⟨.OutputStrategy name, spec.ImageSpec.Privileged⟩
          creatingContainer spec.TeamID outputPath)
        (c.FindOrCreateVolumeForContainer ⟨.OutputStrategy name, spec.ImageSpec.Privileged⟩
          creatingContainer spec.TeamID outputPath) with
    | (.error volumeErr, w1) => (.error volumeErr, w1)
    | (.ok outVolume, w1) =>
      outputVolumeMounts c creatingContainer spec rest
        (volumeMounts ++ [⟨outVolume, outputPath⟩]) w1

/-- The loop `for _, mount := range spec.Inputs` of `createGardenContainer`. -/
def inputVolumeMounts (c : Collab σ) (creatingContainer : CreatingContainer)
    (spec : ContainerSpec) :
    List VolumeMount → List VolumeMount → World σ →
      Except Error (List VolumeMount) × World σ
  | [], volumeMounts, w => (.ok volumeMounts, w)
  | mount :: rest, volumeMounts, w =>
    match w.call
        (.FindOrCreateVolumeForContainer
          ⟨.ContainerRootFSStrategy mount.Volume, spec.ImageSpec.Privileged⟩
          creatingContainer spec.TeamID mount.MountPath)
        (c.FindOrCreateVolumeForContainer
          ⟨.ContainerRootFSStrategy mount.Volume, spec.ImageSpec.Privileged⟩
          creatingContainer spec.TeamID mount.MountPath) with
    | (.error volumeErr, w1) => (.error volumeErr, w1)
    | (.ok cowVolume, w1) =>
      inputVolumeMounts c creatingContainer spec rest
        (volumeMounts ++ [⟨cowVolume, mount.MountPath⟩]) w1

/-- The loop `for _, mount := range spec.Mounts`: append each mount. -/
def appendMounts : List VolumeMount → List VolumeMount → List VolumeMount
  | [], volumeMounts => volumeMounts
  | mount :: rest, volumeMounts => appendMounts rest (volumeMounts ++ [mount])

/-- The loop `for _, mount := range volumeMounts` building `bindMounts` (the map
`volumeHandleMounts` filled by the same loop is never read). -/
def bindMountsOf : List VolumeMount → List BindMount → List BindMount
  | [], bindMounts => bindMounts
  | mount :: rest, bindMounts =>
    bindMountsOf rest
      (bindMounts ++ [⟨mount.Volume.Path, mount.MountPath, .BindMountModeRW⟩])

/-- The `gardenProperties` of `createGardenContainer`. -/
def gardenPropertiesOf (k : Consts) (spec : ContainerSpec) (imageMetadata : ImageMetadata) :
    Properties :=
  let gardenProperties : Properties :=
    if spec.User ≠ "" then [(k.userPropertyName, spec.User)]
    else [(k.userPropertyName, imageMetadata.User)]
  if spec.Ephemeral then gardenProperties.set k.ephemeralPropertyName "true"
  else gardenProperties

/-- The `env` of `createGardenContainer`. -/
def envOf (p : Provider) (spec : ContainerSpec) (imageMetadata : ImageMetadata) : List String :=
  let env := imageMetadata.Env ++ spec.Env
  let env := if p.httpProxyURL ≠ "" then env ++ ["http_proxy=" ++ p.httpProxyURL] else env
  let env := if p.httpsProxyURL ≠ "" then env ++ ["https_proxy=" ++ p.httpsProxyURL] else env
  let env := if p.noProxy ≠ "" then env ++ ["no_proxy=" ++ p.noProxy] else env
  env

/-- Go `containerProvider.createGardenContainer`. -/
def createGardenContainer (k : Consts) (c : Collab σ) (p : Provider)
    (creatingContainer : CreatingContainer) (spec : ContainerSpec)
    (outputPaths : List (String × String)) (imageMetadata : ImageMetadata) (imageURL : String)
    (w : World σ) : Except Error GardenContainer × World σ :=
  match outputVolumeMounts c creatingContainer spec outputPaths [] w with
  | (.error volumeErr, w1) => (.error volumeErr, w1)
  | (.ok volumeMounts1, w1) =>
    match inputVolumeMounts c creatingContainer spec spec.Inputs
        (appendMounts spec.Mounts volumeMounts1) w1 with
    | (.error volumeErr, w2) => (.error volumeErr, w2)
    | (.ok volumeMounts, w2) =>
      w2.call
        (.Create
          { BindMounts := bindMountsOf volumeMounts []
            Privileged := spec.ImageSpec.Privileged
            Properties := gardenPropertiesOf k spec imageMetadata
            RootFSPath := imageURL
            Env := envOf p spec imageMetadata
            Handle := creatingContainer.Handle })
        (c.Create
          { BindMounts := bindMountsOf volumeMounts []
            Privileged := spec.ImageSpec.Privileged
            Properties := gardenPropertiesOf k spec imageMetadata
            RootFSPath := imageURL
            Env := envOf p spec imageMetadata
            Handle := creatingContainer.Handle })

/-- The common tail `FindVolumesForContainer` then `newGardenWorkerContainer` of
`findOrCreateContainer` (lines 511-526 and 638-653). -/
def wrapContainer (c : Collab σ) (p : Provider) (gardenContainer : Option GardenContainer)
    (createdContainer : Option CreatedContainer) (w : World σ) :
    (Option Container × Option Error) × World σ :=
  match w.call (.FindVolumesForContainer createdContainer)
      (c.FindVolumesForContainer createdContainer) with
  | (.error err, w1) => ((none, some err), w1)
  | (.ok createdVolumes, w1) =>
    w1.call (.newGardenWorkerContainer gardenContainer createdContainer createdVolumes p.workerName)
      (c.newGardenWorkerContainer gardenContainer createdContainer createdVolumes p.workerName)

/-- Lines 631-653 of `findOrCreateContainer`: `creatingContainer.Created()` and the tail. -/
def markCreated (c : Collab σ) (p : Provider) (gardenContainer : Option GardenContainer)
    (creatingContainer : CreatingContainer) (w : World σ) :
    (Option Container × Option Error) × World σ :=
  match w.call (.Created creatingContainer) (c.Created creatingContainer) with
  | ((_, some err), w1) => ((none, some err), w1)
  | ((createdContainer, none), w1) => wrapContainer c p gardenContainer createdContainer w1

/-- Lines 587-653 of `findOrCreateContainer`: what runs while the creation lock is held. -/
def createUnderLock (k : Consts) (c : Collab σ) (p : Provider) (id : Identifier)
    (metadata : Metadata) (spec : ContainerSpec) (outputPaths : List (String × String))
    (image : Image) (creatingContainer : CreatingContainer) (w : World σ) :
    (Option Container × Option Error) × World σ :=
  match w.call (.FetchForContainer image creatingContainer)
      (c.FetchForContainer image creatingContainer) with
  | (.error err, w1) => ((none, some err), w1)
  | (.ok fetchedImage, w1) =>
    match createGardenContainer k c p creatingContainer spec outputPaths
        fetchedImage.Metadata fetchedImage.URL w1 with
    | (.error err, w2) => ((none, some err), w2)
    | (.ok gardenContainer, w2) =>
      let metadata1 : Metadata :=
        { metadata with
          WorkerName := p.workerName
          Handle := gardenContainer.Handle
          User := if spec.User ≠ "" then spec.User else fetchedImage.Metadata.User }
      let id1 : Identifier := { id with ResourceTypeVersion := fetchedImage.Version }
      match w2.call
          (.UpdateContainerTTLToBeRemoved id1 metadata1 (maxContainerLifetime k c metadata1 w2.st))
          (c.UpdateContainerTTLToBeRemoved id1 metadata1
            (maxContainerLifetime k c metadata1 w2.st)) with
      | (some err, w3) => ((none, some err), w3)
      | (none, w3) => markCreated c p (some gardenContainer) creatingContainer w3

/-- What `findOrCreateContainer` yields: the Go result pair and the world after the call,
or `none` when the bound on the number of attempts was reached. -/
abbrev Outcome (σ : Type) := Option ((Option Container × Option Error) × World σ)

/-- Lines 563-653 of `findOrCreateContainer`: take the creation lock; when it is not
acquired, sleep and call `retry` (the function itself); when it is, run the creation and
then the deferred `lock.Release()`. -/
def lockAndCreate (k : Consts) (c : Collab σ) (p : Provider) (id : Identifier)
    (metadata : Metadata) (spec : ContainerSpec) (outputPaths : List (String × String))
    (retry : World σ → Outcome σ) (image : Image) (creatingContainer : CreatingContainer)
    (w : World σ) : Outcome σ :=
  match w.call (.AcquireContainerCreatingLock creatingContainer.ID)
      (c.AcquireContainerCreatingLock creatingContainer.ID) with
  | ((_, _, some err), w1) => some ((none, some err), w1)
  | ((_, false, none), w1) =>
    retry (w1.call (.Sleep creatingContainerRetryDelay) (c.Sleep creatingContainerRetryDelay)).2
  | ((lock, true, none), w1) =>
    match createUnderLock k c p id metadata spec outputPaths image creatingContainer w1 with
    | (r, w2) => some (r, (w2.call (.Release lock) (c.Release lock)).2)

/-- Lines 539-653 of `findOrCreateContainer`, entered when `gardenContainer == nil`. -/
def createContainer (k : Consts) (c : Collab σ) (p : Provider) (id : Identifier)
    (metadata : Metadata) (spec : ContainerSpec) (outputPaths : List (String × String))
    (createContainerFunc : σ → Except Error CreatingContainer × σ)
    (retry : World σ → Outcome σ) (creatingContainer : Option CreatingContainer)
    (w : World σ) : Outcome σ :=
  match w.call (.GetImage spec.ImageSpec spec.TeamID id metadata)
      (c.GetImage spec.ImageSpec spec.TeamID id metadata) with
  | (.error err, w1) => some ((none, some err), w1)
  | (.ok image, w1) =>
    match creatingContainer with
    | some creatingContainer =>
      lockAndCreate k c p id metadata spec outputPaths retry image creatingContainer w1
    | none =>
      match w1.call .createContainerFunc createContainerFunc with
      | (.error err, w2) => some ((none, some err), w2)
      | (.ok creatingContainer, w2) =>
        lockAndCreate k c p id metadata spec outputPaths retry image creatingContainer w2

/-- The body of `findOrCreateContainer`; `retry` stands for the call of the function to
itself at line 571. -/
def findOrCreateContainerBody (k : Consts) (c : Collab σ) (p : Provider) (id : Identifier)
    (metadata : Metadata) (spec : ContainerSpec) (outputPaths : List (String × String))
    (findContainerFunc :
      σ → (Option CreatingContainer × Option CreatedContainer × Option Error) × σ)
    (createContainerFunc : σ → Except Error CreatingContainer × σ)
    (retry : World σ → Outcome σ) (w : World σ) : Outcome σ :=
  match w.call .findContainerFunc findContainerFunc with
  | ((_, _, some err), w1) => some ((none, some err), w1)
  | ((_, some createdContainer, none), w1) =>
    match w1.call (.Lookup createdContainer.Handle) (c.Lookup createdContainer.Handle) with
    | ((_, some err), w2) => some ((none, some err), w2)
    | ((gardenContainer, none), w2) =>
      some (wrapContainer c p gardenContainer (some createdContainer) w2)
  | ((none, none, none), w1) =>
    createContainer k c p id metadata spec outputPaths createContainerFunc retry none w1
  | ((some creatingContainer, none, none), w1) =>
    match w1.call (.Lookup creatingContainer.Handle) (c.Lookup creatingContainer.Handle) with
    | ((gardenContainer, err), w2) =>
      if err.map Error.isContainerNotFound = some false then
        some ((none, err), w2)
      else
        match gardenContainer with
        | none =>
          createContainer k c p id metadata spec outputPaths createContainerFunc retry
            (some creatingContainer) w2
        | some _ => some (markCreated c p gardenContainer creatingContainer w2)

/-- Go `containerProvider.findOrCreateContainer`. The function calls itself after a lost
lock; the first argument bounds the number of attempts and `none` means the bound was
reached. -/
def findOrCreateContainer (k : Consts) (c : Collab σ) (p : Provider) (id : Identifier)
    (metadata : Metadata) (spec : ContainerSpec) (outputPaths : List (String × String))
    (findContainerFunc :
      σ → (Option CreatingContainer × Option CreatedContainer × Option Error) × σ)
    (createContainerFunc : σ → Except Error CreatingContainer × σ) :
    Nat → World σ → Outcome σ
  | 0, _ => none
  | fuel + 1, w =>
    findOrCreateContainerBody k c p id metadata spec outputPaths findContainerFunc
      createContainerFunc
      (findOrCreateContainer k c p id metadata spec outputPaths findContainerFunc
        createContainerFunc fuel) w

/-- The `if`/`else if`/`else` of `FindOrCreateResourceGetContainer` that gets the resource
cache for the build, the resource or the resource type. -/
def resourceCacheFor (g : CacheCollab σ) (id : Identifier) (metadata : Metadata)
    (resourceTypes : ResourceTypes) (resourceTypeName : String) (version : Version)
    (source : Source) (params : Params) (w : World σ) :
    Except Error UsedResourceCache × World σ :=
  if id.BuildID ≠ 0 then
    w.call
      (.FindOrCreateResourceCacheForBuild id.BuildID resourceTypeName version source params
        metadata.PipelineID resourceTypes)
      (g.FindOrCreateResourceCacheForBuild id.BuildID resourceTypeName version source params
        metadata.PipelineID resourceTypes)
  else if id.ResourceID ≠ 0 then
    w.call
      (.FindOrCreateResourceCacheForResource id.ResourceID resourceTypeName version source
        params metadata.PipelineID resourceTypes)
      (g.FindOrCreateResourceCacheForResource id.ResourceID resourceTypeName version source
        params metadata.PipelineID resourceTypes)
  else
    w.call
      (.FindOrCreateResourceCacheForResourceType resourceTypeName version source params
        metadata.PipelineID resourceTypes)
      (g.FindOrCreateResourceCacheForResourceType resourceTypeName version source params
        metadata.PipelineID resourceTypes)

/-- Go `containerProvider.FindOrCreateResourceGetContainer`. The argument `outputPaths` is
not read: `findOrCreateContainer` is called with the literal `map[string]string{}`. The
first argument bounds the attempts of `findOrCreateContainer`. -/
def FindOrCreateResourceGetContainer (k : Consts) (c : Collab σ) (g : CacheCollab σ)
    (p : Provider) (id : Identifier) (metadata : Metadata) (spec : ContainerSpec)
    (resourceTypes : ResourceTypes) (_outputPaths : List (String × String))
    (resourceTypeName : String) (version : Version) (source : Source) (params : Params)
    (fuel : Nat) (w : World σ) : Outcome σ :=
  match resourceCacheFor g id metadata resourceTypes resourceTypeName version source params
      w with
  | (.error err, w1) => some ((none, some err), w1)
  | (.ok resourceCache, w1) =>
    findOrCreateContainer k c p id metadata spec []
      (fun s => g.FindResourceGetContainer spec.TeamID ⟨p.workerName, g.Address s⟩
        resourceCache metadata.StepName s)
      (fun s => g.CreateResourceGetContainer spec.TeamID ⟨p.workerName, g.Address s⟩
        resourceCache metadata.StepName s)
      fuel w1

/-- Go `containerProvider.FindContainerByHandle`: `(container, found, err)`. -/
def FindContainerByHandle (c : Collab σ) (p : Provider) (handle : String) (teamID : Int)
    (w : World σ) : (Option Container × Bool × Option Error) × World σ :=
  match w.call (.Lookup handle) (c.Lookup handle) with
  | ((_, some err), w1) =>
    if err.isContainerNotFound then ((none, false, none), w1)
    else ((none, false, some err), w1)
  | ((gardenContainer, none), w1) =>
    match w1.call (.FindContainerByHandle teamID handle) (c.FindContainerByHandle teamID handle) with
    | ((_, _, some err), w2) => ((none, false, some err), w2)
    | ((_, false, none), w2) => ((none, false, none), w2)
    | ((createdContainer, true, none), w2) =>
      match w2.call (.FindVolumesForContainer createdContainer)
          (c.FindVolumesForContainer createdContainer) with
      | (.error err, w3) => ((none, false, some err), w3)
      | (.ok createdVolumes, w3) =>
        match w3.call
            (.newGardenWorkerContainer gardenContainer createdContainer createdVolumes p.workerName)
            (c.newGardenWorkerContainer gardenContainer createdContainer createdVolumes
              p.workerName) with
        | ((_, some err), w4) => ((none, false, some err), w4)
        | ((container, none), w4) => ((container, true, none), w4)

end provider

/-! ## dbng: the worker registry -/

/-- Go `dbng.WorkerState`. -/
inductive WorkerState where
  | Running
  | Stalled
  | Landing
  | Landed
  | Retiring
  deriving DecidableEq, Repr

/-- Go `dbng.BuildStatus`. -/
inductive BuildStatus where
  | Pending
  | Started
  | Aborted
  | Succeeded
  | Failed
  | Errored
  deriving DecidableEq, Repr

/-- A point in time, in nanoseconds, so that a `Duration` can be added to it. -/
abbrev Time := Int

/-- Modelled from the spec: a row of `workers`, which is declared in migration files that
are not among the sources. Of the columns that the spec lists, the row has those that
the spec's state machine says a heartbeat or the deletion of retiring workers reads or
writes: `name` (the primary key), `state`, `active_containers` and the nullable
`expires_at`. -/
structure WorkerRow where
  name : String
  state : WorkerState
  activeContainers : Int
  expiresAt : Option Time
  deriving DecidableEq, Repr

/-- Modelled from the spec: a row of `containers` with its `worker_name` and its
parentage, `build_id` when the container belongs to a build and `none` for the two other
parentages. -/
structure ContainerRow where
  workerName : String
  buildID : Option Int
  deriving DecidableEq, Repr

/-- Modelled from the spec: a row of `builds` with its id and status. -/
structure BuildRow where
  id : Int
  status : BuildStatus
  deriving DecidableEq, Repr

/-- Modelled from the spec: the three tables that the worker registry works on. -/
structure Registry where
  workers : List WorkerRow
  containers : List ContainerRow
  builds : List BuildRow
  deriving DecidableEq, Repr

/-- The fields of `atc.Worker` that a heartbeat submits. -/
structure AtcWorker where
  Name : String
  ActiveContainers : Int
  deriving DecidableEq, Repr

/-- Modelled from the spec: the state after a heartbeat, by the rows `Heartbeat` of the
spec's state machine. `Landing`, `Landed` and `Retiring` are unchanged, `Running` stays
`Running` and `Stalled` becomes `Running`. -/
def heartbeatState : WorkerState → WorkerState
  | .Landing => .Landing
  | .Landed => .Landed
  | .Retiring => .Retiring
  | .Running => .Running
  | .Stalled => .Running

/-- Modelled from the spec: what a heartbeat writes to a row of `workers`. The spec says
that the heartbeat refreshes `expires_at` and `active_containers`. The statement that
computes the refreshed expiry is not among the sources and the spec gives no formula for
it, so the computation is the parameter `refresh`, a function of the ttl and of the
expiry before. -/
def heartbeatRow (worker : AtcWorker) (ttl : Duration) (refresh : Duration → Option Time → Time)
    (row : WorkerRow) : WorkerRow :=
  { row with
    state := heartbeatState row.state
    activeContainers := worker.ActiveContainers
    expiresAt := some (refresh ttl row.expiresAt) }

/-- Modelled from the spec: `workerFactory.HeartbeatWorker`, whose file
`worker_factory.go` is not among the sources. A worker that is not present gives
`ErrWorkerNotPresent` (by the test); for a worker that is present the rows with its name
are rewritten by `heartbeatRow` and the rewritten row is returned. `refresh` is the
computation of the refreshed expiry by the database. -/
def HeartbeatWorker (worker : AtcWorker) (ttl : Duration)
    (refresh : Duration → Option Time → Time) (r : Registry) :
    Except Error WorkerRow × Registry :=
  match r.workers.find? (fun row => row.name = worker.Name) with
  | none => (.error .ErrWorkerNotPresent, r)
  | some row =>
    (.ok (heartbeatRow worker ttl refresh row),
      { r with
        workers := r.workers.map (fun row =>
          if row.name = worker.Name then heartbeatRow worker ttl refresh row else row) })

/-- Modelled from the spec: whether a worker has running builds, in the spec's words
whether a container row exists on this worker whose owning build is in status `Pending`
or `Started`. -/
def Registry.hasRunningBuilds (r : Registry) (workerName : String) : Bool :=
  r.containers.any (fun container =>
    container.workerName = workerName ∧
    r.builds.any (fun build =>
      container.buildID = some build.id ∧
      (build.status = .Pending ∨ build.status = .Started)))

/-- Modelled from the spec: `workerFactory.DeleteFinishedRetiringWorkers`, whose file
`worker_factory.go` is not among the sources. One pass removes the rows of `workers` in
state `Retiring` that have no running builds; the spec does not say what happens to the
container rows of a removed worker, and they are left as they are. -/
def DeleteFinishedRetiringWorkers (r : Registry) : Registry :=
  { r with
    workers := r.workers.filter (fun row =>
      ¬ (row.state = .Retiring ∧ r.hasRunningBuilds row.name = false)) }

/-! ## resource: choosing among volumes -/

/-- The first loop of `selectLowestAlphabeticalVolume`, started with a given
`lowestVolume` (`none` is Go's `nil`): the first volume replaces `nil`, a later one
replaces `lowestVolume` when its handle is smaller in string order. -/
def lowestVolumeFrom {α : Type} (Handle : α → String) : Option α → List α → Option α
  | lowestVolume, [] => lowestVolume
  | none, v :: rest => lowestVolumeFrom Handle (some v) rest
  | some lowestVolume, v :: rest =>
    if Handle v < Handle lowestVolume then lowestVolumeFrom Handle (some v) rest
    else lowestVolumeFrom Handle (some lowestVolume) rest

/-- Go `selectLowestAlphabeticalVolume`. The volumes are the values of a type `α` whose
equality is the identity that Go's `v != lowestVolume` compares, none of them `nil`, and
`Handle` is their method `Handle()`. The result is the returned volume together with the
volumes on which the second loop called `Destroy()`, in the order of the calls. -/
def selectLowestAlphabeticalVolume {α : Type} [DecidableEq α] (Handle : α → String)
    (volumes : List α) : Option α × List α :=
  (lowestVolumeFrom Handle none volumes,
    volumes.filter (fun v => some v ≠ lowestVolumeFrom Handle none volumes))

/-! ## Reading the logs -/

/-- The statements issued by a run that started in `d` and ended in `d1`. -/
def Db.since {σ : Type} (d1 d : Db σ) : List (Stmt × Except Error Int) :=
  d1.log.drop d.log.length

/-- The calls made by a run that started in `w` and ended in `w1`. -/
def World.since {σ : Type} (w1 w : World σ) : List Event :=
  w1.log.drop w.log.length

/-- Whether a call is a `FindOrCreateVolumeForContainer` request. -/
def Event.isVolumeRequest : Event → Bool
  | .FindOrCreateVolumeForContainer _ _ _ _ => true
  | _ => false

/-- The request for the volume of one entry `name, path` of `outputPaths`. -/
def outputRequest (creatingContainer : CreatingContainer) (spec : ContainerSpec)
    (entry : String × String) : Event :=
  .FindOrCreateVolumeForContainer ⟨.OutputStrategy entry.1, spec.ImageSpec.Privileged⟩
    creatingContainer spec.TeamID entry.2

/-- The request for the copy-on-write volume of one entry of `spec.Inputs`. -/
def inputRequest (creatingContainer : CreatingContainer) (spec : ContainerSpec)
    (mount : VolumeMount) : Event :=
  .FindOrCreateVolumeForContainer
    ⟨.ContainerRootFSStrategy mount.Volume, spec.ImageSpec.Privileged⟩
    creatingContainer spec.TeamID mount.MountPath

/-- The bind mount of one volume mount. -/
def bindMountOf (mount : VolumeMount) : BindMount :=
  ⟨mount.Volume.Path, mount.MountPath, .BindMountModeRW⟩

/-- Whether a call is `UpdateContainerTTLToBeRemoved`. -/
def Event.isUpdateTTL : Event → Bool
  | .UpdateContainerTTLToBeRemoved _ _ _ => true
  | _ => false

/-- Whether a call is `creatingContainer.Created()`. -/
def Event.isCreated : Event → Bool
  | .Created _ => true
  | _ => false

/-- Whether a call is one of those that `findOrCreateContainer` makes before it holds the
creation lock: `find()`, `create()`, the runtime `Lookup`, `GetImage`, the lock request
itself and the `Sleep` after a lost lock. -/
def Event.isBeforeLock : Event → Bool
  | .findContainerFunc => true
  | .createContainerFunc => true
  | .Lookup _ => true
  | .GetImage _ _ _ _ => true
  | .AcquireContainerCreatingLock _ => true
  | .Sleep _ => true
  | _ => false

/-- The calls from `w` to `w1` contain exactly one `Created()` transition, it comes after
the runtime container was found by `Lookup` of the creating container's handle or
returned by `Create`, and `container` is what `newGardenWorkerContainer` built from that
runtime container and the created container that the transition returned. -/
def CreatedOnce {σ : Type} (c : Collab σ) (p : Provider) (w w1 : World σ)
    (container : Container) : Prop :=
  ∃ (cc : CreatingContainer) (created : Option CreatedContainer) (gc : GardenContainer)
    (volumes : List CreatedVolume) (pre post : List Event),
    w1.log = w.log ++ pre ++
      [Event.Created cc, Event.FindVolumesForContainer created,
        Event.newGardenWorkerContainer (some gc) created volumes p.workerName] ++ post ∧
    pre.filter Event.isCreated = [] ∧ post.filter Event.isCreated = [] ∧
    ((Event.Lookup cc.Handle ∈ pre ∧ ∃ s, (c.Lookup cc.Handle s).1.1 = some gc) ∨
      (∃ gs s, Event.Create gs ∈ pre ∧ (c.Create gs s).1 = .ok gc)) ∧
    (∃ s, (c.Created cc s).1 = (created, none)) ∧
    (∃ s, (c.newGardenWorkerContainer (some gc) created volumes p.workerName s).1
      = (some container, none))

/-- The calls from `w` to `w1` contain no `Created()` transition and end with an attempt
in which `find()` returned a created container, whose `Lookup` succeeded, and
`container` is what `newGardenWorkerContainer` built for it. -/
def FoundCreated {σ : Type} (c : Collab σ) (p : Provider)
    (findContainerFunc :
      σ → (Option CreatingContainer × Option CreatedContainer × Option Error) × σ)
    (w w1 : World σ) (container : Container) : Prop :=
  ∃ (created : CreatedContainer) (gc : Option GardenContainer) (volumes : List CreatedVolume)
    (pre : List Event),
    w1.log = w.log ++ pre ++
      [Event.findContainerFunc, Event.Lookup created.Handle,
        Event.FindVolumesForContainer (some created),
        Event.newGardenWorkerContainer gc (some created) volumes p.workerName] ∧
    pre.filter Event.isCreated = [] ∧
    (∃ s, (findContainerFunc s).1.2 = (some created, none)) ∧
    (∃ s, (c.Lookup created.Handle s).1 = (gc, none)) ∧
    (∃ s, (c.newGardenWorkerContainer gc (some created) volumes p.workerName s).1
      = (some container, none))

/-- Whether a call is `lock.Release()`. -/
def Event.isRelease : Event → Bool
  | .Release _ => true
  | _ => false

/-- Whether a call is one of those that build the runtime container while the lock is
held: `FetchForContainer`, a volume request, the runtime `Create` and
`UpdateContainerTTLToBeRemoved`. -/
def Event.isBuild : Event → Bool
  | .FetchForContainer _ _ => true
  | .FindOrCreateVolumeForContainer _ _ _ _ => true
  | .Create _ => true
  | .UpdateContainerTTLToBeRemoved _ _ _ => true
  | _ => false

/-- Whether a call is `FindVolumesForContainer` or `newGardenWorkerContainer`, the two
calls that end a successful `findOrCreateContainer`. -/
def Event.isWrap : Event → Bool
  | .FindVolumesForContainer _ => true
  | .newGardenWorkerContainer _ _ _ _ => true
  | _ => false

/-- The volume requests of a run of `createGardenContainer` in which no request fails:
one per output path, then one per input. -/
def volumeRequestsOf (creatingContainer : CreatingContainer) (spec : ContainerSpec)
    (outputPaths : List (String × String)) : List Event :=
  outputPaths.map (outputRequest creatingContainer spec) ++
    spec.Inputs.map (inputRequest creatingContainer spec)

/-- The calls of lines 631-653: `Created()` on the creating container, then calls that
load its volumes and build the result. -/
def MarkedCreated (creatingContainer : CreatingContainer) (evs : List Event) : Prop :=
  ∃ rest, evs = Event.Created creatingContainer :: rest ∧ ∀ e ∈ rest, Event.isWrap e = true

/-- The calls of lines 587-653, made while the lock is held: calls that build the runtime
container, whose volume requests are an initial part of `volumeRequestsOf`, and then
either nothing more, or the calls of lines 631-653 after a `Create` that returned a
container. -/
def UnderLock {σ : Type} (c : Collab σ) (creatingContainer : CreatingContainer)
    (spec : ContainerSpec) (outputPaths : List (String × String)) (evs : List Event) : Prop :=
  ∃ build tail, evs = build ++ tail ∧ (∀ e ∈ build, Event.isBuild e = true) ∧
    (∃ rest, build.filter Event.isVolumeRequest ++ rest
      = volumeRequestsOf creatingContainer spec outputPaths) ∧
    (tail = [] ∨
      (MarkedCreated creatingContainer tail ∧
        ∃ gs s g, Event.Create gs ∈ build ∧ (c.Create gs s).1 = .ok g))

/-- The calls of a run of `findOrCreateContainer` that returns: calls made before the
lock is held (those of the attempts that lost the lock, and the first calls of the last
attempt), and then one of three endings. Either calls that load volumes and build the
result, or none; or the calls of lines 631-653 for a creating container that `find()`
returned and whose handle `Lookup` found in the runtime; or, after a lock request that
was granted, the calls made under the lock and the `Release()` of that lock, for a
creating container that `find()` or `create()` returned. -/
def FinalAttempt {σ : Type} (c : Collab σ) (spec : ContainerSpec)
    (outputPaths : List (String × String))
    (findContainerFunc :
      σ → (Option CreatingContainer × Option CreatedContainer × Option Error) × σ)
    (createContainerFunc : σ → Except Error CreatingContainer × σ) (evs : List Event) : Prop :=
  ∃ pre tail, evs = pre ++ tail ∧ (∀ e ∈ pre, Event.isBeforeLock e = true) ∧
    ((∀ e ∈ tail, Event.isWrap e = true) ∨
      (∃ (cc : CreatingContainer) (g : GardenContainer),
        MarkedCreated cc tail ∧ Event.Lookup cc.Handle ∈ pre ∧
        (∃ s, (c.Lookup cc.Handle s).1.1 = some g) ∧
        (∃ s, (findContainerFunc s).1.1 = some cc)) ∨
      (∃ (cc : CreatingContainer) (lock : Lock) (s0 s1 : σ) (pre0 mid : List Event),
        pre = pre0 ++ [Event.AcquireContainerCreatingLock cc.ID] ∧
        c.AcquireContainerCreatingLock cc.ID s0 = ((lock, true, none), s1) ∧
        tail = mid ++ [Event.Release lock] ∧ UnderLock c cc spec outputPaths mid ∧
        ((∃ s, (findContainerFunc s).1.1 = some cc) ∨
          (∃ s, (createContainerFunc s).1 = .ok cc))))

/-- An attempt of `findOrCreateContainer` started in `w` gets to the lock request of line
563 in the world `wl`, with the image `image` and the creating container `cc`: either
`find()` returned `cc` and no created container, the runtime `Lookup` returned no
container and no error other than not-found, and `GetImage` succeeded; or `find()`
returned nothing, `GetImage` succeeded and `create()` returned `cc`. -/
def ReachesLock {σ : Type} (c : Collab σ) (id : Identifier) (metadata : Metadata)
    (spec : ContainerSpec)
    (findContainerFunc :
      σ → (Option CreatingContainer × Option CreatedContainer × Option Error) × σ)
    (createContainerFunc : σ → Except Error CreatingContainer × σ) (w : World σ)
    (image : Image) (cc : CreatingContainer) (wl : World σ) : Prop :=
  (∃ (gerr : Option Error) (s1 s2 s3 : σ),
    findContainerFunc w.st = ((some cc, none, none), s1) ∧
    c.Lookup cc.Handle s1 = ((none, gerr), s2) ∧
    gerr.map Error.isContainerNotFound ≠ some false ∧
    c.GetImage spec.ImageSpec spec.TeamID id metadata s2 = (.ok image, s3) ∧
    wl = ⟨s3, w.log ++ [Event.findContainerFunc, Event.Lookup cc.Handle,
      Event.GetImage spec.ImageSpec spec.TeamID id metadata]⟩) ∨
  (∃ (s1 s2 s3 : σ),
    findContainerFunc w.st = ((none, none, none), s1) ∧
    c.GetImage spec.ImageSpec spec.TeamID id metadata s1 = (.ok image, s2) ∧
    createContainerFunc s2 = (.ok cc, s3) ∧
    wl = ⟨s3, w.log ++ [Event.findContainerFunc,
      Event.GetImage spec.ImageSpec spec.TeamID id metadata, Event.createContainerFunc]⟩)

/-- The requests for the volumes of the output paths `entries`, made one after the other
from the state `s`, are each answered with a volume, and `s1` is the state after the last
of them. -/
def OutputVolumesFound {σ : Type} (c : Collab σ) (cc : CreatingContainer)
    (spec : ContainerSpec) : List (String × String) → σ → σ → Prop
  | [], s, s1 => s1 = s
  | (name, outputPath) :: rest, s, s1 =>
    ∃ v s2, c.FindOrCreateVolumeForContainer
        ⟨.OutputStrategy name, spec.ImageSpec.Privileged⟩ cc spec.TeamID outputPath s
        = (.ok v, s2) ∧
      OutputVolumesFound c cc spec rest s2 s1

/-- The requests for the copy-on-write volumes of the inputs `mounts`, made one after the
other from the state `s`, are each answered with a volume, and `s1` is the state after
the last of them. -/
def InputVolumesFound {σ : Type} (c : Collab σ) (cc : CreatingContainer)
    (spec : ContainerSpec) : List VolumeMount → σ → σ → Prop
  | [], s, s1 => s1 = s
  | mount :: rest, s, s1 =>
    ∃ v s2, c.FindOrCreateVolumeForContainer
        ⟨.ContainerRootFSStrategy mount.Volume, spec.ImageSpec.Privileged⟩ cc spec.TeamID
        mount.MountPath s = (.ok v, s2) ∧
      InputVolumesFound c cc spec rest s2 s1

/-- Finding or creating a volume fails while the mounts are built from the state `s`: the
volume service answers a request with the error `e` and leaves the state `s1`, the
requests before it were answered with a volume, and `reqs` lists the requests made.
Either the failing request is the one for an output path, after the requests for the
output paths `done` before it; or every output path got its volume and the failing
request is the one for an input, after the requests for the inputs `done` before it. -/
def VolumeRequestFails {σ : Type} (c : Collab σ) (cc : CreatingContainer)
    (spec : ContainerSpec) (outputPaths : List (String × String)) (s : σ) (e : Error)
    (s1 : σ) (reqs : List Event) : Prop :=
  (∃ (done : List (String × String)) (name outputPath : String)
      (rest : List (String × String)) (s0 : σ),
    outputPaths = done ++ (name, outputPath) :: rest ∧
    OutputVolumesFound c cc spec done s s0 ∧
    c.FindOrCreateVolumeForContainer ⟨.OutputStrategy name, spec.ImageSpec.Privileged⟩ cc
      spec.TeamID outputPath s0 = (.error e, s1) ∧
    reqs = (done ++ [(name, outputPath)]).map (outputRequest cc spec)) ∨
  (∃ (done : List VolumeMount) (mount : VolumeMount) (rest : List VolumeMount) (s0 s2 : σ),
    OutputVolumesFound c cc spec outputPaths s s0 ∧
    spec.Inputs = done ++ mount :: rest ∧
    InputVolumesFound c cc spec done s0 s2 ∧
    c.FindOrCreateVolumeForContainer
      ⟨.ContainerRootFSStrategy mount.Volume, spec.ImageSpec.Privileged⟩ cc spec.TeamID
      mount.MountPath s2 = (.error e, s1) ∧
    reqs = outputPaths.map (outputRequest cc spec) ++
      (done ++ [mount]).map (inputRequest cc spec))

/-! ## Concrete instances used in examples -/

/-- A stand-in for the library functions: nil marshals to `null`, a map to its entries
in order, and the digest is the text itself with a tag. -/
def demoLib : Lib where
  jsonMarshal := fun m =>
    match m with
    | none => "null"
    | some kvs => "map[" ++ String.join (kvs.map fun kv => kv.1 ++ ":" ++ kv.2 ++ ";") ++ "]"
  sha256Hex := fun j => "sha256:" ++ j

/-- A transaction without state that answers every statement from a table. -/
def scriptedTx (answer : Stmt → Except Error Int) : Tx Unit where
  query := fun q s => (answer q, s)
  exec := fun q s => (answer q, s)

/-- The answers of a database in which cache row 7 exists for config 3, no use row exists
yet, and the insert of the use row is answered with a unique violation, as a table with a
unique index would answer it. -/
def usesUniqueViolation : Stmt → Except Error Int
  | .selectResourceCache _ _ => .ok 7
  | .selectResourceCacheUse _ _ _ => .error .ErrNoRows
  | .insertResourceCacheUse _ _ _ => .error (.pqError "unique_violation")
  | _ => .error (.other "unexpected statement")

/-- The table of a database with no cache row, in which a racing peer inserts the row
first: the insert into `resource_caches` hits the unique index. -/
def cachesUniqueViolation : Stmt → Except Error Int
  | .selectResourceCache _ _ => .error .ErrNoRows
  | .insertResourceCache _ _ _ => .error (.pqError "unique_violation")
  | _ => .error (.other "unexpected statement")

/-- The table of a database in which cache row 7 exists and is not yet used. -/
def cacheRowExists : Stmt → Except Error Int
  | .selectResourceCache _ _ => .ok 7
  | .selectResourceCacheUse _ _ _ => .error .ErrNoRows
  | .insertResourceCacheUse _ _ _ => .ok 1
  | _ => .error (.other "unexpected statement")

/-- A cache of version `ref: abc` fetched without params. -/
def demoCache : ResourceCache := ⟨some [("ref", "abc")], none⟩

/-- The same version fetched with params `depth: 1`. -/
def demoCacheWithParams : ResourceCache := ⟨some [("ref", "abc")], some [("depth", "1")]⟩

/-- The constants as the tests and the spec show them. -/
def demoConsts : Consts := ⟨"check", "user", "ephemeral"⟩

/-- A provider on worker `w1` with the three proxy settings of the test suite. -/
def demoProvider : Provider := ⟨"w1", "http://proxy.com", "https://proxy.com", "http://noproxy.com"⟩

/-- A provider on worker `w1` with only `no_proxy` configured. -/
def noProxyOnlyProvider : Provider := ⟨"w1", "", "", "localhost"⟩

/-- Collaborators that always succeed: the runtime knows every handle, every volume
request yields a volume named after its mount path, the lock is free, the database
knows every handle as a created container, and the worker has been up for ten minutes. -/
def demoCollab : Collab Unit where
  Lookup := fun h s => ((some ⟨h⟩, none), s)
  Create := fun gs s => (.ok ⟨gs.Handle⟩, s)
  FindOrCreateVolumeForContainer := fun _ _ _ path s => (.ok ⟨"vol:" ++ path, "/volumes" ++ path⟩, s)
  GetImage := fun _ _ _ _ s => (.ok ⟨1⟩, s)
  FetchForContainer := fun _ _ s =>
    (.ok ⟨⟨["some", "env"], "image-user"⟩, "raw:///var/vcap/some-path/rootfs", some [("v", "1")]⟩, s)
  AcquireContainerCreatingLock := fun _ s => ((⟨1⟩, true, none), s)
  Release := fun _ s => ((), s)
  Sleep := fun _ s => ((), s)
  UpdateContainerTTLToBeRemoved := fun _ _ _ s => (none, s)
  Created := fun cc s => ((some ⟨cc.ID, cc.Handle⟩, none), s)
  FindVolumesForContainer := fun _ s => (.ok [], s)
  newGardenWorkerContainer := fun gc cc _ _ s => ((some ⟨gc, cc, []⟩, none), s)
  FindContainerByHandle := fun _ h s => ((some ⟨123, h⟩, true, none), s)
  Uptime := fun _ => 10 * Minute

/-- As `demoCollab`, with a runtime that has lost every container. -/
def runtimeLost : Collab Unit :=
  { demoCollab with Lookup := fun h s => ((none, some (.ContainerNotFoundError h)), s) }

/-- As `demoCollab`, with a database that knows no handle. -/
def dbEmpty : Collab Unit :=
  { demoCollab with FindContainerByHandle := fun _ _ s => ((none, false, none), s) }

/-- A container spec with one mount and one input. -/
def demoSpec : ContainerSpec where
  ImageSpec := ⟨"some-resource", true⟩
  TeamID := 1
  User := ""
  Ephemeral := false
  Env := ["A=1"]
  Mounts := [⟨⟨"cache-volume", "/volumes/cache"⟩, "/cache"⟩]
  Inputs := [⟨⟨"input-volume", "/volumes/input"⟩, "/some/input/path"⟩]

/-- An identifier of build 4, plan `p`. -/
def demoIdentifier : Identifier := ⟨4, "p", 0, none⟩

/-- Metadata of a task step. -/
def demoMetadata : Metadata := ⟨"task", "some-step", 1, "", "", ""⟩

/-- A `findContainerFunc` over a database that holds a created container `some-handle`. -/
def findsCreated : Unit →
    (Option CreatingContainer × Option CreatedContainer × Option Error) × Unit :=
  fun s => ((none, some ⟨42, "some-handle"⟩, none), s)

/-- A `createContainerFunc` that inserts a creating container `new-handle`. -/
def createsRow : Unit → Except Error CreatingContainer × Unit :=
  fun s => (.ok ⟨43, "new-handle"⟩, s)

/-- The spec that the runtime receives for `demoSpec` with the output path
`output: /some/path`, the image metadata `some, env` of user `image-user`, and the given
env. -/
def demoGardenSpec (env : List String) : GardenSpec where
  BindMounts :=
    [⟨"/volumes/some/path", "/some/path", .BindMountModeRW⟩,
     ⟨"/volumes/cache", "/cache", .BindMountModeRW⟩,
     ⟨"/volumes/some/input/path", "/some/input/path", .BindMountModeRW⟩]
  Privileged := true
  Properties := [("user", "image-user")]
  RootFSPath := "raw:///rootfs"
  Env := env
  Handle := "some-handle"

/-- As `demoCollab`, with a volume service that fails every request. -/
def volumesFail : Collab Unit :=
  { demoCollab with
    FindOrCreateVolumeForContainer := fun _ _ _ _ s => (.error (.other "oh noes"), s) }

/-- A store in which cache row 7 (config 3, version `ref: abc`) is used by build 1. -/
def storeUsed : Store :=
  ⟨[3], [("build_id", 1)], [⟨7, 3, "map[ref:abc;]", "sha256:map[]"⟩], [⟨7, "build_id", 1⟩], 8⟩

/-- A store in which cache row 7 exists and no uses row points to it. -/
def storeUnused : Store :=
  ⟨[3], [("build_id", 1)], [⟨7, 3, "map[ref:abc;]", "sha256:map[]"⟩], [], 8⟩

/-- A store with config 3 and build 1 and no cache row. -/
def storeFresh : Store := ⟨[3], [("build_id", 1)], [], [], 1⟩

/-- A store in which two racing peers have each inserted the uses row of cache 7 for
build 1: the select-then-insert of the uses row is not protected by a unique index. -/
def storeRaced : Store :=
  ⟨[3], [("build_id", 1)], [⟨7, 3, "map[ref:abc;]", "sha256:map[]"⟩],
    [⟨7, "build_id", 1⟩, ⟨7, "build_id", 1⟩], 8⟩

/-- A `findContainerFunc` over a database that holds a creating container `some-handle`
and no created one. -/
def findsCreating : Unit →
    (Option CreatingContainer × Option CreatedContainer × Option Error) × Unit :=
  fun s => ((some ⟨42, "some-handle"⟩, none, none), s)

/-- As `demoCollab`, with a runtime that cannot be reached. -/
def runtimeDown : Collab Unit :=
  { demoCollab with Lookup := fun _ s => ((none, some (.other "connection refused")), s) }

/-- As `runtimeLost`, with the creation lock held by someone else. -/
def lockBusy : Collab Unit :=
  { runtimeLost with AcquireContainerCreatingLock := fun _ s => ((⟨1⟩, false, none), s) }

/-- Collaborators over a counter of the `Sleep` calls made so far. Before the first
`Sleep` the runtime knows no container and the creation lock is held by a peer; the peer
creates the runtime container and releases the lock during the first `Sleep`. -/
def racingPeer : Collab Nat where
  Lookup := fun h n =>
    if n = 0 then ((none, some (.ContainerNotFoundError h)), n) else ((some ⟨h⟩, none), n)
  Create := fun gs n => (.ok ⟨gs.Handle⟩, n)
  FindOrCreateVolumeForContainer := fun _ _ _ path n => (.ok ⟨"vol:" ++ path, "/volumes" ++ path⟩, n)
  GetImage := fun _ _ _ _ n => (.ok ⟨1⟩, n)
  FetchForContainer := fun _ _ n =>
    (.ok ⟨⟨["some", "env"], "image-user"⟩, "raw:///var/vcap/some-path/rootfs", some [("v", "1")]⟩, n)
  AcquireContainerCreatingLock := fun _ n => ((⟨1⟩, decide (n ≠ 0), none), n)
  Release := fun _ n => ((), n)
  Sleep := fun _ n => ((), n + 1)
  UpdateContainerTTLToBeRemoved := fun _ _ _ n => (none, n)
  Created := fun cc n => ((some ⟨cc.ID, cc.Handle⟩, none), n)
  FindVolumesForContainer := fun _ n => (.ok [], n)
  newGardenWorkerContainer := fun gc cc _ _ n => ((some ⟨gc, cc, []⟩, none), n)
  FindContainerByHandle := fun _ h n => ((some ⟨123, h⟩, true, none), n)
  Uptime := fun _ => 10 * Minute

/-- The `findContainerFunc` that goes with `racingPeer`: the database holds the creating
container `some-handle` before the first `Sleep`, and the peer has marked it created
afterwards. -/
def racingFind : Nat →
    (Option CreatingContainer × Option CreatedContainer × Option Error) × Nat :=
  fun n =>
    if n = 0 then ((some ⟨42, "some-handle"⟩, none, none), n)
    else ((none, some ⟨42, "some-handle"⟩, none), n)

/-- The `createContainerFunc` that goes with `racingPeer`. -/
def racingCreate : Nat → Except Error CreatingContainer × Nat :=
  fun n => (.ok ⟨43, "new-handle"⟩, n)

/-- As `demoCollab`, with a database whose lookup by handle fails. -/
def dbDown : Collab Unit :=
  { demoCollab with
    FindContainerByHandle := fun _ _ s => ((none, false, some (.other "failure!")), s) }

/-- Three volumes, given by an identity and a handle: two of them share the lowest
handle. -/
def demoVolumes : List (Nat × String) := [(1, "b"), (2, "a"), (3, "a")]

/-- A registry with the worker `some-name` in a given state, due to expire one hour after
time 0, with one container of build 1 in a given status. -/
def demoRegistry (state : WorkerState) (status : BuildStatus) : Registry where
  workers := [⟨"some-name", state, 0, some (1 * Hour)⟩, ⟨"other-name", .Running, 3, none⟩]
  containers := [⟨"some-name", some 1⟩, ⟨"some-name", none⟩]
  builds := [⟨1, status⟩]

/-- A database that computes the refreshed expiry of a heartbeat as its time `now` plus the
ttl. -/
def refreshAt (now : Time) : Duration → Option Time → Time :=
  fun ttl _ => now + ttl

/-- A `findContainerFunc` over a database that holds no container. -/
def findsNothing : Unit →
    (Option CreatingContainer × Option CreatedContainer × Option Error) × Unit :=
  fun s => ((none, none, none), s)

/-- Collaborators of `FindOrCreateResourceGetContainer` over a database that holds the
resource cache 7 and no container for it, for a worker at `10.0.0.1:7777`. -/
def demoCacheCollab : CacheCollab Unit where
  FindOrCreateResourceCacheForBuild := fun _ _ _ _ _ _ _ s =>
    (.ok ⟨7, ⟨3⟩, some [("ref", "abc")]⟩, s)
  FindOrCreateResourceCacheForResource := fun _ _ _ _ _ _ _ s =>
    (.ok ⟨7, ⟨3⟩, some [("ref", "abc")]⟩, s)
  FindOrCreateResourceCacheForResourceType := fun _ _ _ _ _ _ s =>
    (.ok ⟨7, ⟨3⟩, some [("ref", "abc")]⟩, s)
  FindResourceGetContainer := fun _ _ _ _ s => ((none, none, none), s)
  CreateResourceGetContainer := fun _ _ _ _ s => (.ok ⟨43, "new-handle"⟩, s)
  Address := fun _ => "10.0.0.1:7777"

/-- As `demoCollab`, with a volume service that creates output volumes and fails every
request for a copy-on-write volume. -/
def inputVolumesFail : Collab Unit :=
  { demoCollab with
    FindOrCreateVolumeForContainer := fun volumeSpec _ _ path s =>
      match volumeSpec.Strategy with
      | .OutputStrategy _ => (.ok ⟨"vol:" ++ path, "/volumes" ++ path⟩, s)
      | .ContainerRootFSStrategy _ => (.error (.other "oh noes"), s) }

/-! ## dbng: theorems -/

/-- C4. `paramsHash` of the nil map equals `paramsHash` of the empty map, whatever the
JSON encoder and the digest are (the nil map itself would marshal differently). -/
theorem paramsHash_nil_eq_empty (lib : Lib) : paramsHash lib none = paramsHash lib (some []) := by
  simp [paramsHash]

/-- Why the schema matters for the second insert: a transaction that answers the insert
into `resource_cache_uses` with a unique violation, which the tables never do, gets that
error back unchanged, since lines 171-176 of `resource_cache.go` test the foreign-key
violation only. -/
theorem findOrCreate_uses_unique_violation_returned :
    (findOrCreate demoLib (scriptedTx usesUniqueViolation) demoCache ⟨3⟩ "build_id" 1
        ⟨(), []⟩).2.log
      = [(Stmt.selectResourceCache 3 "map[ref:abc;]", Except.ok 7),
         (Stmt.selectResourceCacheUse 7 "build_id" 1, Except.error Error.ErrNoRows),
         (Stmt.insertResourceCacheUse 7 "build_id" 1,
           Except.error (Error.pqError "unique_violation"))] ∧
    (findOrCreate demoLib (scriptedTx usesUniqueViolation) demoCache ⟨3⟩ "build_id" 1
        ⟨(), []⟩).1 = (none, some (Error.pqError "unique_violation")) ∧
    (findOrCreate demoLib (scriptedTx usesUniqueViolation) demoCache ⟨3⟩ "build_id" 1
        ⟨(), []⟩).1 ≠ (none, some Error.ErrSafeRetryFindOrCreate) := by
  refine ⟨rfl, rfl, ?_⟩
  decide

/-- The three violations that the code tests, on every transaction: if the insert into
`resource_caches` fails with a foreign-key or a unique violation, or the insert into
`resource_cache_uses` fails with a foreign-key violation, `findOrCreate` returns
`ErrSafeRetryFindOrCreate` and no `UsedResourceCache`. -/
theorem findOrCreate_safe_retry {σ : Type} (lib : Lib) (tx : Tx σ) (cache : ResourceCache)
    (resourceConfig : UsedResourceConfig) (forColumnName : String) (forColumnID : Int)
    (d : Db σ) (q : Stmt) (e : Error)
    (hq : (q, Except.error e) ∈
      (findOrCreate lib tx cache resourceConfig forColumnName forColumnID d).2.since d)
    (he : ((∃ a b c, q = Stmt.insertResourceCache a b c) ∧
            (e.isPq "foreign_key_violation" = true ∨ e.isPq "unique_violation" = true)) ∨
          ((∃ a b c, q = Stmt.insertResourceCacheUse a b c) ∧
            e.isPq "foreign_key_violation" = true)) :
    (findOrCreate lib tx cache resourceConfig forColumnName forColumnID d).1
      = (none, some Error.ErrSafeRetryFindOrCreate) := by
  revert hq
  simp only [findOrCreate, findWithResourceConfig, findOrCreateUse, Tx.runQuery, Tx.runExec,
    Db.since]
  generalize tx.query (Stmt.selectResourceCache resourceConfig.ID (cache.version lib)) d.st = r1
  obtain ⟨o1, s1⟩ := r1
  rcases o1 with e1 | id1
  · by_cases h1 : e1 = Error.ErrNoRows
    · subst h1
      simp only [if_true]
      generalize tx.query (Stmt.insertResourceCache resourceConfig.ID (cache.version lib)
        (paramsHash lib cache.Params)) s1 = r2
      obtain ⟨o2, s2⟩ := r2
      rcases o2 with e2 | id2
      · simp only []
        (intro hq; rcases he with ⟨⟨a, b, c, rfl⟩, h⟩ | ⟨⟨a, b, c, rfl⟩, h⟩ <;> split_ifs at hq ⊢ <;>
          simp_all [List.append_assoc])
      · simp only []
        generalize tx.query (Stmt.selectResourceCacheUse id2 forColumnName forColumnID) s2 = r3
        obtain ⟨o3, s3⟩ := r3
        rcases o3 with e3 | n3
        · by_cases h3 : e3 = Error.ErrNoRows
          · subst h3
            simp only [if_true]
            generalize tx.exec (Stmt.insertResourceCacheUse id2 forColumnName forColumnID) s3 = r4
            obtain ⟨o4, s4⟩ := r4
            rcases o4 with e4 | n4
            · simp only []
              (intro hq; rcases he with ⟨⟨a, b, c, rfl⟩, h⟩ | ⟨⟨a, b, c, rfl⟩, h⟩ <;> split_ifs at hq ⊢ <;>
          simp_all [List.append_assoc])
            · simp only []
              (intro hq; rcases he with ⟨⟨a, b, c, rfl⟩, h⟩ | ⟨⟨a, b, c, rfl⟩, h⟩ <;> simp_all [List.append_assoc])
          · simp only [h3, if_false]
            (intro hq; rcases he with ⟨⟨a, b, c, rfl⟩, h⟩ | ⟨⟨a, b, c, rfl⟩, h⟩ <;> simp_all [List.append_assoc])
        · simp only []
          (intro hq; rcases he with ⟨⟨a, b, c, rfl⟩, h⟩ | ⟨⟨a, b, c, rfl⟩, h⟩ <;> simp_all [List.append_assoc])
    · simp only [h1, if_false]
      (intro hq; rcases he with ⟨⟨a, b, c, rfl⟩, h⟩ | ⟨⟨a, b, c, rfl⟩, h⟩ <;> simp_all [List.append_assoc])
  · simp only []
    generalize tx.query (Stmt.selectResourceCacheUse id1 forColumnName forColumnID) s1 = r3
    obtain ⟨o3, s3⟩ := r3
    rcases o3 with e3 | n3
    · by_cases h3 : e3 = Error.ErrNoRows
      · subst h3
        simp only [if_true]
        generalize tx.exec (Stmt.insertResourceCacheUse id1 forColumnName forColumnID) s3 = r4
        obtain ⟨o4, s4⟩ := r4
        rcases o4 with e4 | n4
        · simp only []
          (intro hq; rcases he with ⟨⟨a, b, c, rfl⟩, h⟩ | ⟨⟨a, b, c, rfl⟩, h⟩ <;> split_ifs at hq ⊢ <;>
          simp_all [List.append_assoc])
        · simp only []
          (intro hq; rcases he with ⟨⟨a, b, c, rfl⟩, h⟩ | ⟨⟨a, b, c, rfl⟩, h⟩ <;> simp_all [List.append_assoc])
      · simp only [h3, if_false]
        (intro hq; rcases he with ⟨⟨a, b, c, rfl⟩, h⟩ | ⟨⟨a, b, c, rfl⟩, h⟩ <;> simp_all [List.append_assoc])
    · simp only []
      (intro hq; rcases he with ⟨⟨a, b, c, rfl⟩, h⟩ | ⟨⟨a, b, c, rfl⟩, h⟩ <;> simp_all [List.append_assoc])

/-- An insert into `resource_cache_uses` that `findOrCreate` has issued was answered by
the transaction in some state. -/
theorem findOrCreate_uses_insert_answer {σ : Type} (lib : Lib) (tx : Tx σ)
    (cache : ResourceCache) (resourceConfig : UsedResourceConfig) (forColumnName : String)
    (forColumnID : Int) (d : Db σ) (a : Int) (b : String) (c : Int) (o : Except Error Int)
    (hq : (Stmt.insertResourceCacheUse a b c, o) ∈
      (findOrCreate lib tx cache resourceConfig forColumnName forColumnID d).2.since d) :
    ∃ s, o = (tx.exec (Stmt.insertResourceCacheUse a b c) s).1 := by
  revert hq
  simp only [findOrCreate, findWithResourceConfig, findOrCreateUse, Tx.runQuery, Tx.runExec,
    Db.since]
  generalize tx.query (Stmt.selectResourceCache resourceConfig.ID (cache.version lib)) d.st = r1
  obtain ⟨o1, s1⟩ := r1
  rcases o1 with e1 | id1
  · by_cases h1 : e1 = Error.ErrNoRows
    · subst h1
      simp only [if_true]
      generalize tx.query (Stmt.insertResourceCache resourceConfig.ID (cache.version lib)
        (paramsHash lib cache.Params)) s1 = r2
      obtain ⟨o2, s2⟩ := r2
      rcases o2 with e2 | id2
      · simp only []
        intro hq
        split_ifs at hq <;> simp_all [List.append_assoc]
      · simp only []
        generalize tx.query (Stmt.selectResourceCacheUse id2 forColumnName forColumnID) s2 = r3
        obtain ⟨o3, s3⟩ := r3
        rcases o3 with e3 | n3
        · by_cases h3 : e3 = Error.ErrNoRows
          · subst h3
            simp only [if_true]
            generalize h4 :
              tx.exec (Stmt.insertResourceCacheUse id2 forColumnName forColumnID) s3 = r4
            obtain ⟨o4, s4⟩ := r4
            have key : (Stmt.insertResourceCacheUse a b c, o)
                = (Stmt.insertResourceCacheUse id2 forColumnName forColumnID, o4) →
                ∃ s, o = (tx.exec (Stmt.insertResourceCacheUse a b c) s).1 := by
              intro h
              have hs := (Prod.mk.inj h).1
              have ho := (Prod.mk.inj h).2
              exact ⟨s3, by rw [hs, h4, ho]⟩
            rcases o4 with e4 | n4
            · simp only []
              intro hq
              split_ifs at hq <;> simp_all [List.append_assoc]
            · simp only []
              intro hq
              simp_all [List.append_assoc]
          · simp only [h3, if_false]
            intro hq
            simp_all [List.append_assoc]
        · simp only []
          intro hq
          simp_all [List.append_assoc]
    · simp only [h1, if_false]
      intro hq
      simp_all [List.append_assoc]
  · simp only []
    generalize tx.query (Stmt.selectResourceCacheUse id1 forColumnName forColumnID) s1 = r3
    obtain ⟨o3, s3⟩ := r3
    rcases o3 with e3 | n3
    · by_cases h3 : e3 = Error.ErrNoRows
      · subst h3
        simp only [if_true]
        generalize h4 :
          tx.exec (Stmt.insertResourceCacheUse id1 forColumnName forColumnID) s3 = r4
        obtain ⟨o4, s4⟩ := r4
        have key : (Stmt.insertResourceCacheUse a b c, o)
            = (Stmt.insertResourceCacheUse id1 forColumnName forColumnID, o4) →
            ∃ s, o = (tx.exec (Stmt.insertResourceCacheUse a b c) s).1 := by
          intro h
          have hs := (Prod.mk.inj h).1
          have ho := (Prod.mk.inj h).2
          exact ⟨s3, by rw [hs, h4, ho]⟩
        rcases o4 with e4 | n4
        · simp only []
          intro hq
          split_ifs at hq <;> simp_all [List.append_assoc]
        · simp only []
          intro hq
          simp_all [List.append_assoc]
      · simp only [h3, if_false]
        intro hq
        simp_all [List.append_assoc]
    · simp only []
      intro hq
      simp_all [List.append_assoc]

/-- On the tables an insert into `resource_cache_uses` fails only with a foreign-key
violation: the table has no unique index. -/
theorem Store.run_insertResourceCacheUse_error (id : Int) (col : String) (cid : Int)
    (st : Store) (e : Error)
    (h : (Store.run (Stmt.insertResourceCacheUse id col cid) st).1 = .error e) :
    e = Error.pqError "foreign_key_violation" := by
  simp only [Store.run] at h
  split_ifs at h <;> simp_all

/-- C9. Let the database keep to the schema, in which `resource_cache_uses` has no unique
index: no insert into that table is answered with a unique violation (`hschema`, which
the tables satisfy by `Store.run_insertResourceCacheUse_error`). If one of the two
inserts of `findOrCreate`, the one into `resource_caches` or the one into
`resource_cache_uses`, fails with a foreign-key violation or with a unique violation,
`findOrCreate` returns `ErrSafeRetryFindOrCreate` and no `UsedResourceCache`. -/
theorem findOrCreate_failed_insert_safe_retry {σ : Type} (lib : Lib) (tx : Tx σ)
    (cache : ResourceCache) (resourceConfig : UsedResourceConfig) (forColumnName : String)
    (forColumnID : Int) (d : Db σ) (q : Stmt) (e : Error)
    (hschema : ∀ id col cid s e1,
      (tx.exec (Stmt.insertResourceCacheUse id col cid) s).1 = .error e1 →
      e1.isPq "unique_violation" = false)
    (hq : (q, Except.error e) ∈
      (findOrCreate lib tx cache resourceConfig forColumnName forColumnID d).2.since d)
    (hins : (∃ a b c, q = Stmt.insertResourceCache a b c) ∨
      (∃ a b c, q = Stmt.insertResourceCacheUse a b c))
    (he : e.isPq "foreign_key_violation" = true ∨ e.isPq "unique_violation" = true) :
    (findOrCreate lib tx cache resourceConfig forColumnName forColumnID d).1
      = (none, some Error.ErrSafeRetryFindOrCreate) := by
  rcases hins with ⟨a, b, c, rfl⟩ | ⟨a, b, c, rfl⟩
  · exact findOrCreate_safe_retry lib tx cache resourceConfig forColumnName forColumnID d _ e hq
      (Or.inl ⟨⟨a, b, c, rfl⟩, he⟩)
  · rcases he with he | he
    · exact findOrCreate_safe_retry lib tx cache resourceConfig forColumnName forColumnID d _ e
        hq (Or.inr ⟨⟨a, b, c, rfl⟩, he⟩)
    · obtain ⟨s, hs⟩ := findOrCreate_uses_insert_answer lib tx cache resourceConfig
        forColumnName forColumnID d a b c _ hq
      rw [hschema a b c s e hs.symm] at he
      cases he

/-- C9, instances: a racing peer makes the insert into `resource_caches` fail with a
unique violation; and on the tables, where build 2 does not exist, the insert into
`resource_cache_uses` for cache row 7 fails with a foreign-key violation. Both calls
return `ErrSafeRetryFindOrCreate`. -/
theorem findOrCreate_failed_insert_safe_retry_witness :
    (findOrCreate demoLib (scriptedTx cachesUniqueViolation) demoCache ⟨3⟩ "build_id" 1
        ⟨(), []⟩).1 = (none, some Error.ErrSafeRetryFindOrCreate) ∧
    (findOrCreate demoLib storeTx demoCache ⟨3⟩ "build_id" 2 ⟨storeUnused, []⟩).2.log
      = [(Stmt.selectResourceCache 3 "map[ref:abc;]", Except.ok 7),
         (Stmt.selectResourceCacheUse 7 "build_id" 2, Except.error Error.ErrNoRows),
         (Stmt.insertResourceCacheUse 7 "build_id" 2,
           Except.error (Error.pqError "foreign_key_violation"))] ∧
    (findOrCreate demoLib storeTx demoCache ⟨3⟩ "build_id" 2 ⟨storeUnused, []⟩).1
      = (none, some Error.ErrSafeRetryFindOrCreate) :=
  ⟨findOrCreate_failed_insert_safe_retry demoLib (scriptedTx cachesUniqueViolation) demoCache
      ⟨3⟩ "build_id" 1 ⟨(), []⟩ (Stmt.insertResourceCache 3 "map[ref:abc;]" "sha256:map[]")
      (Error.pqError "unique_violation")
      (fun _ _ _ _ _ h => by cases h; rfl)
      (List.mem_cons_of_mem _ (List.mem_singleton.mpr rfl))
      (Or.inl ⟨3, "map[ref:abc;]", "sha256:map[]", rfl⟩) (Or.inr rfl),
   rfl,
   findOrCreate_failed_insert_safe_retry demoLib storeTx demoCache ⟨3⟩ "build_id" 2
      ⟨storeUnused, []⟩ (Stmt.insertResourceCacheUse 7 "build_id" 2)
      (Error.pqError "foreign_key_violation")
      (fun id col cid s e1 h => by
        rw [Store.run_insertResourceCacheUse_error id col cid s e1 h]; rfl)
      (List.mem_cons_of_mem _ (List.mem_cons_of_mem _ (List.mem_singleton.mpr rfl)))
      (Or.inr ⟨7, "build_id", 2, rfl⟩) (Or.inl rfl)⟩

/-- C10. The lookup of a resource cache reads only the config id and the version: two
caches that differ only in `Params` get the same answer in every database state; and when
the lookup finds row `id`, `findOrCreate` issues no insert into `resource_caches` and,
unless ensuring the use row fails, returns a `UsedResourceCache` with that `id`, whatever
the params are. -/
theorem findOrCreate_lookup_ignores_params {σ : Type} (lib : Lib) (tx : Tx σ)
    (c1 c2 : ResourceCache) (resourceConfig : UsedResourceConfig) (forColumnName : String)
    (forColumnID : Int) (d : Db σ) (hv : c1.Version = c2.Version) :
    findWithResourceConfig lib tx c2 resourceConfig d
        = findWithResourceConfig lib tx c1 resourceConfig d ∧
    ∀ id, (findWithResourceConfig lib tx c1 resourceConfig d).1 = (id, true, none) →
      (∀ a b c o, (Stmt.insertResourceCache a b c, o) ∉
        (findOrCreate lib tx c2 resourceConfig forColumnName forColumnID d).2.since d) ∧
      ((findOrCreate lib tx c2 resourceConfig forColumnName forColumnID d).1
          = (some ⟨id, resourceConfig, c2.Version⟩, none) ∨
        ((findOrCreate lib tx c2 resourceConfig forColumnName forColumnID d).1.1 = none ∧
          (findOrCreate lib tx c2 resourceConfig forColumnName forColumnID d).1.2 ≠ none)) := by
  have hver : c2.version lib = c1.version lib := by simp [ResourceCache.version, hv]
  refine ⟨by simp only [findWithResourceConfig, hver], ?_⟩
  intro id
  simp only [findOrCreate, findWithResourceConfig, findOrCreateUse, Tx.runQuery, Tx.runExec,
    Db.since, hver]
  generalize tx.query (Stmt.selectResourceCache resourceConfig.ID (c1.version lib)) d.st = r1
  obtain ⟨o1, s1⟩ := r1
  rcases o1 with e1 | id1
  · by_cases h1 : e1 = Error.ErrNoRows <;> simp [h1]
  · simp only []
    intro hid
    obtain rfl : id1 = id := by simpa using hid
    generalize tx.query (Stmt.selectResourceCacheUse id1 forColumnName forColumnID) s1 = r3
    obtain ⟨o3, s3⟩ := r3
    rcases o3 with e3 | n3
    · by_cases h3 : e3 = Error.ErrNoRows
      · subst h3
        simp only [if_true]
        generalize tx.exec (Stmt.insertResourceCacheUse id1 forColumnName forColumnID) s3 = r4
        obtain ⟨o4, s4⟩ := r4
        rcases o4 with e4 | n4
        · simp only []
          split_ifs <;> simp [List.append_assoc]
        · simp [List.append_assoc]
      · simp [h3, List.append_assoc]
    · simp [List.append_assoc]

/-- C10, an instance: cache row 7 exists for config 3 and version `ref: abc`; a cache with
params `depth: 1` and a cache without params both get row 7 and insert nothing. -/
theorem findOrCreate_lookup_ignores_params_witness :
    findWithResourceConfig demoLib (scriptedTx cacheRowExists) demoCacheWithParams ⟨3⟩ ⟨(), []⟩
        = findWithResourceConfig demoLib (scriptedTx cacheRowExists) demoCache ⟨3⟩ ⟨(), []⟩ ∧
    (findOrCreate demoLib (scriptedTx cacheRowExists) demoCacheWithParams ⟨3⟩ "build_id" 1
        ⟨(), []⟩).1 = (some ⟨7, ⟨3⟩, some [("ref", "abc")]⟩, none) ∧
    ∀ a b c o, (Stmt.insertResourceCache a b c, o) ∉
      (findOrCreate demoLib (scriptedTx cacheRowExists) demoCacheWithParams ⟨3⟩ "build_id" 1
        ⟨(), []⟩).2.since ⟨(), []⟩ :=
  ⟨(findOrCreate_lookup_ignores_params demoLib (scriptedTx cacheRowExists) demoCache
      demoCacheWithParams ⟨3⟩ "build_id" 1 ⟨(), []⟩ rfl).1,
   rfl,
   ((findOrCreate_lookup_ignores_params demoLib (scriptedTx cacheRowExists) demoCache
      demoCacheWithParams ⟨3⟩ "build_id" 1 ⟨(), []⟩ rfl).2 7 rfl).1⟩

/-- C11, what the code does. On every transaction `Destroy` issues one statement, the
delete of the row of `resource_caches`, and does not read `resource_cache_uses`; it
returns `ErrResourceCacheDisappeared` only when that delete affects no row (or the
database itself answers with that error). On the tables, where deletion cascades to the
uses rows, a cache whose row exists is destroyed whether or not uses rows point to it:
`Destroy` returns `(true, nil)`, and afterwards neither the row nor a uses row of the
cache is present; and `Destroy` returns `ErrResourceCacheDisappeared` exactly when no row
of `resource_caches` has the id. -/
theorem Destroy_still_used {σ : Type} (tx : Tx σ) (dσ : Db σ) (cache : UsedResourceCache)
    (d : Db Store) :
    (cache.Destroy tx dσ).2.log
      = dσ.log ++ [(Stmt.deleteResourceCache cache.ID,
          (tx.exec (Stmt.deleteResourceCache cache.ID) dσ.st).1)] ∧
    ((cache.Destroy tx dσ).1 = (false, some Error.ErrResourceCacheDisappeared) →
      (tx.exec (Stmt.deleteResourceCache cache.ID) dσ.st).1 = .ok 0 ∨
      (tx.exec (Stmt.deleteResourceCache cache.ID) dσ.st).1
        = .error Error.ErrResourceCacheDisappeared) ∧
    (d.st.cachesWithID cache.ID ≠ [] →
      (cache.Destroy storeTx d).1 = (true, none) ∧
      (cache.Destroy storeTx d).2.st.cachesWithID cache.ID = [] ∧
      (cache.Destroy storeTx d).2.st.usesOf cache.ID = []) ∧
    ((cache.Destroy storeTx d).1 = (false, some Error.ErrResourceCacheDisappeared) ↔
      d.st.cachesWithID cache.ID = []) := by
  refine ⟨?_, ?_, ?_, ?_⟩
  · simp only [UsedResourceCache.Destroy, Tx.runExec]
    generalize tx.exec (Stmt.deleteResourceCache cache.ID) dσ.st = r
    obtain ⟨o, s1⟩ := r
    cases o with
    | error e => rfl
    | ok n => by_cases hn : n = 0 <;> simp [hn]
  · simp only [UsedResourceCache.Destroy, Tx.runExec]
    generalize tx.exec (Stmt.deleteResourceCache cache.ID) dσ.st = r
    obtain ⟨o, s1⟩ := r
    cases o with
    | error e =>
      intro h
      have he := (Prod.mk.inj h).2
      simp only [Option.some.injEq] at he
      exact Or.inr (by rw [he])
    | ok n => by_cases hn : n = 0 <;> simp [hn]
  · intro hrow
    have hlen : ((d.st.cachesWithID cache.ID).length : Int) ≠ 0 := by
      intro h
      exact hrow (List.length_eq_zero.mp (by exact_mod_cast h))
    simp only [UsedResourceCache.Destroy, Tx.runExec, storeTx, Store.run, if_neg hrow,
      if_neg hlen]
    simp [Store.cachesWithID, Store.usesOf, List.filter_filter]
  · by_cases hrow : d.st.cachesWithID cache.ID = []
    · simp [UsedResourceCache.Destroy, Tx.runExec, storeTx, Store.run, hrow]
    · have hlen : ((d.st.cachesWithID cache.ID).length : Int) ≠ 0 := by
        intro h
        exact hrow (List.length_eq_zero.mp (by exact_mod_cast h))
      simp [UsedResourceCache.Destroy, Tx.runExec, storeTx, Store.run, hrow, hlen]

/-- C11, instance: cache row 7 is used by build 1; `Destroy` returns `(true, nil)`, not
`ErrResourceCacheDisappeared`, and afterwards neither the row of `resource_caches` nor
its row of `resource_cache_uses` is present. -/
theorem Destroy_still_used_witness :
    (storeUsed.cachesWithID 7 ≠ [] ∧ storeUsed.usesOf 7 = [⟨7, "build_id", 1⟩]) ∧
    (UsedResourceCache.Destroy storeTx ⟨7, ⟨3⟩, none⟩ ⟨storeUsed, []⟩).1 = (true, none) ∧
    (UsedResourceCache.Destroy storeTx ⟨7, ⟨3⟩, none⟩ ⟨storeUsed, []⟩).2.st.cachesWithID 7
      = [] ∧
    (UsedResourceCache.Destroy storeTx ⟨7, ⟨3⟩, none⟩ ⟨storeUsed, []⟩).2.st.usesOf 7 = [] :=
  ⟨⟨by decide, rfl⟩,
   (Destroy_still_used storeTx ⟨storeUsed, []⟩ ⟨7, ⟨3⟩, none⟩ ⟨storeUsed, []⟩).2.2.1
     (by decide)⟩

/-- C12. `Destroy` on an id without a row of `resource_caches` returns
`(false, ErrResourceCacheDisappeared)` and leaves the store as it is; when the delete
succeeds and removes rows, `Destroy` returns `(true, nil)` and no row with the id
remains; and on no transaction does `Destroy` return `true` together with an error. -/
theorem Destroy_gone_or_removed {σ : Type} (tx : Tx σ) (dσ : Db σ) (cache : UsedResourceCache)
    (d : Db Store) :
    (d.st.cachesWithID cache.ID = [] →
      (cache.Destroy storeTx d).1 = (false, some Error.ErrResourceCacheDisappeared) ∧
      (cache.Destroy storeTx d).2.st = d.st) ∧
    (∀ n, (storeTx.exec (Stmt.deleteResourceCache cache.ID) d.st).1 = .ok n → n ≠ 0 →
      (cache.Destroy storeTx d).1 = (true, none) ∧
      (cache.Destroy storeTx d).2.st.cachesWithID cache.ID = []) ∧
    ¬ ((cache.Destroy tx dσ).1.1 = true ∧ (cache.Destroy tx dσ).1.2 ≠ none) := by
  refine ⟨?_, ?_, ?_⟩
  · intro hrow
    simp [UsedResourceCache.Destroy, Tx.runExec, storeTx, Store.run, hrow]
  · intro n
    simp only [UsedResourceCache.Destroy, Tx.runExec, storeTx, Store.run]
    by_cases hrow : d.st.cachesWithID cache.ID = []
    · simp only [hrow, if_true]
      rintro ⟨⟩ hn
      exact absurd rfl hn
    · simp only [hrow, if_false]
      rintro ⟨⟩ hn
      rw [if_neg hn]
      simp [Store.cachesWithID, List.filter_filter]
  · simp only [UsedResourceCache.Destroy, Tx.runExec]
    generalize tx.exec (Stmt.deleteResourceCache cache.ID) dσ.st = r
    obtain ⟨o, s1⟩ := r
    cases o with
    | error e => simp
    | ok n => by_cases hn : n = 0 <;> simp [hn]

/-- C12, instances: in a store without cache rows the cache has disappeared; the unused
cache row 7 is removed. -/
theorem Destroy_gone_or_removed_witness :
    ((UsedResourceCache.Destroy storeTx ⟨7, ⟨3⟩, none⟩ ⟨storeFresh, []⟩).1
        = (false, some Error.ErrResourceCacheDisappeared) ∧
      (UsedResourceCache.Destroy storeTx ⟨7, ⟨3⟩, none⟩ ⟨storeFresh, []⟩).2.st = storeFresh) ∧
    ((UsedResourceCache.Destroy storeTx ⟨7, ⟨3⟩, none⟩ ⟨storeUnused, []⟩).1 = (true, none) ∧
      (UsedResourceCache.Destroy storeTx ⟨7, ⟨3⟩, none⟩ ⟨storeUnused, []⟩).2.st.cachesWithID 7
        = []) :=
  ⟨(Destroy_gone_or_removed storeTx ⟨storeFresh, []⟩ ⟨7, ⟨3⟩, none⟩ ⟨storeFresh, []⟩).1 rfl,
   (Destroy_gone_or_removed storeTx ⟨storeFresh, []⟩ ⟨7, ⟨3⟩, none⟩ ⟨storeUnused, []⟩).2.1 1 rfl
      (by decide)⟩

/-- A query whose answer is known appends itself and the answer to the log. -/
theorem Tx.runQuery_eq {σ : Type} (tx : Tx σ) {q : Stmt} {st s : σ} {o : Except Error Int}
    (h : tx.query q st = (o, s)) (log : List (Stmt × Except Error Int)) :
    tx.runQuery q ⟨st, log⟩ = (o, ⟨s, log ++ [(q, o)]⟩) := by
  simp [Tx.runQuery, h]

/-- An exec whose answer is known appends itself and the answer to the log. -/
theorem Tx.runExec_eq {σ : Type} (tx : Tx σ) {q : Stmt} {st s : σ} {o : Except Error Int}
    (h : tx.exec q st = (o, s)) (log : List (Stmt × Except Error Int)) :
    tx.runExec q ⟨st, log⟩ = (o, ⟨s, log ++ [(q, o)]⟩) := by
  simp [Tx.runExec, h]

/-- On the tables of `Store`, when the lookup finds a row and its uses row exists,
`findOrCreate` returns that row's id and leaves the tables as they are. -/
theorem findOrCreate_store_present (lib : Lib) (cache : ResourceCache)
    (resourceConfig : UsedResourceConfig) (forColumnName : String) (forColumnID : Int)
    (d : Db Store) (r : ResourceCacheRow) (rest : List ResourceCacheRow)
    (hrow : d.st.cachesFor resourceConfig.ID (cache.version lib) = r :: rest)
    (huse : d.st.usesFor r.id forColumnName forColumnID ≠ []) :
    (findOrCreate lib storeTx cache resourceConfig forColumnName forColumnID d).1
      = (some ⟨r.id, resourceConfig, cache.Version⟩, none) ∧
    (findOrCreate lib storeTx cache resourceConfig forColumnName forColumnID d).2.st = d.st := by
  obtain ⟨u, us, hus⟩ := List.exists_cons_of_ne_nil huse
  simp [findOrCreate, findWithResourceConfig, findOrCreateUse, Tx.runQuery, storeTx, Store.run,
    hrow, hus]

/-- On the tables of `Store`, ensuring the uses row succeeds only with the given value,
leaves `resource_caches` as it is, and ends with a uses row for the owner, added only
when there was none. -/
theorem findOrCreateUse_store_post (rc u : UsedResourceCache) (forColumnName : String)
    (forColumnID : Int) (st : Store) (log : List (Stmt × Except Error Int))
    (h : (findOrCreateUse storeTx rc forColumnName forColumnID ⟨st, log⟩).1 = (some u, none)) :
    u = rc ∧
    (findOrCreateUse storeTx rc forColumnName forColumnID ⟨st, log⟩).2.st.resourceCaches
      = st.resourceCaches ∧
    (findOrCreateUse storeTx rc forColumnName forColumnID ⟨st, log⟩).2.st.usesFor rc.ID
      forColumnName forColumnID ≠ [] ∧
    ((findOrCreateUse storeTx rc forColumnName forColumnID ⟨st, log⟩).2.st.usesFor rc.ID
      forColumnName forColumnID).length
      = max 1 (st.usesFor rc.ID forColumnName forColumnID).length := by
  generalize hres : findOrCreateUse storeTx rc forColumnName forColumnID ⟨st, log⟩ = res at h ⊢
  simp only [findOrCreateUse] at hres
  cases huse : st.usesFor rc.ID forColumnName forColumnID with
  | nil =>
    have e3 : storeTx.query (.selectResourceCacheUse rc.ID forColumnName forColumnID) st
        = (.error .ErrNoRows, st) := by simp [storeTx, Store.run, huse]
    simp only [Tx.runQuery_eq storeTx e3, if_true] at hres
    by_cases hok : st.cachesWithID rc.ID ≠ [] ∧ (forColumnName, forColumnID) ∈ st.owners
    · have e4 : storeTx.exec (.insertResourceCacheUse rc.ID forColumnName forColumnID) st
          = (.ok 1, { st with
              resourceCacheUses := st.resourceCacheUses ++
                [⟨rc.ID, forColumnName, forColumnID⟩] }) := by
        simp [storeTx, Store.run, hok.1, hok.2]
      simp only [Tx.runExec_eq storeTx e4] at hres
      subst hres
      obtain rfl : u = rc := by simpa using h.symm
      have huse2 : List.filter (fun x => decide (x =
          (⟨u.ID, forColumnName, forColumnID⟩ : ResourceCacheUseRow)))
          st.resourceCacheUses = [] := huse
      refine ⟨rfl, rfl, ?_, ?_⟩
      · simp [Store.usesFor, List.filter_append]
      · simp [Store.usesFor, List.filter_append, huse2]
    · have e4 : storeTx.exec (.insertResourceCacheUse rc.ID forColumnName forColumnID) st
          = (.error (.pqError "foreign_key_violation"), st) := by
        simp only [storeTx, Store.run]
        by_cases h1 : st.cachesWithID rc.ID = []
        · simp [h1]
        · have h2 : (forColumnName, forColumnID) ∉ st.owners := fun hm => hok ⟨h1, hm⟩
          simp [h1, h2]
      simp only [Tx.runExec_eq storeTx e4] at hres
      subst hres
      simp [Error.isPq] at h
  | cons u0 us =>
    have e3 : storeTx.query (.selectResourceCacheUse rc.ID forColumnName forColumnID) st
        = (.ok 1, st) := by simp [storeTx, Store.run, huse]
    simp only [Tx.runQuery_eq storeTx e3] at hres
    subst hres
    obtain rfl : u = rc := by simpa using h.symm
    simp [huse]

/-- On the tables of `Store`, a successful `findOrCreate` ends in a store in which the
first row with the config and version has the returned id and a uses row for the owner
exists; a row is added to a table only when the table had none. -/
theorem findOrCreate_store_post (lib : Lib) (cache : ResourceCache)
    (resourceConfig : UsedResourceConfig) (forColumnName : String) (forColumnID : Int)
    (d : Db Store) (u : UsedResourceCache)
    (h : (findOrCreate lib storeTx cache resourceConfig forColumnName forColumnID d).1
      = (some u, none)) :
    u = ⟨u.ID, resourceConfig, cache.Version⟩ ∧
    (∃ r rest,
      (findOrCreate lib storeTx cache resourceConfig forColumnName forColumnID d).2.st.cachesFor
        resourceConfig.ID (cache.version lib) = r :: rest ∧ r.id = u.ID) ∧
    (findOrCreate lib storeTx cache resourceConfig forColumnName forColumnID d).2.st.usesFor
        u.ID forColumnName forColumnID ≠ [] ∧
    ((findOrCreate lib storeTx cache resourceConfig forColumnName forColumnID d).2.st.cachesFor
        resourceConfig.ID (cache.version lib)).length
      = max 1 (d.st.cachesFor resourceConfig.ID (cache.version lib)).length ∧
    ((findOrCreate lib storeTx cache resourceConfig forColumnName forColumnID d).2.st.usesFor
        u.ID forColumnName forColumnID).length
      = max 1 (d.st.usesFor u.ID forColumnName forColumnID).length := by
  obtain ⟨st, log⟩ := d
  revert h
  simp only [findOrCreate, findWithResourceConfig]
  cases hrow : st.cachesFor resourceConfig.ID (cache.version lib) with
  | nil =>
    have e1 : storeTx.query (.selectResourceCache resourceConfig.ID (cache.version lib)) st
        = (.error .ErrNoRows, st) := by simp [storeTx, Store.run, hrow]
    simp only [Tx.runQuery_eq storeTx e1, if_true]
    by_cases hcfg : resourceConfig.ID ∈ st.resourceConfigs
    · obtain ⟨st1, hst1⟩ : ∃ st1 : Store, st1 = { st with
          resourceCaches := st.resourceCaches ++
            [⟨st.nextID, resourceConfig.ID, cache.version lib, paramsHash lib cache.Params⟩]
          nextID := st.nextID + 1 } := ⟨_, rfl⟩
      have e2 : storeTx.query (.insertResourceCache resourceConfig.ID (cache.version lib)
          (paramsHash lib cache.Params)) st = (.ok st.nextID, st1) := by
        simp [storeTx, Store.run, hrow, hcfg, hst1]
      simp only [Tx.runQuery_eq storeTx e2]
      intro h
      obtain ⟨hu, hcaches, hne, hlen⟩ := findOrCreateUse_store_post _ u _ _ _ _ h
      have hfor : st1.cachesFor resourceConfig.ID (cache.version lib)
          = [⟨st.nextID, resourceConfig.ID, cache.version lib, paramsHash lib cache.Params⟩] := by
        have hrow2 : List.filter (fun r => decide (r.resourceConfigID = resourceConfig.ID ∧
            r.version = cache.version lib)) st.resourceCaches = [] := hrow
        rw [hst1]
        simp only [Store.cachesFor, List.filter_append, hrow2, List.nil_append]
        simp
      have husesold : ∀ i, st1.usesFor i forColumnName forColumnID
          = st.usesFor i forColumnName forColumnID := by
        intro i
        simp [hst1, Store.usesFor]
      have hF : ∀ F : Store, F.resourceCaches = st1.resourceCaches →
          F.cachesFor resourceConfig.ID (cache.version lib)
            = st1.cachesFor resourceConfig.ID (cache.version lib) := by
        intro F hFc
        simp only [Store.cachesFor, hFc]
      subst hu
      refine ⟨rfl, ⟨_, _, (hF _ hcaches).trans hfor, rfl⟩, hne, ?_, ?_⟩
      · rw [hF _ hcaches, hfor]
        simp
      · rw [← husesold]
        exact hlen
    · have e2 : storeTx.query (.insertResourceCache resourceConfig.ID (cache.version lib)
          (paramsHash lib cache.Params)) st
          = (.error (.pqError "foreign_key_violation"), st) := by
        simp [storeTx, Store.run, hcfg]
      simp [Tx.runQuery_eq storeTx e2, Error.isPq]
  | cons r rest =>
    have e1 : storeTx.query (.selectResourceCache resourceConfig.ID (cache.version lib)) st
        = (.ok r.id, st) := by simp [storeTx, Store.run, hrow]
    simp only [Tx.runQuery_eq storeTx e1]
    intro h
    obtain ⟨hu, hcaches, hne, hlen⟩ := findOrCreateUse_store_post _ u _ _ _ _ h
    have hF : ∀ F : Store, F.resourceCaches = st.resourceCaches →
        F.cachesFor resourceConfig.ID (cache.version lib)
          = st.cachesFor resourceConfig.ID (cache.version lib) := by
      intro F hFc
      simp only [Store.cachesFor, hFc]
    subst hu
    refine ⟨rfl, ⟨_, _, (hF _ hcaches).trans hrow, rfl⟩, hne, ?_, hlen⟩
    rw [hF _ hcaches, hrow]
    simp

/-- C13, the code at the counterexample: two racing peers have left two uses rows of
cache 7 for build 1; two calls of `findOrCreate` one after the other both succeed with
id 7, and the store still holds two uses rows for that cache and owner, not one. -/
theorem findOrCreate_twice_keeps_duplicate_uses :
    (findOrCreate demoLib storeTx demoCache ⟨3⟩ "build_id" 1 ⟨storeRaced, []⟩).1
      = (some ⟨7, ⟨3⟩, some [("ref", "abc")]⟩, none) ∧
    (findOrCreate demoLib storeTx demoCache ⟨3⟩ "build_id" 1
        (findOrCreate demoLib storeTx demoCache ⟨3⟩ "build_id" 1 ⟨storeRaced, []⟩).2).1
      = (some ⟨7, ⟨3⟩, some [("ref", "abc")]⟩, none) ∧
    ((findOrCreate demoLib storeTx demoCache ⟨3⟩ "build_id" 1
        (findOrCreate demoLib storeTx demoCache ⟨3⟩ "build_id" 1
          ⟨storeRaced, []⟩).2).2.st.usesFor 7 "build_id" 1).length = 2 :=
  ⟨rfl, rfl, rfl⟩

/-- C13 as amended. When a first `findOrCreate` succeeds, a second one with the same
config, version and owner returns the same `UsedResourceCache` and inserts nothing: the
store after it is the store after the first call. That store holds a row of
`resource_caches` for the config and version and a row of `resource_cache_uses` for the
cache and owner: as many as before the first call, and one where there was none. -/
theorem findOrCreate_idempotent (lib : Lib) (cache : ResourceCache)
    (resourceConfig : UsedResourceConfig) (forColumnName : String) (forColumnID : Int)
    (d : Db Store) (u : UsedResourceCache)
    (h : (findOrCreate lib storeTx cache resourceConfig forColumnName forColumnID d).1
      = (some u, none)) :
    (findOrCreate lib storeTx cache resourceConfig forColumnName forColumnID
        (findOrCreate lib storeTx cache resourceConfig forColumnName forColumnID d).2).1
      = (some u, none) ∧
    (findOrCreate lib storeTx cache resourceConfig forColumnName forColumnID
        (findOrCreate lib storeTx cache resourceConfig forColumnName forColumnID d).2).2.st
      = (findOrCreate lib storeTx cache resourceConfig forColumnName forColumnID d).2.st ∧
    ((findOrCreate lib storeTx cache resourceConfig forColumnName forColumnID d).2.st.cachesFor
        resourceConfig.ID (cache.version lib)).length
      = max 1 (d.st.cachesFor resourceConfig.ID (cache.version lib)).length ∧
    ((findOrCreate lib storeTx cache resourceConfig forColumnName forColumnID d).2.st.usesFor
        u.ID forColumnName forColumnID).length
      = max 1 (d.st.usesFor u.ID forColumnName forColumnID).length := by
  obtain ⟨hu, ⟨r, rest, hrow, hid⟩, hne, hlen1, hlen2⟩ :=
    findOrCreate_store_post lib cache resourceConfig forColumnName forColumnID d u h
  have hsecond := findOrCreate_store_present lib cache resourceConfig forColumnName forColumnID
    (findOrCreate lib storeTx cache resourceConfig forColumnName forColumnID d).2 r rest hrow
    (by rw [hid]; exact hne)
  refine ⟨?_, hsecond.2, hlen1, hlen2⟩
  rw [hsecond.1, hid, ← hu]

/-- C13, an instance: on a store without cache rows the first call inserts cache row 1
and its uses row, the second returns the same and inserts nothing, and there is exactly
one row of each. -/
theorem findOrCreate_idempotent_witness :
    (findOrCreate demoLib storeTx demoCache ⟨3⟩ "build_id" 1 ⟨storeFresh, []⟩).1
      = (some ⟨1, ⟨3⟩, some [("ref", "abc")]⟩, none) ∧
    ((findOrCreate demoLib storeTx demoCache ⟨3⟩ "build_id" 1
        (findOrCreate demoLib storeTx demoCache ⟨3⟩ "build_id" 1 ⟨storeFresh, []⟩).2).1
      = (some ⟨1, ⟨3⟩, some [("ref", "abc")]⟩, none) ∧
    (findOrCreate demoLib storeTx demoCache ⟨3⟩ "build_id" 1
        (findOrCreate demoLib storeTx demoCache ⟨3⟩ "build_id" 1 ⟨storeFresh, []⟩).2).2.st
      = (findOrCreate demoLib storeTx demoCache ⟨3⟩ "build_id" 1 ⟨storeFresh, []⟩).2.st ∧
    ((findOrCreate demoLib storeTx demoCache ⟨3⟩ "build_id" 1 ⟨storeFresh, []⟩).2.st.cachesFor
        3 "map[ref:abc;]").length = 1 ∧
    ((findOrCreate demoLib storeTx demoCache ⟨3⟩ "build_id" 1 ⟨storeFresh, []⟩).2.st.usesFor
        1 "build_id" 1).length = 1) :=
  ⟨rfl, findOrCreate_idempotent demoLib demoCache ⟨3⟩ "build_id" 1 ⟨storeFresh, []⟩
    ⟨1, ⟨3⟩, some [("ref", "abc")]⟩ rfl⟩

/-- C14. When `findOrCreate` returns a `UsedResourceCache` without error, the store holds
a row of `resource_cache_uses` with the returned id and the requesting owner, the
returned id is the id of a row of `resource_caches` with the config and the version, and
the returned value carries the given `UsedResourceConfig` and the cache's `Version`. -/
theorem findOrCreate_returns_used_cache (lib : Lib) (cache : ResourceCache)
    (resourceConfig : UsedResourceConfig) (forColumnName : String) (forColumnID : Int)
    (d : Db Store) (u : UsedResourceCache)
    (h : (findOrCreate lib storeTx cache resourceConfig forColumnName forColumnID d).1
      = (some u, none)) :
    (⟨u.ID, forColumnName, forColumnID⟩ : ResourceCacheUseRow) ∈
      (findOrCreate lib storeTx cache resourceConfig forColumnName forColumnID
        d).2.st.resourceCacheUses ∧
    (∃ r ∈ (findOrCreate lib storeTx cache resourceConfig forColumnName forColumnID
        d).2.st.resourceCaches,
      r.id = u.ID ∧ r.resourceConfigID = resourceConfig.ID ∧ r.version = cache.version lib) ∧
    u.ResourceConfig = resourceConfig ∧ u.Version = cache.Version := by
  obtain ⟨hu, ⟨r, rest, hrow, hid⟩, hne, -, -⟩ :=
    findOrCreate_store_post lib cache resourceConfig forColumnName forColumnID d u h
  refine ⟨?_, ⟨r, ?_, hid, ?_⟩, by rw [hu], by rw [hu]⟩
  · obtain ⟨x, xs, hx⟩ := List.exists_cons_of_ne_nil hne
    have hmem : x ∈ (findOrCreate lib storeTx cache resourceConfig forColumnName forColumnID
        d).2.st.usesFor u.ID forColumnName forColumnID := by simp [hx]
    have := List.mem_filter.mp hmem
    have hxeq : x = ⟨u.ID, forColumnName, forColumnID⟩ := by simpa using this.2
    rw [← hxeq]
    exact this.1
  · have hmem : r ∈ (findOrCreate lib storeTx cache resourceConfig forColumnName forColumnID
        d).2.st.cachesFor resourceConfig.ID (cache.version lib) := by simp [hrow]
    exact (List.mem_filter.mp hmem).1
  · have hmem : r ∈ (findOrCreate lib storeTx cache resourceConfig forColumnName forColumnID
        d).2.st.cachesFor resourceConfig.ID (cache.version lib) := by simp [hrow]
    simpa using (List.mem_filter.mp hmem).2

/-- C14, an instance: cache row 7 exists and is not used; `findOrCreate` for build 1
returns id 7 and the store then holds the uses row of cache 7 for build 1. -/
theorem findOrCreate_returns_used_cache_witness :
    (findOrCreate demoLib storeTx demoCacheWithParams ⟨3⟩ "build_id" 1 ⟨storeUnused, []⟩).1
      = (some ⟨7, ⟨3⟩, some [("ref", "abc")]⟩, none) ∧
    (⟨7, "build_id", 1⟩ : ResourceCacheUseRow) ∈
      (findOrCreate demoLib storeTx demoCacheWithParams ⟨3⟩ "build_id" 1
        ⟨storeUnused, []⟩).2.st.resourceCacheUses :=
  ⟨rfl, (findOrCreate_returns_used_cache demoLib demoCacheWithParams ⟨3⟩ "build_id" 1
    ⟨storeUnused, []⟩ ⟨7, ⟨3⟩, some [("ref", "abc")]⟩ rfl).1⟩

/-- C23. A heartbeat for a worker that has a row returns the rewritten row and rewrites
every row of that name and no other: a state `Landing`, `Landed`, `Retiring` or `Running`
is kept and `Stalled` becomes `Running`, `active_containers` is the submitted value, and
`expires_at` is the refreshed expiry. The spec requires of the refresh that the expiry
after a heartbeat is strictly greater than before (`hforward`, for the row at hand); with
it the heartbeat moves `expires_at` forward. -/
theorem HeartbeatWorker_keeps_drain_state (worker : AtcWorker) (ttl : Duration)
    (refresh : Duration → Option Time → Time) (r : Registry) (row : WorkerRow)
    (hrow : row ∈ r.workers) (hname : row.name = worker.Name)
    (hforward : ∀ t : Time, row.expiresAt = some t → t < refresh ttl row.expiresAt) :
    (∃ first ∈ r.workers, first.name = worker.Name ∧
      (HeartbeatWorker worker ttl refresh r).1 = .ok (heartbeatRow worker ttl refresh first)) ∧
    heartbeatRow worker ttl refresh row ∈ (HeartbeatWorker worker ttl refresh r).2.workers ∧
    (∀ x ∈ (HeartbeatWorker worker ttl refresh r).2.workers, x.name = worker.Name →
      ∃ old ∈ r.workers, old.name = worker.Name ∧ x = heartbeatRow worker ttl refresh old) ∧
    (∀ x ∈ r.workers, x.name ≠ worker.Name →
      x ∈ (HeartbeatWorker worker ttl refresh r).2.workers) ∧
    (row.state = .Landing ∨ row.state = .Landed ∨ row.state = .Retiring ∨
        row.state = .Running →
      (heartbeatRow worker ttl refresh row).state = row.state) ∧
    (row.state = .Stalled → (heartbeatRow worker ttl refresh row).state = .Running) ∧
    (heartbeatRow worker ttl refresh row).activeContainers = worker.ActiveContainers ∧
    (∀ t : Time, row.expiresAt = some t →
      ∃ t1, (heartbeatRow worker ttl refresh row).expiresAt = some t1 ∧ t < t1) := by
  have hfind : ∃ first, r.workers.find? (fun row => row.name = worker.Name) = some first := by
    cases h : r.workers.find? (fun row => decide (row.name = worker.Name)) with
    | some first => exact ⟨first, rfl⟩
    | none =>
      have := List.find?_eq_none.mp h row hrow
      simp [hname] at this
  obtain ⟨first, hfirst⟩ := hfind
  have hfirstmem : first ∈ r.workers := List.mem_of_find?_eq_some hfirst
  have hfirstname : first.name = worker.Name := by
    simpa using List.find?_some hfirst
  refine ⟨⟨first, hfirstmem, hfirstname, ?_⟩, ?_, ?_, ?_, ?_, ?_, rfl, ?_⟩
  · simp [HeartbeatWorker, hfirst]
  · simp only [HeartbeatWorker, hfirst]
    exact List.mem_map.mpr ⟨row, hrow, by simp [hname]⟩
  · intro x hx hxname
    simp only [HeartbeatWorker, hfirst] at hx
    obtain ⟨old, hold, hx⟩ := List.mem_map.mp hx
    by_cases hn : old.name = worker.Name
    · exact ⟨old, hold, hn, by simpa [hn] using hx.symm⟩
    · simp only [hn, if_false] at hx
      rw [hx] at hn
      exact absurd hxname hn
  · intro x hx hxname
    simp only [HeartbeatWorker, hfirst]
    exact List.mem_map.mpr ⟨x, hx, by simp [hxname]⟩
  · intro h
    rcases h with h | h | h | h <;> simp [heartbeatRow, heartbeatState, h]
  · intro h
    simp [heartbeatRow, heartbeatState, h]
  · intro t ht
    exact ⟨refresh ttl row.expiresAt, rfl, hforward t ht⟩

/-- C23, instance: the retiring worker `some-name` is due to expire one hour after time
0; a heartbeat with a ttl of five minutes, on a database that computes the refreshed
expiry as its time of two hours plus the ttl, keeps the worker retiring, sets
`active_containers` to the submitted 1 and moves the expiry forward. -/
theorem HeartbeatWorker_keeps_drain_state_witness :
    (HeartbeatWorker ⟨"some-name", 1⟩ (5 * Minute) (refreshAt (2 * Hour))
        (demoRegistry .Retiring .Started)).2.workers
      = [⟨"some-name", .Retiring, 1, some (2 * Hour + 5 * Minute)⟩,
          ⟨"other-name", .Running, 3, none⟩] ∧
    (heartbeatRow ⟨"some-name", 1⟩ (5 * Minute) (refreshAt (2 * Hour))
        ⟨"some-name", .Retiring, 0, some (1 * Hour)⟩).state = .Retiring ∧
    (∃ t1, (heartbeatRow ⟨"some-name", 1⟩ (5 * Minute) (refreshAt (2 * Hour))
        ⟨"some-name", .Retiring, 0, some (1 * Hour)⟩).expiresAt = some t1 ∧ 1 * Hour < t1) :=
  ⟨by decide,
    (HeartbeatWorker_keeps_drain_state ⟨"some-name", 1⟩ (5 * Minute) (refreshAt (2 * Hour))
      (demoRegistry .Retiring .Started) ⟨"some-name", .Retiring, 0, some (1 * Hour)⟩
      (List.mem_cons_self _ _) rfl
      (fun t ht => by cases ht; decide)).2.2.2.2.1 (Or.inr (Or.inr (Or.inl rfl))),
    (HeartbeatWorker_keeps_drain_state ⟨"some-name", 1⟩ (5 * Minute) (refreshAt (2 * Hour))
      (demoRegistry .Retiring .Started) ⟨"some-name", .Retiring, 0, some (1 * Hour)⟩
      (List.mem_cons_self _ _) rfl
      (fun t ht => by cases ht; decide)).2.2.2.2.2.2.2 (1 * Hour) rfl⟩

/-- C24. One pass of `DeleteFinishedRetiringWorkers` removes a retiring worker exactly
when no container on it belongs to a build in status `Pending` or `Started`; it removes a
retiring worker all of whose containers with a build have a build in status `Aborted`,
`Succeeded`, `Failed` or `Errored`, and one without containers; it keeps every worker
that is not retiring, adds no row and leaves the other tables as they are. -/
theorem DeleteFinishedRetiringWorkers_drain_safety (r : Registry) (row : WorkerRow)
    (hrow : row ∈ r.workers) :
    (row.state = .Retiring →
      (row ∉ (DeleteFinishedRetiringWorkers r).workers ↔
        ¬ ∃ container ∈ r.containers, container.workerName = row.name ∧
          ∃ build ∈ r.builds, container.buildID = some build.id ∧
            (build.status = .Pending ∨ build.status = .Started))) ∧
    (row.state = .Retiring →
      (∀ container ∈ r.containers, container.workerName = row.name →
        ∀ build ∈ r.builds, container.buildID = some build.id →
          build.status = .Aborted ∨ build.status = .Succeeded ∨ build.status = .Failed ∨
            build.status = .Errored) →
      row ∉ (DeleteFinishedRetiringWorkers r).workers) ∧
    (row.state ≠ .Retiring → row ∈ (DeleteFinishedRetiringWorkers r).workers) ∧
    (∀ x ∈ (DeleteFinishedRetiringWorkers r).workers, x ∈ r.workers) ∧
    (DeleteFinishedRetiringWorkers r).containers = r.containers ∧
    (DeleteFinishedRetiringWorkers r).builds = r.builds := by
  have hblock : r.hasRunningBuilds row.name = true ↔
      ∃ container ∈ r.containers, container.workerName = row.name ∧
        ∃ build ∈ r.builds, container.buildID = some build.id ∧
          (build.status = .Pending ∨ build.status = .Started) := by
    simp [Registry.hasRunningBuilds, List.any_eq_true]
  have hiff : row.state = .Retiring →
      (row ∉ (DeleteFinishedRetiringWorkers r).workers ↔ ¬ r.hasRunningBuilds row.name = true) := by
    intro hst
    simp [DeleteFinishedRetiringWorkers, List.mem_filter, hrow, hst]
  refine ⟨?_, ?_, ?_, ?_, rfl, rfl⟩
  · intro hst
    rw [hiff hst, hblock]
  · intro hst hterm
    rw [hiff hst, hblock]
    rintro ⟨container, hc, hw, build, hb, hid, hs⟩
    have := hterm container hc hw build hb hid
    rcases hs with hs | hs <;> simp [hs] at this
  · intro hst
    simp [DeleteFinishedRetiringWorkers, List.mem_filter, hrow, hst]
  · intro x hx
    exact (List.mem_filter.mp hx).1

/-- C24, instances: a retiring worker with a container of a started build is kept, one
whose build has succeeded is removed, and a running worker is kept. -/
theorem DeleteFinishedRetiringWorkers_drain_safety_witness :
    (DeleteFinishedRetiringWorkers (demoRegistry .Retiring .Started)).workers
      = (demoRegistry .Retiring .Started).workers ∧
    (⟨"some-name", .Retiring, 0, some (1 * Hour)⟩ : WorkerRow) ∉
      (DeleteFinishedRetiringWorkers (demoRegistry .Retiring .Succeeded)).workers ∧
    (⟨"other-name", .Running, 3, none⟩ : WorkerRow) ∈
      (DeleteFinishedRetiringWorkers (demoRegistry .Retiring .Succeeded)).workers :=
  ⟨by decide,
    (DeleteFinishedRetiringWorkers_drain_safety (demoRegistry .Retiring .Succeeded)
      ⟨"some-name", .Retiring, 0, some (1 * Hour)⟩ (List.mem_cons_self _ _)).2.1 rfl
      (by decide),
    (DeleteFinishedRetiringWorkers_drain_safety (demoRegistry .Retiring .Succeeded)
      ⟨"other-name", .Running, 3, none⟩
      (List.mem_cons_of_mem _ (List.mem_cons_self _ _))).2.2.1 (by decide)⟩

/-! ## worker: theorems -/

/-- In `findOrCreateContainer`, when `find()` returns a created container and the runtime
`Lookup` of its handle returns any error, that same error is returned, unchanged. -/
theorem findOrCreateContainer_created_lookup_error {σ : Type} (k : Consts) (c : Collab σ)
    (p : Provider) (id : Identifier) (metadata : Metadata) (spec : ContainerSpec)
    (outputPaths : List (String × String))
    (findContainerFunc :
      σ → (Option CreatingContainer × Option CreatedContainer × Option Error) × σ)
    (createContainerFunc : σ → Except Error CreatingContainer × σ) (fuel : Nat) (w : World σ)
    (creating : Option CreatingContainer) (created : CreatedContainer)
    (gc : Option GardenContainer) (err : Error)
    (hfind : (findContainerFunc w.st).1 = (creating, some created, none))
    (hlookup : (c.Lookup created.Handle (findContainerFunc w.st).2).1 = (gc, some err)) :
    (findOrCreateContainer k c p id metadata spec outputPaths findContainerFunc
        createContainerFunc (fuel + 1) w).map (fun r => r.1) = some (none, some err) := by
  simp only [findOrCreateContainer, findOrCreateContainerBody, World.call, hfind, hlookup,
    Option.map_some']

/-- C1, the code at the failing input: the database holds a created container
`some-handle`, the runtime reports it as not found; `findOrCreateContainer` returns the
garden error `ContainerNotFoundError` itself, not `ErrCreatedContainerNotFound`, after
exactly the calls `find()` and `Lookup`. -/
theorem findOrCreateContainer_created_not_found_returns_garden_error :
    findOrCreateContainer demoConsts runtimeLost demoProvider demoIdentifier demoMetadata
        demoSpec [] findsCreated createsRow 1 ⟨(), []⟩
      = some ((none, some (Error.ContainerNotFoundError "some-handle")),
          ⟨(), [Event.findContainerFunc, Event.Lookup "some-handle"]⟩) ∧
    Error.ContainerNotFoundError "some-handle" ≠ Error.ErrCreatedContainerNotFound :=
  ⟨rfl, by decide⟩

/-- C2. `FindContainerByHandle` returns `(nil, false, nil)` when the runtime `Lookup`
reports not-found, and when the runtime has the container and the database lookup
reports `found = false`; and it returns `found = true` only when the runtime `Lookup`
succeeded and the database lookup reported `found = true` without error. -/
theorem FindContainerByHandle_found_only_if_both_know {σ : Type} (c : Collab σ) (p : Provider)
    (handle : String) (teamID : Int) (w : World σ) :
    (∀ gc err, (c.Lookup handle w.st).1 = (gc, some err) → err.isContainerNotFound = true →
      (FindContainerByHandle c p handle teamID w).1 = (none, false, none)) ∧
    (∀ gc cc, (c.Lookup handle w.st).1 = (gc, none) →
      (c.FindContainerByHandle teamID handle (c.Lookup handle w.st).2).1 = (cc, false, none) →
      (FindContainerByHandle c p handle teamID w).1 = (none, false, none)) ∧
    ((FindContainerByHandle c p handle teamID w).1.2.1 = true →
      (c.Lookup handle w.st).1.2 = none ∧
      (c.FindContainerByHandle teamID handle (c.Lookup handle w.st).2).1.2 = (true, none)) := by
  simp only [FindContainerByHandle, World.call]
  generalize c.Lookup handle w.st = r1
  obtain ⟨⟨gc1, e1⟩, s1⟩ := r1
  cases e1 with
  | some e =>
    refine ⟨?_, ?_, ?_⟩
    · intro gc err h hnf
      obtain ⟨-, rfl⟩ : gc1 = gc ∧ e = err := by simpa using h
      simp [hnf]
    · intro gc cc h
      simp at h
    · simp only []
      split_ifs <;> simp
  | none =>
    simp only []
    generalize c.FindContainerByHandle teamID handle s1 = r2
    obtain ⟨⟨cc2, f2, e2⟩, s2⟩ := r2
    cases e2 with
    | some e => simp
    | none =>
      cases f2 with
      | false => simp
      | true =>
        simp only []
        generalize c.FindVolumesForContainer cc2 s2 = r3
        obtain ⟨o3, s3⟩ := r3
        cases o3 with
        | error e3 => simp
        | ok vols =>
          simp only []
          generalize c.newGardenWorkerContainer gc1 cc2 vols p.workerName s3 = r4
          obtain ⟨⟨ct, e4⟩, s4⟩ := r4
          cases e4 <;> simp

/-- C2, instances: a runtime that lost the container, a database that does not know the
handle, and both knowing it. -/
theorem FindContainerByHandle_found_only_if_both_know_witness :
    (FindContainerByHandle runtimeLost demoProvider "some-handle" 1 ⟨(), []⟩).1
        = (none, false, none) ∧
    (FindContainerByHandle dbEmpty demoProvider "some-handle" 1 ⟨(), []⟩).1
        = (none, false, none) ∧
    ((demoCollab.Lookup "some-handle" ()).1.2 = none ∧
      (demoCollab.FindContainerByHandle 1 "some-handle" ()).1.2 = (true, none)) :=
  ⟨(FindContainerByHandle_found_only_if_both_know runtimeLost demoProvider "some-handle" 1
      ⟨(), []⟩).1 none (Error.ContainerNotFoundError "some-handle") rfl rfl,
   (FindContainerByHandle_found_only_if_both_know dbEmpty demoProvider "some-handle" 1
      ⟨(), []⟩).2.1 (some ⟨"some-handle"⟩) none rfl rfl,
   (FindContainerByHandle_found_only_if_both_know demoCollab demoProvider "some-handle" 1
      ⟨(), []⟩).2.2 rfl⟩

/-- C3, the code at the counterexample: the database holds the created container
`some-handle` and the runtime reports it as not found; `FindContainerByHandle` returns
`(nil, false, nil)` after the single call `Lookup`, so the error is not
`ErrCreatedContainerNotFound`. -/
theorem FindContainerByHandle_not_found_is_no_error :
    (runtimeLost.FindContainerByHandle 1 "some-handle" ()).1
        = (some ⟨123, "some-handle"⟩, true, none) ∧
    FindContainerByHandle runtimeLost demoProvider "some-handle" 1 ⟨(), []⟩
        = ((none, false, none), ⟨(), [Event.Lookup "some-handle"]⟩) ∧
    (FindContainerByHandle runtimeLost demoProvider "some-handle" 1 ⟨(), []⟩).1.2.2
        ≠ some Error.ErrCreatedContainerNotFound :=
  ⟨rfl, rfl, by decide⟩

/-- C3 as amended. When the database holds a created container with handle `h` and the
runtime `Lookup(h)` reports not-found, `FindContainerByHandle` returns `(nil, false, nil)`:
not found, and no error. -/
theorem FindContainerByHandle_created_not_found {σ : Type} (c : Collab σ) (p : Provider)
    (handle : String) (teamID : Int) (w : World σ) (created : CreatedContainer)
    (gc : Option GardenContainer) (err : Error)
    (_hdb : ∀ s, (c.FindContainerByHandle teamID handle s).1 = (some created, true, none))
    (_hhandle : created.Handle = handle)
    (hlookup : (c.Lookup handle w.st).1 = (gc, some err))
    (hnf : err.isContainerNotFound = true) :
    (FindContainerByHandle c p handle teamID w).1 = (none, false, none) := by
  simp only [FindContainerByHandle, World.call]
  generalize c.Lookup handle w.st = r1 at hlookup
  obtain ⟨⟨gc1, e1⟩, s1⟩ := r1
  obtain ⟨-, rfl⟩ : gc1 = gc ∧ e1 = some err := by simpa using hlookup
  simp [hnf]

/-- C3, an instance of the amended claim. -/
theorem FindContainerByHandle_created_not_found_witness :
    (FindContainerByHandle runtimeLost demoProvider "some-handle" 1 ⟨(), []⟩).1
      = (none, false, none) :=
  FindContainerByHandle_created_not_found runtimeLost demoProvider "some-handle" 1 ⟨(), []⟩
    ⟨123, "some-handle"⟩ none (Error.ContainerNotFoundError "some-handle")
    (fun _ => rfl) rfl rfl rfl

/-- C5. For a `Check` container `maxContainerLifetime` is the worker's uptime clamped to
the interval from 5 minutes to 1 hour: 5 minutes below it, 1 hour above it, the uptime
itself inside it, both ends included; for every other type it is 0. -/
theorem maxContainerLifetime_clamp {σ : Type} (k : Consts) (c : Collab σ)
    (metadata : Metadata) (s : σ) :
    (metadata.type = k.ContainerTypeCheck →
      maxContainerLifetime k c metadata s
        = max (5 * Minute : Int) (min (c.Uptime s : Int) (1 * Hour)) ∧
      (c.Uptime s < 5 * Minute → maxContainerLifetime k c metadata s = 5 * Minute) ∧
      (c.Uptime s > 1 * Hour → maxContainerLifetime k c metadata s = 1 * Hour) ∧
      (5 * Minute ≤ c.Uptime s → c.Uptime s ≤ 1 * Hour →
        maxContainerLifetime k c metadata s = c.Uptime s)) ∧
    (metadata.type ≠ k.ContainerTypeCheck → maxContainerLifetime k c metadata s = 0) ∧
    5 * Minute = 300000000000 ∧ 1 * Hour = 3600000000000 := by
  have hm : (5 : Int) * Minute = 300000000000 := by decide
  have hh : (1 : Int) * Hour = 3600000000000 := by decide
  refine ⟨?_, ?_, hm, hh⟩
  · intro ht
    have key : ∀ u : Int,
        (if u < 300000000000 then 300000000000 else
            if u > 3600000000000 then 3600000000000 else u)
          = max (300000000000 : Int) (min u 3600000000000) ∧
        (u < 300000000000 →
          (if u < 300000000000 then 300000000000 else
            if u > 3600000000000 then 3600000000000 else u) = 300000000000) ∧
        (u > 3600000000000 →
          (if u < 300000000000 then 300000000000 else
            if u > 3600000000000 then 3600000000000 else u) = 3600000000000) ∧
        (300000000000 ≤ u → u ≤ 3600000000000 →
          (if u < 300000000000 then (300000000000 : Int) else
            if u > 3600000000000 then 3600000000000 else u) = u) := by
      intro u
      refine ⟨?_, ?_, ?_, ?_⟩
      · rcases lt_or_le u 300000000000 with h | h
        · rw [if_pos h, min_eq_left (by omega), max_eq_left (by omega)]
        · rw [if_neg (by omega)]
          rcases lt_or_le 3600000000000 u with h2 | h2
          · rw [if_pos h2, min_eq_right (by omega), max_eq_right (by omega)]
          · rw [if_neg (by omega), min_eq_left h2, max_eq_right h]
      · intro h
        rw [if_pos h]
      · intro h; split_ifs <;> omega
      · intro h1 h2; split_ifs <;> omega
    simp only [maxContainerLifetime, ht, if_true, hm, hh]
    exact key (c.Uptime s)
  · intro ht
    simp [maxContainerLifetime, ht]

/-- C5, instances: a check container on a worker that is up for ten minutes lives ten
minutes; a task container has lifetime 0. -/
theorem maxContainerLifetime_clamp_witness :
    maxContainerLifetime demoConsts demoCollab ⟨"check", "", 1, "", "", ""⟩ () = 10 * Minute ∧
    maxContainerLifetime demoConsts demoCollab demoMetadata () = 0 :=
  ⟨((maxContainerLifetime_clamp demoConsts demoCollab ⟨"check", "", 1, "", "", ""⟩ ()).1
      rfl).2.2.2 (by decide) (by decide),
   (maxContainerLifetime_clamp demoConsts demoCollab demoMetadata ()).2.1 (by decide)⟩

/-- The loop over `spec.Mounts` appends the mounts in their order. -/
theorem appendMounts_eq (mounts volumeMounts : List VolumeMount) :
    appendMounts mounts volumeMounts = volumeMounts ++ mounts := by
  induction mounts generalizing volumeMounts with
  | nil => simp [appendMounts]
  | cons m rest ih => simp [appendMounts, ih]

/-- The loop over `volumeMounts` appends one bind mount per volume mount, in order. -/
theorem bindMountsOf_eq (volumeMounts : List VolumeMount) (bindMounts : List BindMount) :
    bindMountsOf volumeMounts bindMounts = bindMounts ++ volumeMounts.map bindMountOf := by
  induction volumeMounts generalizing bindMounts with
  | nil => simp [bindMountsOf]
  | cons m rest ih => simp [bindMountsOf, ih, bindMountOf]

/-- The loop over `outputPaths`: either every request succeeds, the mounts of the
returned volumes are appended in order and one request per entry is logged, or a request
fails and the requests logged are those of the entries up to the failing one. -/
theorem outputVolumeMounts_calls {σ : Type} (c : Collab σ) (creatingContainer : CreatingContainer)
    (spec : ContainerSpec) (outputPaths : List (String × String))
    (volumeMounts : List VolumeMount) (w : World σ) :
    (∃ vols : List Volume,
      List.Forall₂ (fun v entry => ∃ s, (c.FindOrCreateVolumeForContainer
          ⟨.OutputStrategy entry.1, spec.ImageSpec.Privileged⟩ creatingContainer spec.TeamID
          entry.2 s).1 = .ok v) vols outputPaths ∧
      (outputVolumeMounts c creatingContainer spec outputPaths volumeMounts w).1
        = .ok (volumeMounts ++
            List.zipWith (fun v entry => (⟨v, entry.2⟩ : VolumeMount)) vols outputPaths) ∧
      (outputVolumeMounts c creatingContainer spec outputPaths volumeMounts w).2.log
        = w.log ++ outputPaths.map (outputRequest creatingContainer spec)) ∨
    (∃ err done rest,
      (outputVolumeMounts c creatingContainer spec outputPaths volumeMounts w).1 = .error err ∧
      done ++ rest = outputPaths ∧
      (outputVolumeMounts c creatingContainer spec outputPaths volumeMounts w).2.log
        = w.log ++ done.map (outputRequest creatingContainer spec)) := by
  induction outputPaths generalizing volumeMounts w with
  | nil =>
    exact Or.inl ⟨[], List.Forall₂.nil, by simp [outputVolumeMounts], by simp [outputVolumeMounts]⟩
  | cons entry rest ih =>
    obtain ⟨name, outputPath⟩ := entry
    simp only [outputVolumeMounts, World.call]
    generalize hr : c.FindOrCreateVolumeForContainer
      ⟨.OutputStrategy name, spec.ImageSpec.Privileged⟩
      creatingContainer spec.TeamID outputPath w.st = r
    obtain ⟨o, s1⟩ := r
    cases o with
    | error err =>
      exact Or.inr ⟨err, [(name, outputPath)], rest, rfl, rfl, by simp [outputRequest]⟩
    | ok outVolume =>
      simp only []
      rcases ih (volumeMounts ++ [⟨outVolume, outputPath⟩])
        ⟨s1, w.log ++ [outputRequest creatingContainer spec (name, outputPath)]⟩ with
        ⟨vols, hlen, hres, hlog⟩ | ⟨err, done, rest2, hres, hsplit, hlog⟩
      · refine Or.inl ⟨outVolume :: vols, List.Forall₂.cons ⟨w.st, by rw [hr]⟩ hlen, ?_, ?_⟩
        · simpa [outputRequest] using hres
        · simpa [outputRequest] using hlog
      · refine Or.inr ⟨err, (name, outputPath) :: done, rest2, ?_, by simp [hsplit], ?_⟩
        · simpa [outputRequest] using hres
        · simpa [outputRequest] using hlog

/-- The loop over `spec.Inputs`, as `outputVolumeMounts_calls`. -/
theorem inputVolumeMounts_calls {σ : Type} (c : Collab σ) (creatingContainer : CreatingContainer)
    (spec : ContainerSpec) (inputs : List VolumeMount)
    (volumeMounts : List VolumeMount) (w : World σ) :
    (∃ vols : List Volume,
      List.Forall₂ (fun v mount => ∃ s, (c.FindOrCreateVolumeForContainer
          ⟨.ContainerRootFSStrategy mount.Volume, spec.ImageSpec.Privileged⟩ creatingContainer
          spec.TeamID mount.MountPath s).1 = .ok v) vols inputs ∧
      (inputVolumeMounts c creatingContainer spec inputs volumeMounts w).1
        = .ok (volumeMounts ++
            List.zipWith (fun v mount => (⟨v, mount.MountPath⟩ : VolumeMount)) vols inputs) ∧
      (inputVolumeMounts c creatingContainer spec inputs volumeMounts w).2.log
        = w.log ++ inputs.map (inputRequest creatingContainer spec)) ∨
    (∃ err done rest,
      (inputVolumeMounts c creatingContainer spec inputs volumeMounts w).1 = .error err ∧
      done ++ rest = inputs ∧
      (inputVolumeMounts c creatingContainer spec inputs volumeMounts w).2.log
        = w.log ++ done.map (inputRequest creatingContainer spec)) := by
  induction inputs generalizing volumeMounts w with
  | nil =>
    exact Or.inl ⟨[], List.Forall₂.nil, by simp [inputVolumeMounts], by simp [inputVolumeMounts]⟩
  | cons mount rest ih =>
    simp only [inputVolumeMounts, World.call]
    generalize hr : c.FindOrCreateVolumeForContainer
      ⟨.ContainerRootFSStrategy mount.Volume, spec.ImageSpec.Privileged⟩
      creatingContainer spec.TeamID mount.MountPath w.st = r
    obtain ⟨o, s1⟩ := r
    cases o with
    | error err =>
      exact Or.inr ⟨err, [mount], rest, rfl, rfl, by simp [inputRequest]⟩
    | ok cowVolume =>
      simp only []
      rcases ih (volumeMounts ++ [⟨cowVolume, mount.MountPath⟩])
        ⟨s1, w.log ++ [inputRequest creatingContainer spec mount]⟩ with
        ⟨vols, hlen, hres, hlog⟩ | ⟨err, done, rest2, hres, hsplit, hlog⟩
      · refine Or.inl ⟨cowVolume :: vols, List.Forall₂.cons ⟨w.st, by rw [hr]⟩ hlen, ?_, ?_⟩
        · simpa [inputRequest] using hres
        · simpa [inputRequest] using hlog
      · refine Or.inr ⟨err, mount :: done, rest2, ?_, by simp [hsplit], ?_⟩
        · simpa [inputRequest] using hres
        · simpa [inputRequest] using hlog

/-- The calls of `createGardenContainer`: either every volume request succeeds, and the
calls are one request per output path, one per input, then one `Create` with the spec
built from the returned volumes; or a volume request fails, its error is returned, and
the calls are the requests up to the failing one. -/
theorem createGardenContainer_calls {σ : Type} (k : Consts) (c : Collab σ) (p : Provider)
    (creatingContainer : CreatingContainer) (spec : ContainerSpec)
    (outputPaths : List (String × String)) (imageMetadata : ImageMetadata) (imageURL : String)
    (w : World σ) :
    (∃ outVols cowVols : List Volume,
      List.Forall₂ (fun v entry => ∃ s, (c.FindOrCreateVolumeForContainer
          ⟨.OutputStrategy entry.1, spec.ImageSpec.Privileged⟩ creatingContainer spec.TeamID
          entry.2 s).1 = .ok v) outVols outputPaths ∧
      List.Forall₂ (fun v mount => ∃ s, (c.FindOrCreateVolumeForContainer
          ⟨.ContainerRootFSStrategy mount.Volume, spec.ImageSpec.Privileged⟩ creatingContainer
          spec.TeamID mount.MountPath s).1 = .ok v) cowVols spec.Inputs ∧
      (createGardenContainer k c p creatingContainer spec outputPaths imageMetadata imageURL
          w).2.since w
        = outputPaths.map (outputRequest creatingContainer spec) ++
          spec.Inputs.map (inputRequest creatingContainer spec) ++
          [Event.Create
            { BindMounts :=
                (List.zipWith (fun v entry => (⟨v, entry.2⟩ : VolumeMount)) outVols outputPaths ++
                  spec.Mounts ++
                  List.zipWith (fun v mount => (⟨v, mount.MountPath⟩ : VolumeMount)) cowVols
                    spec.Inputs).map bindMountOf
              Privileged := spec.ImageSpec.Privileged
              Properties := gardenPropertiesOf k spec imageMetadata
              RootFSPath := imageURL
              Env := envOf p spec imageMetadata
              Handle := creatingContainer.Handle }]) ∨
    (∃ err done rest,
      (createGardenContainer k c p creatingContainer spec outputPaths imageMetadata imageURL
          w).1 = .error err ∧
      done ++ rest = outputPaths.map (outputRequest creatingContainer spec) ++
          spec.Inputs.map (inputRequest creatingContainer spec) ∧
      (createGardenContainer k c p creatingContainer spec outputPaths imageMetadata imageURL
          w).2.since w = done) := by
  simp only [createGardenContainer, World.since]
  rcases outputVolumeMounts_calls c creatingContainer spec outputPaths [] w with
    ⟨outVols, hlen1, hres1, hlog1⟩ | ⟨err, done, rest, hres1, hsplit1, hlog1⟩
  · generalize outputVolumeMounts c creatingContainer spec outputPaths [] w = r1 at hres1 hlog1
    obtain ⟨o1, w1⟩ := r1
    simp only at hres1 hlog1
    subst hres1
    simp only [appendMounts_eq]
    rcases inputVolumeMounts_calls c creatingContainer spec spec.Inputs
        ([] ++ List.zipWith (fun v entry => (⟨v, entry.2⟩ : VolumeMount)) outVols outputPaths
          ++ spec.Mounts) w1 with
      ⟨cowVols, hlen2, hres2, hlog2⟩ | ⟨err, done, rest, hres2, hsplit2, hlog2⟩
    · generalize inputVolumeMounts c creatingContainer spec spec.Inputs
        ([] ++ List.zipWith (fun v entry => (⟨v, entry.2⟩ : VolumeMount)) outVols outputPaths
          ++ spec.Mounts) w1 = r2 at hres2 hlog2
      obtain ⟨o2, w2⟩ := r2
      simp only at hres2 hlog2
      subst hres2
      refine Or.inl ⟨outVols, cowVols, hlen1, hlen2, ?_⟩
      simp [World.call, hlog2, hlog1, bindMountsOf_eq, List.append_assoc]
    · generalize inputVolumeMounts c creatingContainer spec spec.Inputs
        ([] ++ List.zipWith (fun v entry => (⟨v, entry.2⟩ : VolumeMount)) outVols outputPaths
          ++ spec.Mounts) w1 = r2 at hres2 hlog2
      obtain ⟨o2, w2⟩ := r2
      simp only at hres2 hlog2
      subst hres2
      refine Or.inr ⟨err, outputPaths.map (outputRequest creatingContainer spec) ++
        done.map (inputRequest creatingContainer spec),
        rest.map (inputRequest creatingContainer spec), rfl, ?_, ?_⟩
      · simp [← hsplit2, List.append_assoc]
      · simp [hlog2, hlog1, List.append_assoc]
  · generalize outputVolumeMounts c creatingContainer spec outputPaths [] w = r1 at hres1 hlog1
    obtain ⟨o1, w1⟩ := r1
    simp only at hres1 hlog1
    subst hres1
    refine Or.inr ⟨err, done.map (outputRequest creatingContainer spec),
      rest.map (outputRequest creatingContainer spec) ++
        spec.Inputs.map (inputRequest creatingContainer spec), rfl, ?_, ?_⟩
    · simp [← hsplit1, List.append_assoc]
    · simp [hlog1]

/-- A `Create` call among the calls of `createGardenContainer` carries the spec built from
some volumes returned for the output paths and the inputs. -/
theorem createGardenContainer_create_spec {σ : Type} (k : Consts) (c : Collab σ) (p : Provider)
    (creatingContainer : CreatingContainer) (spec : ContainerSpec)
    (outputPaths : List (String × String)) (imageMetadata : ImageMetadata) (imageURL : String)
    (w : World σ) (gs : GardenSpec)
    (h : Event.Create gs ∈ (createGardenContainer k c p creatingContainer spec outputPaths
      imageMetadata imageURL w).2.since w) :
    ∃ outVols cowVols : List Volume,
      List.Forall₂ (fun v entry => ∃ s, (c.FindOrCreateVolumeForContainer
          ⟨.OutputStrategy entry.1, spec.ImageSpec.Privileged⟩ creatingContainer spec.TeamID
          entry.2 s).1 = .ok v) outVols outputPaths ∧
      List.Forall₂ (fun v mount => ∃ s, (c.FindOrCreateVolumeForContainer
          ⟨.ContainerRootFSStrategy mount.Volume, spec.ImageSpec.Privileged⟩ creatingContainer
          spec.TeamID mount.MountPath s).1 = .ok v) cowVols spec.Inputs ∧
      gs = { BindMounts :=
                (List.zipWith (fun v entry => (⟨v, entry.2⟩ : VolumeMount)) outVols outputPaths ++
                  spec.Mounts ++
                  List.zipWith (fun v mount => (⟨v, mount.MountPath⟩ : VolumeMount)) cowVols
                    spec.Inputs).map bindMountOf
             Privileged := spec.ImageSpec.Privileged
             Properties := gardenPropertiesOf k spec imageMetadata
             RootFSPath := imageURL
             Env := envOf p spec imageMetadata
             Handle := creatingContainer.Handle } := by
  rcases createGardenContainer_calls k c p creatingContainer spec outputPaths imageMetadata
      imageURL w with ⟨outVols, cowVols, h1, h2, hlog⟩ | ⟨err, done, rest, -, hsplit, hlog⟩
  · rw [hlog] at h
    refine ⟨outVols, cowVols, h1, h2, ?_⟩
    simpa [outputRequest, inputRequest] using h
  · rw [hlog] at h
    have hmem : Event.Create gs ∈ done ++ rest := List.mem_append_left _ h
    rw [hsplit] at hmem
    simp [outputRequest, inputRequest] at hmem

/-- C6. The `Env` of the spec that `createGardenContainer` passes to the runtime `Create`
is the image-metadata env, then `spec.Env`, then `http_proxy=`, `https_proxy=` and
`no_proxy=` with their settings, in that order, each of the three present exactly when
its setting is not the empty string. -/
theorem createGardenContainer_env {σ : Type} (k : Consts) (c : Collab σ) (p : Provider)
    (creatingContainer : CreatingContainer) (spec : ContainerSpec)
    (outputPaths : List (String × String)) (imageMetadata : ImageMetadata) (imageURL : String)
    (w : World σ) (gs : GardenSpec)
    (h : Event.Create gs ∈ (createGardenContainer k c p creatingContainer spec outputPaths
      imageMetadata imageURL w).2.since w) :
    gs.Env = imageMetadata.Env ++ spec.Env ++
      (if p.httpProxyURL = "" then [] else ["http_proxy=" ++ p.httpProxyURL]) ++
      (if p.httpsProxyURL = "" then [] else ["https_proxy=" ++ p.httpsProxyURL]) ++
      (if p.noProxy = "" then [] else ["no_proxy=" ++ p.noProxy]) := by
  obtain ⟨outVols, cowVols, -, -, rfl⟩ := createGardenContainer_create_spec k c p
    creatingContainer spec outputPaths imageMetadata imageURL w gs h
  simp only [envOf]
  split_ifs <;> simp_all

/-- C7. The bind mounts of the spec that `createGardenContainer` passes to the runtime
`Create` are, entry by entry, the bind mounts (volume path, mount path, read-write) of the
volume mounts: one mount per output path at its path, of a volume that the volume client
returned for the `OutputStrategy` request of that entry; then `spec.Mounts` as given; then
one mount per entry of `spec.Inputs` at its mount path, of a volume returned for the
`ContainerRootFSStrategy` request of that input; their number is
`|outputPaths| + |spec.Mounts| + |spec.Inputs|`. -/
theorem createGardenContainer_bind_mounts {σ : Type} (k : Consts) (c : Collab σ) (p : Provider)
    (creatingContainer : CreatingContainer) (spec : ContainerSpec)
    (outputPaths : List (String × String)) (imageMetadata : ImageMetadata) (imageURL : String)
    (w : World σ) (gs : GardenSpec)
    (h : Event.Create gs ∈ (createGardenContainer k c p creatingContainer spec outputPaths
      imageMetadata imageURL w).2.since w) :
    ∃ outVols cowVols : List Volume,
      List.Forall₂ (fun v entry => ∃ s, (c.FindOrCreateVolumeForContainer
          ⟨.OutputStrategy entry.1, spec.ImageSpec.Privileged⟩ creatingContainer spec.TeamID
          entry.2 s).1 = .ok v) outVols outputPaths ∧
      List.Forall₂ (fun v mount => ∃ s, (c.FindOrCreateVolumeForContainer
          ⟨.ContainerRootFSStrategy mount.Volume, spec.ImageSpec.Privileged⟩ creatingContainer
          spec.TeamID mount.MountPath s).1 = .ok v) cowVols spec.Inputs ∧
      gs.BindMounts =
        (List.zipWith (fun v entry => (⟨v, entry.2⟩ : VolumeMount)) outVols outputPaths ++
          spec.Mounts ++
          List.zipWith (fun v mount => (⟨v, mount.MountPath⟩ : VolumeMount)) cowVols
            spec.Inputs).map
          (fun m => (⟨m.Volume.Path, m.MountPath, BindMountMode.BindMountModeRW⟩ : BindMount)) ∧
      gs.BindMounts.length = outputPaths.length + spec.Mounts.length + spec.Inputs.length := by
  obtain ⟨outVols, cowVols, h1, h2, rfl⟩ := createGardenContainer_create_spec k c p
    creatingContainer spec outputPaths imageMetadata imageURL w gs h
  refine ⟨outVols, cowVols, h1, h2, rfl, ?_⟩
  simp [h1.length_eq, h2.length_eq, Nat.add_assoc]

/-- C8. The volume requests of `createGardenContainer` are, in order, an initial part of:
one request per entry of `outputPaths` with strategy `OutputStrategy` of its name and its
path as mount path, then one per entry of `spec.Inputs` with strategy
`ContainerRootFSStrategy` of the input's volume and its mount path; none for
`spec.Mounts`. When the call gets to the runtime `Create` they are all of these. -/
theorem createGardenContainer_volume_requests {σ : Type} (k : Consts) (c : Collab σ)
    (p : Provider) (creatingContainer : CreatingContainer) (spec : ContainerSpec)
    (outputPaths : List (String × String)) (imageMetadata : ImageMetadata) (imageURL : String)
    (w : World σ) :
    (∃ rest,
      ((createGardenContainer k c p creatingContainer spec outputPaths imageMetadata imageURL
          w).2.since w).filter Event.isVolumeRequest ++ rest
        = outputPaths.map (fun entry =>
            Event.FindOrCreateVolumeForContainer
              ⟨.OutputStrategy entry.1, spec.ImageSpec.Privileged⟩
              creatingContainer spec.TeamID entry.2) ++
          spec.Inputs.map (fun mount =>
            Event.FindOrCreateVolumeForContainer
              ⟨.ContainerRootFSStrategy mount.Volume, spec.ImageSpec.Privileged⟩
              creatingContainer spec.TeamID mount.MountPath)) ∧
    ((∃ gs, Event.Create gs ∈ (createGardenContainer k c p creatingContainer spec outputPaths
        imageMetadata imageURL w).2.since w) →
      ((createGardenContainer k c p creatingContainer spec outputPaths imageMetadata imageURL
          w).2.since w).filter Event.isVolumeRequest
        = outputPaths.map (fun entry =>
            Event.FindOrCreateVolumeForContainer
              ⟨.OutputStrategy entry.1, spec.ImageSpec.Privileged⟩
              creatingContainer spec.TeamID entry.2) ++
          spec.Inputs.map (fun mount =>
            Event.FindOrCreateVolumeForContainer
              ⟨.ContainerRootFSStrategy mount.Volume, spec.ImageSpec.Privileged⟩
              creatingContainer spec.TeamID mount.MountPath)) := by
  have hall : ∀ e ∈ outputPaths.map (outputRequest creatingContainer spec) ++
      spec.Inputs.map (inputRequest creatingContainer spec), Event.isVolumeRequest e = true := by
    intro e he
    simp only [List.mem_append, List.mem_map] at he
    rcases he with ⟨x, -, rfl⟩ | ⟨x, -, rfl⟩ <;> rfl
  rcases createGardenContainer_calls k c p creatingContainer spec outputPaths imageMetadata
      imageURL w with ⟨outVols, cowVols, h1, h2, hlog⟩ | ⟨err, done, rest, -, hsplit, hlog⟩
  · have hf : ((createGardenContainer k c p creatingContainer spec outputPaths imageMetadata
        imageURL w).2.since w).filter Event.isVolumeRequest
        = outputPaths.map (outputRequest creatingContainer spec) ++
          spec.Inputs.map (inputRequest creatingContainer spec) := by
      rw [hlog, List.filter_append, List.filter_eq_self.mpr hall]
      simp [Event.isVolumeRequest]
    exact ⟨⟨[], by rw [hf, List.append_nil]; rfl⟩, fun _ => hf⟩
  · have hdone : ∀ e ∈ done, Event.isVolumeRequest e = true := fun e he =>
      hall e (hsplit ▸ List.mem_append_left _ he)
    have hf : ((createGardenContainer k c p creatingContainer spec outputPaths imageMetadata
        imageURL w).2.since w).filter Event.isVolumeRequest = done := by
      rw [hlog, List.filter_eq_self.mpr hdone]
    refine ⟨⟨rest, by rw [hf, hsplit]; rfl⟩, ?_⟩
    rintro ⟨gs, hgs⟩
    rw [hlog] at hgs
    have := hdone _ hgs
    simp [Event.isVolumeRequest] at this

/-- C6, instances: image env `some, env`, spec env `A=1`, once with the three proxy
settings of the test suite and once with only `no_proxy` configured. -/
theorem createGardenContainer_env_witness :
    (Event.Create (demoGardenSpec ["some", "env", "A=1", "http_proxy=http://proxy.com",
          "https_proxy=https://proxy.com", "no_proxy=http://noproxy.com"])
      ∈ (createGardenContainer demoConsts demoCollab demoProvider ⟨42, "some-handle"⟩ demoSpec
          [("output", "/some/path")] ⟨["some", "env"], "image-user"⟩ "raw:///rootfs"
          ⟨(), []⟩).2.since ⟨(), []⟩ ∧
      ["some", "env", "A=1", "http_proxy=http://proxy.com", "https_proxy=https://proxy.com",
          "no_proxy=http://noproxy.com"]
        = ["some", "env"] ++ ["A=1"] ++ ["http_proxy=http://proxy.com"] ++
          ["https_proxy=https://proxy.com"] ++ ["no_proxy=http://noproxy.com"]) ∧
    (Event.Create (demoGardenSpec ["some", "env", "A=1", "no_proxy=localhost"])
      ∈ (createGardenContainer demoConsts demoCollab noProxyOnlyProvider ⟨42, "some-handle"⟩
          demoSpec [("output", "/some/path")] ⟨["some", "env"], "image-user"⟩ "raw:///rootfs"
          ⟨(), []⟩).2.since ⟨(), []⟩ ∧
      ["some", "env", "A=1", "no_proxy=localhost"]
        = ["some", "env"] ++ ["A=1"] ++ [] ++ [] ++ ["no_proxy=localhost"]) :=
  ⟨⟨List.mem_cons_of_mem _ (List.mem_cons_of_mem _ (List.mem_singleton.mpr rfl)),
    createGardenContainer_env demoConsts demoCollab demoProvider ⟨42, "some-handle"⟩ demoSpec
      [("output", "/some/path")] ⟨["some", "env"], "image-user"⟩ "raw:///rootfs" ⟨(), []⟩ _
      (List.mem_cons_of_mem _ (List.mem_cons_of_mem _ (List.mem_singleton.mpr rfl)))⟩,
   ⟨List.mem_cons_of_mem _ (List.mem_cons_of_mem _ (List.mem_singleton.mpr rfl)),
    createGardenContainer_env demoConsts demoCollab noProxyOnlyProvider ⟨42, "some-handle"⟩
      demoSpec [("output", "/some/path")] ⟨["some", "env"], "image-user"⟩ "raw:///rootfs"
      ⟨(), []⟩ _
      (List.mem_cons_of_mem _ (List.mem_cons_of_mem _ (List.mem_singleton.mpr rfl)))⟩⟩

/-- C7, an instance: one output path, one mount and one input give three bind mounts, in
that order. -/
theorem createGardenContainer_bind_mounts_witness :
    Event.Create (demoGardenSpec ["some", "env", "A=1", "http_proxy=http://proxy.com",
          "https_proxy=https://proxy.com", "no_proxy=http://noproxy.com"])
      ∈ (createGardenContainer demoConsts demoCollab demoProvider ⟨42, "some-handle"⟩ demoSpec
          [("output", "/some/path")] ⟨["some", "env"], "image-user"⟩ "raw:///rootfs"
          ⟨(), []⟩).2.since ⟨(), []⟩ ∧
    ∃ outVols cowVols : List Volume,
      List.Forall₂ (fun v entry => ∃ s, (demoCollab.FindOrCreateVolumeForContainer
          ⟨.OutputStrategy entry.1, true⟩ ⟨42, "some-handle"⟩ 1 entry.2 s).1 = .ok v)
        outVols [("output", "/some/path")] ∧
      List.Forall₂ (fun v mount => ∃ s, (demoCollab.FindOrCreateVolumeForContainer
          ⟨.ContainerRootFSStrategy mount.Volume, true⟩ ⟨42, "some-handle"⟩ 1
          mount.MountPath s).1 = .ok v) cowVols demoSpec.Inputs ∧
      [(⟨"/volumes/some/path", "/some/path", .BindMountModeRW⟩ : BindMount),
       ⟨"/volumes/cache", "/cache", .BindMountModeRW⟩,
       ⟨"/volumes/some/input/path", "/some/input/path", .BindMountModeRW⟩]
        = (List.zipWith (fun v entry => (⟨v, entry.2⟩ : VolumeMount)) outVols
              [("output", "/some/path")] ++
            demoSpec.Mounts ++
            List.zipWith (fun v mount => (⟨v, mount.MountPath⟩ : VolumeMount)) cowVols
              demoSpec.Inputs).map
            (fun m => (⟨m.Volume.Path, m.MountPath, BindMountMode.BindMountModeRW⟩ : BindMount)) ∧
      3 = 1 + 1 + 1 :=
  ⟨List.mem_cons_of_mem _ (List.mem_cons_of_mem _ (List.mem_singleton.mpr rfl)),
   createGardenContainer_bind_mounts demoConsts demoCollab demoProvider ⟨42, "some-handle"⟩
    demoSpec [("output", "/some/path")] ⟨["some", "env"], "image-user"⟩ "raw:///rootfs"
    ⟨(), []⟩ _ (List.mem_cons_of_mem _ (List.mem_cons_of_mem _ (List.mem_singleton.mpr rfl)))⟩

/-- C8, instances: with one output path, one mount and one input, exactly two volume
requests are issued, the output one and the copy-on-write one; with a failing volume
service only the first request is issued. -/
theorem createGardenContainer_volume_requests_witness :
    ((createGardenContainer demoConsts demoCollab demoProvider ⟨42, "some-handle"⟩ demoSpec
          [("output", "/some/path")] ⟨["some", "env"], "image-user"⟩ "raw:///rootfs"
          ⟨(), []⟩).2.since ⟨(), []⟩).filter Event.isVolumeRequest
      = [Event.FindOrCreateVolumeForContainer ⟨.OutputStrategy "output", true⟩
            ⟨42, "some-handle"⟩ 1 "/some/path",
         Event.FindOrCreateVolumeForContainer
            ⟨.ContainerRootFSStrategy ⟨"input-volume", "/volumes/input"⟩, true⟩
            ⟨42, "some-handle"⟩ 1 "/some/input/path"] ∧
    ∃ rest, ((createGardenContainer demoConsts volumesFail demoProvider ⟨42, "some-handle"⟩
          demoSpec [("output", "/some/path")] ⟨["some", "env"], "image-user"⟩ "raw:///rootfs"
          ⟨(), []⟩).2.since ⟨(), []⟩).filter Event.isVolumeRequest ++ rest
      = [Event.FindOrCreateVolumeForContainer ⟨.OutputStrategy "output", true⟩
            ⟨42, "some-handle"⟩ 1 "/some/path",
         Event.FindOrCreateVolumeForContainer
            ⟨.ContainerRootFSStrategy ⟨"input-volume", "/volumes/input"⟩, true⟩
            ⟨42, "some-handle"⟩ 1 "/some/input/path"] :=
  ⟨(createGardenContainer_volume_requests demoConsts demoCollab demoProvider
      ⟨42, "some-handle"⟩ demoSpec [("output", "/some/path")] ⟨["some", "env"], "image-user"⟩
      "raw:///rootfs" ⟨(), []⟩).2
      ⟨_, List.mem_cons_of_mem _ (List.mem_cons_of_mem _ (List.mem_singleton.mpr rfl))⟩,
   (createGardenContainer_volume_requests demoConsts volumesFail demoProvider
      ⟨42, "some-handle"⟩ demoSpec [("output", "/some/path")] ⟨["some", "env"], "image-user"⟩
      "raw:///rootfs" ⟨(), []⟩).1⟩

/-- C15. The spec that `createGardenContainer` passes to the runtime `Create` has the
handle of the creating container, the fetched image URL as `RootFSPath`, `Privileged`
equal to `spec.ImageSpec.Privileged`, and as properties the user property (`spec.User`
when it is not empty, the image metadata's user otherwise) followed by the ephemeral
property with value `true` exactly when `spec.Ephemeral` is set, and nothing else. The two
property names are constants declared outside the sources and are taken to differ. -/
theorem createGardenContainer_spec_fields {σ : Type} (k : Consts) (c : Collab σ)
    (p : Provider) (creatingContainer : CreatingContainer) (spec : ContainerSpec)
    (outputPaths : List (String × String)) (imageMetadata : ImageMetadata) (imageURL : String)
    (w : World σ) (gs : GardenSpec)
    (hk : k.userPropertyName ≠ k.ephemeralPropertyName)
    (h : Event.Create gs ∈ (createGardenContainer k c p creatingContainer spec outputPaths
      imageMetadata imageURL w).2.since w) :
    gs.Handle = creatingContainer.Handle ∧
    gs.RootFSPath = imageURL ∧
    gs.Privileged = spec.ImageSpec.Privileged ∧
    gs.Properties =
      (k.userPropertyName, if spec.User = "" then imageMetadata.User else spec.User) ::
        (if spec.Ephemeral = true then [(k.ephemeralPropertyName, "true")] else []) := by
  obtain ⟨outVols, cowVols, -, -, rfl⟩ := createGardenContainer_create_spec k c p
    creatingContainer spec outputPaths imageMetadata imageURL w gs h
  refine ⟨rfl, rfl, rfl, ?_⟩
  simp only [gardenPropertiesOf, Properties.set]
  by_cases hu : spec.User = "" <;> by_cases he : spec.Ephemeral = true <;>
    simp [hu, he, hk]

/-- C15, an instance: `demoSpec` has no user and is not ephemeral, so the properties are
the image user alone. -/
theorem createGardenContainer_spec_fields_witness :
    Event.Create (demoGardenSpec ["some", "env", "A=1", "http_proxy=http://proxy.com",
          "https_proxy=https://proxy.com", "no_proxy=http://noproxy.com"])
      ∈ (createGardenContainer demoConsts demoCollab demoProvider ⟨42, "some-handle"⟩ demoSpec
          [("output", "/some/path")] ⟨["some", "env"], "image-user"⟩ "raw:///rootfs"
          ⟨(), []⟩).2.since ⟨(), []⟩ ∧
    ("some-handle" = "some-handle" ∧ "raw:///rootfs" = "raw:///rootfs" ∧ true = true ∧
      [("user", "image-user")] = ("user", "image-user") :: []) :=
  ⟨List.mem_cons_of_mem _ (List.mem_cons_of_mem _ (List.mem_singleton.mpr rfl)),
   createGardenContainer_spec_fields demoConsts demoCollab demoProvider ⟨42, "some-handle"⟩
    demoSpec [("output", "/some/path")] ⟨["some", "env"], "image-user"⟩ "raw:///rootfs"
    ⟨(), []⟩ _ (by decide)
    (List.mem_cons_of_mem _ (List.mem_cons_of_mem _ (List.mem_singleton.mpr rfl)))⟩

/-- The two loops of `createGardenContainer` only add volume requests to the log. -/
theorem outputVolumeMounts_log {σ : Type} (c : Collab σ) (creatingContainer : CreatingContainer)
    (spec : ContainerSpec) (outputPaths : List (String × String))
    (volumeMounts : List VolumeMount) (w : World σ) :
    ∃ reqs, (∀ e ∈ reqs, Event.isVolumeRequest e = true) ∧
      (outputVolumeMounts c creatingContainer spec outputPaths volumeMounts w).2.log
        = w.log ++ reqs := by
  rcases outputVolumeMounts_calls c creatingContainer spec outputPaths volumeMounts w with
    ⟨-, -, -, hlog⟩ | ⟨-, done, -, -, -, hlog⟩
  · refine ⟨_, ?_, hlog⟩
    intro e he
    obtain ⟨x, -, rfl⟩ := List.mem_map.mp he
    rfl
  · refine ⟨_, ?_, hlog⟩
    intro e he
    obtain ⟨x, -, rfl⟩ := List.mem_map.mp he
    rfl

/-- The loop over the inputs only adds volume requests to the log. -/
theorem inputVolumeMounts_log {σ : Type} (c : Collab σ) (creatingContainer : CreatingContainer)
    (spec : ContainerSpec) (inputs : List VolumeMount)
    (volumeMounts : List VolumeMount) (w : World σ) :
    ∃ reqs, (∀ e ∈ reqs, Event.isVolumeRequest e = true) ∧
      (inputVolumeMounts c creatingContainer spec inputs volumeMounts w).2.log
        = w.log ++ reqs := by
  rcases inputVolumeMounts_calls c creatingContainer spec inputs volumeMounts w with
    ⟨-, -, -, hlog⟩ | ⟨-, done, -, -, -, hlog⟩
  · refine ⟨_, ?_, hlog⟩
    intro e he
    obtain ⟨x, -, rfl⟩ := List.mem_map.mp he
    rfl
  · refine ⟨_, ?_, hlog⟩
    intro e he
    obtain ⟨x, -, rfl⟩ := List.mem_map.mp he
    rfl

/-- The shape of a run of `createGardenContainer`: volume requests, and then either the
error of a failed request, or one `Create` call whose result is the result of the run. -/
theorem createGardenContainer_trace {σ : Type} (k : Consts) (c : Collab σ) (p : Provider)
    (creatingContainer : CreatingContainer) (spec : ContainerSpec)
    (outputPaths : List (String × String)) (imageMetadata : ImageMetadata) (imageURL : String)
    (w : World σ) :
    ∃ reqs, (∀ e ∈ reqs, Event.isVolumeRequest e = true) ∧
      ((∃ err s,
          createGardenContainer k c p creatingContainer spec outputPaths imageMetadata imageURL w
            = (.error err, ⟨s, w.log ++ reqs⟩)) ∨
        (∃ gs s,
          createGardenContainer k c p creatingContainer spec outputPaths imageMetadata imageURL w
            = ((c.Create gs s).1, ⟨(c.Create gs s).2, w.log ++ reqs ++ [Event.Create gs]⟩))) := by
  simp only [createGardenContainer]
  obtain ⟨reqs1, hall1, hlog1⟩ :=
    outputVolumeMounts_log c creatingContainer spec outputPaths [] w
  generalize outputVolumeMounts c creatingContainer spec outputPaths [] w = r1 at hlog1
  obtain ⟨o1, ⟨s1, log1⟩⟩ := r1
  simp only at hlog1
  subst hlog1
  cases o1 with
  | error err => exact ⟨reqs1, hall1, Or.inl ⟨err, s1, rfl⟩⟩
  | ok volumeMounts1 =>
    simp only []
    obtain ⟨reqs2, hall2, hlog2⟩ := inputVolumeMounts_log c creatingContainer spec spec.Inputs
      (appendMounts spec.Mounts volumeMounts1) ⟨s1, w.log ++ reqs1⟩
    generalize inputVolumeMounts c creatingContainer spec spec.Inputs
      (appendMounts spec.Mounts volumeMounts1) ⟨s1, w.log ++ reqs1⟩ = r2 at hlog2
    obtain ⟨o2, ⟨s2, log2⟩⟩ := r2
    simp only at hlog2
    subst hlog2
    have hall : ∀ e ∈ reqs1 ++ reqs2, Event.isVolumeRequest e = true := by
      intro e he
      rcases List.mem_append.mp he with h | h
      · exact hall1 e h
      · exact hall2 e h
    cases o2 with
    | error err => exact ⟨reqs1 ++ reqs2, hall, Or.inl ⟨err, s2, by simp [List.append_assoc]⟩⟩
    | ok volumeMounts =>
      refine ⟨reqs1 ++ reqs2, hall, Or.inr
        ⟨{ BindMounts := bindMountsOf volumeMounts []
           Privileged := spec.ImageSpec.Privileged
           Properties := gardenPropertiesOf k spec imageMetadata
           RootFSPath := imageURL
           Env := envOf p spec imageMetadata
           Handle := creatingContainer.Handle }, s2, ?_⟩⟩
      simp [World.call, List.append_assoc]

/-- Volume requests are neither TTL updates nor `Created()` transitions. -/
theorem filter_volume_requests (reqs : List Event) (q : Event → Bool)
    (hall : ∀ e ∈ reqs, Event.isVolumeRequest e = true)
    (hq : ∀ e, Event.isVolumeRequest e = true → q e = false) : reqs.filter q = [] := by
  rw [List.filter_eq_nil_iff]
  intro e he
  simp [hq e (hall e he)]

/-- C19. On the path that creates the runtime container (the image is fetched and
`createGardenContainer` returns a container), `UpdateContainerTTLToBeRemoved` is called
exactly once, right after the `Create` call that returned the container, with the
metadata in which `WorkerName` is the provider's worker name, `Handle` the handle of that
container and `User` is `spec.User` when not empty and the fetched image's user
otherwise, with the identifier in which `ResourceTypeVersion` is the fetched image's
version, and with `maxContainerLifetime` of that metadata as TTL; when the update fails,
its error is returned and `Created()` is not called. -/
theorem createUnderLock_updates_ttl_once {σ : Type} (k : Consts) (c : Collab σ) (p : Provider)
    (id : Identifier) (metadata : Metadata) (spec : ContainerSpec)
    (outputPaths : List (String × String)) (image : Image)
    (creatingContainer : CreatingContainer) (w : World σ)
    (fetchedImage : FetchedImage) (s1 : σ) (gardenContainer : GardenContainer) (w2 : World σ)
    (hfetch : c.FetchForContainer image creatingContainer w.st = (.ok fetchedImage, s1))
    (hcreate : createGardenContainer k c p creatingContainer spec outputPaths
      fetchedImage.Metadata fetchedImage.URL
      ⟨s1, w.log ++ [Event.FetchForContainer image creatingContainer]⟩
        = (.ok gardenContainer, w2)) :
    ∃ md : Metadata, ∃ id1 : Identifier,
      md = { metadata with
              WorkerName := p.workerName
              Handle := gardenContainer.Handle
              User := if spec.User = "" then fetchedImage.Metadata.User else spec.User } ∧
      id1 = { id with ResourceTypeVersion := fetchedImage.Version } ∧
      (∃ gs pre s, w2.log = pre ++ [Event.Create gs] ∧ (c.Create gs s).1 = .ok gardenContainer) ∧
      ((createUnderLock k c p id metadata spec outputPaths image creatingContainer w).2.since w).filter
          Event.isUpdateTTL
        = [Event.UpdateContainerTTLToBeRemoved id1 md (maxContainerLifetime k c md w2.st)] ∧
      (∃ tail, (createUnderLock k c p id metadata spec outputPaths image creatingContainer w).2.log
        = w2.log ++
          Event.UpdateContainerTTLToBeRemoved id1 md (maxContainerLifetime k c md w2.st) :: tail) ∧
      (∀ err s3,
        c.UpdateContainerTTLToBeRemoved id1 md (maxContainerLifetime k c md w2.st) w2.st
          = (some err, s3) →
        createUnderLock k c p id metadata spec outputPaths image creatingContainer w
          = ((none, some err),
              ⟨s3, w2.log ++
                [Event.UpdateContainerTTLToBeRemoved id1 md (maxContainerLifetime k c md w2.st)]⟩) ∧
        ((createUnderLock k c p id metadata spec outputPaths image creatingContainer w).2.since w).filter
          Event.isCreated = []) := by
  obtain ⟨reqs, hall, htrace⟩ := createGardenContainer_trace k c p creatingContainer spec
    outputPaths fetchedImage.Metadata fetchedImage.URL
    ⟨s1, w.log ++ [Event.FetchForContainer image creatingContainer]⟩
  rw [hcreate] at htrace
  rcases htrace with ⟨err, s, h⟩ | ⟨gs, s, h⟩
  · simp at h
  have hok : (c.Create gs s).1 = .ok gardenContainer := (congrArg Prod.fst h).symm
  obtain ⟨s2, log2⟩ := w2
  have hlog : log2 = w.log ++ [Event.FetchForContainer image creatingContainer] ++ reqs ++
      [Event.Create gs] := by
    have := congrArg (fun x => x.2.log) h
    simpa using this
  subst hlog
  have hu : reqs.filter Event.isUpdateTTL = [] :=
    filter_volume_requests reqs _ hall (by intro e he; cases e <;> simp_all [Event.isVolumeRequest, Event.isUpdateTTL])
  have hc : reqs.filter Event.isCreated = [] :=
    filter_volume_requests reqs _ hall (by intro e he; cases e <;> simp_all [Event.isVolumeRequest, Event.isCreated])
  have huser : (if spec.User ≠ "" then spec.User else fetchedImage.Metadata.User)
      = (if spec.User = "" then fetchedImage.Metadata.User else spec.User) := by
    by_cases hs : spec.User = "" <;> simp [hs]
  refine ⟨_, _, rfl, rfl, ⟨gs, _, s, rfl, hok⟩, ?_⟩
  simp only [createUnderLock, World.call, hfetch, hcreate, huser, World.since]
  generalize hr3 : c.UpdateContainerTTLToBeRemoved _ _ _ s2 = r3
  obtain ⟨o3, s3⟩ := r3
  cases o3 with
  | some err =>
    simp [List.append_assoc, List.filter_append, hu, hc, Event.isUpdateTTL, Event.isCreated]
  | none =>
    simp only [markCreated, World.call]
    generalize c.Created creatingContainer s3 = r4
    obtain ⟨⟨cr, e4⟩, s4⟩ := r4
    cases e4 with
    | some err =>
      simp [List.append_assoc, List.filter_append, hu, hc, Event.isUpdateTTL, Event.isCreated]
    | none =>
      simp only [wrapContainer, World.call]
      generalize c.FindVolumesForContainer cr s4 = r5
      obtain ⟨o5, s5⟩ := r5
      cases o5 with
      | error err =>
        simp [List.append_assoc, List.filter_append, hu, hc, Event.isUpdateTTL, Event.isCreated]
      | ok vols =>
        simp [List.append_assoc, List.filter_append, hu, hc, Event.isUpdateTTL, Event.isCreated]

/-- C19, an instance: a check container created on worker `w1` from an image of user
`image-user` and version `v: 1`; the single update carries the worker name, the handle
`some-handle` of the created container, that user and version, and ten minutes, the
uptime of the worker, as TTL. -/
theorem createUnderLock_updates_ttl_once_witness :
    ((createUnderLock demoConsts demoCollab demoProvider demoIdentifier
        ⟨"check", "some-step", 1, "", "", ""⟩ demoSpec [("output", "/some/path")] ⟨1⟩
        ⟨42, "some-handle"⟩ ⟨(), []⟩).2.since ⟨(), []⟩).filter Event.isUpdateTTL
      = [Event.UpdateContainerTTLToBeRemoved ⟨4, "p", 0, some [("v", "1")]⟩
          ⟨"check", "some-step", 1, "w1", "some-handle", "image-user"⟩ 600000000000] := by
  obtain ⟨md, id1, rfl, rfl, -, h, -, -⟩ := createUnderLock_updates_ttl_once demoConsts
    demoCollab demoProvider demoIdentifier ⟨"check", "some-step", 1, "", "", ""⟩ demoSpec
    [("output", "/some/path")] ⟨1⟩ ⟨42, "some-handle"⟩ ⟨(), []⟩
    ⟨⟨["some", "env"], "image-user"⟩, "raw:///var/vcap/some-path/rootfs", some [("v", "1")]⟩ ()
    ⟨"some-handle"⟩ _ rfl rfl
  exact h

/-- A successful `markCreated` made exactly the calls `Created()`, `FindVolumesForContainer`
and `newGardenWorkerContainer`, each without error, and returns what the last one built
from the runtime container and the created container of the transition. -/
theorem markCreated_success {σ : Type} (c : Collab σ) (p : Provider)
    (gardenContainer : Option GardenContainer) (creatingContainer : CreatingContainer)
    (w w1 : World σ) (container : Container)
    (h : markCreated c p gardenContainer creatingContainer w = ((some container, none), w1)) :
    ∃ created volumes s1 s2,
      c.Created creatingContainer w.st = ((created, none), s1) ∧
      c.FindVolumesForContainer created s1 = (.ok volumes, s2) ∧
      (c.newGardenWorkerContainer gardenContainer created volumes p.workerName s2).1
        = (some container, none) ∧
      w1.log = w.log ++
        [Event.Created creatingContainer, Event.FindVolumesForContainer created,
          Event.newGardenWorkerContainer gardenContainer created volumes p.workerName] := by
  revert h
  simp only [markCreated, World.call]
  generalize hr1 : c.Created creatingContainer w.st = r1
  obtain ⟨⟨created, e1⟩, s1⟩ := r1
  cases e1 with
  | some err => simp
  | none =>
    simp only [wrapContainer, World.call]
    generalize hr2 : c.FindVolumesForContainer created s1 = r2
    obtain ⟨o2, s2⟩ := r2
    cases o2 with
    | error err => simp
    | ok volumes =>
      simp only []
      intro h
      refine ⟨created, volumes, s1, s2, rfl, hr2, ?_, ?_⟩
      · exact congrArg Prod.fst h
      · have := congrArg (fun x => x.2.log) h
        simpa [List.append_assoc] using this.symm

/-- When `Created()` fails, `markCreated` returns its error and no container, after that
single call. -/
theorem markCreated_failure {σ : Type} (c : Collab σ) (p : Provider)
    (gardenContainer : Option GardenContainer) (creatingContainer : CreatingContainer)
    (w : World σ) (created : Option CreatedContainer) (err : Error) (s1 : σ)
    (h : c.Created creatingContainer w.st = ((created, some err), s1)) :
    markCreated c p gardenContainer creatingContainer w
      = ((none, some err), ⟨s1, w.log ++ [Event.Created creatingContainer]⟩) := by
  simp [markCreated, World.call, h]

/-- A successful `createUnderLock` called `Created()` exactly once, after a `Create` call
that returned the runtime container, and returns what `newGardenWorkerContainer` built
from that container and the created container of the transition. -/
theorem createUnderLock_success {σ : Type} (k : Consts) (c : Collab σ) (p : Provider)
    (id : Identifier) (metadata : Metadata) (spec : ContainerSpec)
    (outputPaths : List (String × String)) (image : Image)
    (creatingContainer : CreatingContainer) (w w1 : World σ) (container : Container)
    (h : createUnderLock k c p id metadata spec outputPaths image creatingContainer w
      = ((some container, none), w1)) :
    ∃ gc gs created volumes pre sa sb sc,
      (c.Create gs sa).1 = .ok gc ∧
      (c.Created creatingContainer sb).1 = (created, none) ∧
      (c.newGardenWorkerContainer (some gc) created volumes p.workerName sc).1
        = (some container, none) ∧
      pre.filter Event.isCreated = [] ∧ Event.Create gs ∈ pre ∧
      w1.log = w.log ++ pre ++
        [Event.Created creatingContainer, Event.FindVolumesForContainer created,
          Event.newGardenWorkerContainer (some gc) created volumes p.workerName] := by
  revert h
  simp only [createUnderLock, World.call]
  generalize c.FetchForContainer image creatingContainer w.st = r1
  obtain ⟨o1, s1⟩ := r1
  cases o1 with
  | error err => simp
  | ok fetchedImage =>
    simp only []
    obtain ⟨reqs, hall, htrace⟩ := createGardenContainer_trace k c p creatingContainer spec
      outputPaths fetchedImage.Metadata fetchedImage.URL
      ⟨s1, w.log ++ [Event.FetchForContainer image creatingContainer]⟩
    have hc : reqs.filter Event.isCreated = [] :=
      filter_volume_requests reqs _ hall
        (by intro e he; cases e <;> simp_all [Event.isVolumeRequest, Event.isCreated])
    rcases htrace with ⟨err, s, hcgc⟩ | ⟨gs, s, hcgc⟩
    · rw [hcgc]
      simp
    · rw [hcgc]
      generalize hr2 : c.Create gs s = r2
      obtain ⟨o2, s2⟩ := r2
      cases o2 with
      | error err => simp
      | ok gc =>
        simp only []
        generalize c.UpdateContainerTTLToBeRemoved _ _ _ s2 = r3
        obtain ⟨o3, s3⟩ := r3
        cases o3 with
        | some err => simp
        | none =>
          simp only []
          generalize hupd : Event.UpdateContainerTTLToBeRemoved _ _ _ = upd
          have hupdc : Event.isCreated upd = false := by rw [← hupd]; rfl
          intro h
          obtain ⟨created, volumes, s4, s5, hcr, -, hnew, hlog⟩ :=
            markCreated_success c p (some gc) creatingContainer _ w1 container h
          refine ⟨gc, gs, created, volumes,
            [Event.FetchForContainer image creatingContainer] ++ reqs ++ [Event.Create gs, upd],
            s, s3, s5, by rw [hr2], by rw [hcr], hnew, ?_, ?_, ?_⟩
          · simp [List.filter_append, hc, hupdc,
              show Event.isCreated (Event.FetchForContainer image creatingContainer) = false
                from rfl,
              show Event.isCreated (Event.Create gs) = false from rfl]
          · simp
          · rw [hlog]
            simp [List.append_assoc]

/-- The lock step either ends the call, whatever `retry` is, or loses the lock, sleeps
`creatingContainerRetryDelay` and hands over to `retry`. -/
theorem lockAndCreate_split {σ : Type} (k : Consts) (c : Collab σ) (p : Provider)
    (id : Identifier) (metadata : Metadata) (spec : ContainerSpec)
    (outputPaths : List (String × String)) (image : Image)
    (creatingContainer : CreatingContainer) (w : World σ) :
    (∃ r, ∀ retry : World σ → Outcome σ,
      lockAndCreate k c p id metadata spec outputPaths retry image creatingContainer w
        = some r) ∨
    (∃ lock s1,
      c.AcquireContainerCreatingLock creatingContainer.ID w.st = ((lock, false, none), s1) ∧
      ∀ retry : World σ → Outcome σ,
        lockAndCreate k c p id metadata spec outputPaths retry image creatingContainer w
          = retry ⟨(c.Sleep creatingContainerRetryDelay s1).2,
              w.log ++ [Event.AcquireContainerCreatingLock creatingContainer.ID,
                Event.Sleep creatingContainerRetryDelay]⟩) := by
  simp only [lockAndCreate, World.call]
  generalize hr : c.AcquireContainerCreatingLock creatingContainer.ID w.st = r
  obtain ⟨⟨lock, acquired, err⟩, s1⟩ := r
  cases err with
  | some e => (simp only []; exact Or.inl ⟨_, fun _ => rfl⟩)
  | none =>
    cases acquired with
    | false =>
      refine Or.inr ⟨lock, s1, rfl, fun retry => ?_⟩
      simp [List.append_assoc]
    | true => (simp only []; exact Or.inl ⟨_, fun _ => rfl⟩)

/-- Lines 539-653 either end the call, whatever `retry` is, or lose the lock after calls
that all come before the lock, sleep and hand over to `retry`. -/
theorem createContainer_split {σ : Type} (k : Consts) (c : Collab σ) (p : Provider)
    (id : Identifier) (metadata : Metadata) (spec : ContainerSpec)
    (outputPaths : List (String × String))
    (createContainerFunc : σ → Except Error CreatingContainer × σ)
    (creatingContainer : Option CreatingContainer) (w : World σ) :
    (∃ r, ∀ retry : World σ → Outcome σ,
      createContainer k c p id metadata spec outputPaths createContainerFunc retry
        creatingContainer w = some r) ∨
    (∃ (pre : List Event) (cc : CreatingContainer) (lock : Lock) (s0 s1 : σ),
      (∀ e ∈ pre, Event.isBeforeLock e = true) ∧
      c.AcquireContainerCreatingLock cc.ID s0 = ((lock, false, none), s1) ∧
      ∀ retry : World σ → Outcome σ,
        createContainer k c p id metadata spec outputPaths createContainerFunc retry
          creatingContainer w
          = retry ⟨(c.Sleep creatingContainerRetryDelay s1).2,
              w.log ++ pre ++ [Event.AcquireContainerCreatingLock cc.ID,
                Event.Sleep creatingContainerRetryDelay]⟩) := by
  simp only [createContainer, World.call]
  generalize c.GetImage spec.ImageSpec spec.TeamID id metadata w.st = r1
  obtain ⟨o1, s1⟩ := r1
  cases o1 with
  | error err => (simp only []; exact Or.inl ⟨_, fun _ => rfl⟩)
  | ok image =>
    cases creatingContainer with
    | some cc =>
      simp only []
      rcases lockAndCreate_split k c p id metadata spec outputPaths image cc
          ⟨s1, w.log ++ [Event.GetImage spec.ImageSpec spec.TeamID id metadata]⟩ with
        ⟨r, hr⟩ | ⟨lock, s2, hacq, hr⟩
      · exact Or.inl ⟨r, hr⟩
      · refine Or.inr ⟨[Event.GetImage spec.ImageSpec spec.TeamID id metadata], cc, lock, s1, s2,
          ?_, hacq, hr⟩
        intro e he
        rw [List.mem_singleton.mp he]
        rfl
    | none =>
      simp only []
      generalize createContainerFunc s1 = r2
      obtain ⟨o2, s2⟩ := r2
      cases o2 with
      | error err => (simp only []; exact Or.inl ⟨_, fun _ => rfl⟩)
      | ok cc =>
        simp only []
        rcases lockAndCreate_split k c p id metadata spec outputPaths image cc
            ⟨s2, w.log ++ [Event.GetImage spec.ImageSpec spec.TeamID id metadata] ++
              [Event.createContainerFunc]⟩ with
          ⟨r, hr⟩ | ⟨lock, s3, hacq, hr⟩
        · exact Or.inl ⟨r, hr⟩
        · refine Or.inr ⟨[Event.GetImage spec.ImageSpec spec.TeamID id metadata,
            Event.createContainerFunc], cc, lock, s2, s3, ?_, hacq, fun retry => ?_⟩
          · intro e he
            simp only [List.mem_cons, List.mem_singleton, List.not_mem_nil, or_false] at he
            rcases he with rfl | rfl <;> rfl
          · rw [hr retry]
            simp [List.append_assoc]

/-- One attempt of `findOrCreateContainer` either ends the call, whatever `retry` is, or
loses the lock after calls that all come before the lock, sleeps and hands over to
`retry`. -/
theorem findOrCreateContainerBody_split {σ : Type} (k : Consts) (c : Collab σ) (p : Provider)
    (id : Identifier) (metadata : Metadata) (spec : ContainerSpec)
    (outputPaths : List (String × String))
    (findContainerFunc :
      σ → (Option CreatingContainer × Option CreatedContainer × Option Error) × σ)
    (createContainerFunc : σ → Except Error CreatingContainer × σ) (w : World σ) :
    (∃ r, ∀ retry : World σ → Outcome σ,
      findOrCreateContainerBody k c p id metadata spec outputPaths findContainerFunc
        createContainerFunc retry w = some r) ∨
    (∃ (pre : List Event) (cc : CreatingContainer) (lock : Lock) (s0 s1 : σ),
      (∀ e ∈ pre, Event.isBeforeLock e = true) ∧
      c.AcquireContainerCreatingLock cc.ID s0 = ((lock, false, none), s1) ∧
      ∀ retry : World σ → Outcome σ,
        findOrCreateContainerBody k c p id metadata spec outputPaths findContainerFunc
          createContainerFunc retry w
          = retry ⟨(c.Sleep creatingContainerRetryDelay s1).2,
              w.log ++ pre ++ [Event.AcquireContainerCreatingLock cc.ID,
                Event.Sleep creatingContainerRetryDelay]⟩) := by
  simp only [findOrCreateContainerBody, World.call]
  generalize findContainerFunc w.st = r0
  obtain ⟨⟨creating, created, err⟩, s1⟩ := r0
  cases err with
  | some e => (simp only []; exact Or.inl ⟨_, fun _ => rfl⟩)
  | none =>
    cases created with
    | some cd =>
      simp only []
      generalize c.Lookup cd.Handle s1 = r1
      obtain ⟨⟨gc, e1⟩, s2⟩ := r1
      cases e1 with
      | some e => (simp only []; exact Or.inl ⟨_, fun _ => rfl⟩)
      | none => (simp only []; exact Or.inl ⟨_, fun _ => rfl⟩)
    | none =>
      cases creating with
      | none =>
        simp only []
        rcases createContainer_split k c p id metadata spec outputPaths createContainerFunc none
            ⟨s1, w.log ++ [Event.findContainerFunc]⟩ with
          ⟨r, hr⟩ | ⟨pre, cc, lock, s2, s3, hpre, hacq, hr⟩
        · exact Or.inl ⟨r, hr⟩
        · refine Or.inr ⟨Event.findContainerFunc :: pre, cc, lock, s2, s3, ?_, hacq,
            fun retry => ?_⟩
          · intro e he
            rcases List.mem_cons.mp he with rfl | h
            · rfl
            · exact hpre e h
          · rw [hr retry]
            simp [List.append_assoc]
      | some cr =>
        simp only []
        generalize c.Lookup cr.Handle s1 = r1
        obtain ⟨⟨gc, e1⟩, s2⟩ := r1
        simp only []
        by_cases hnf : e1.map Error.isContainerNotFound = some false
        · simp only [hnf, if_true]
          exact Or.inl ⟨_, fun _ => rfl⟩
        · simp only [hnf, if_false]
          cases gc with
          | some g => (simp only []; exact Or.inl ⟨_, fun _ => rfl⟩)
          | none =>
            simp only []
            rcases createContainer_split k c p id metadata spec outputPaths createContainerFunc
                (some cr) ⟨s2, w.log ++ [Event.findContainerFunc] ++ [Event.Lookup cr.Handle]⟩ with
              ⟨r, hr⟩ | ⟨pre, cc, lock, s3, s4, hpre, hacq, hr⟩
            · exact Or.inl ⟨r, hr⟩
            · refine Or.inr ⟨Event.findContainerFunc :: Event.Lookup cr.Handle :: pre, cc, lock,
                s3, s4, ?_, hacq, fun retry => ?_⟩
              · intro e he
                rcases List.mem_cons.mp he with rfl | h
                · rfl
                · rcases List.mem_cons.mp h with rfl | h2
                  · rfl
                  · exact hpre e h2
              · rw [hr retry]
                simp [List.append_assoc]

/-- A run of `findOrCreateContainer` that returns is a sequence of attempts that lost the
lock, whose calls all come before the lock, followed by one attempt that ends the call
whatever `retry` is. -/
theorem findOrCreateContainer_final_attempt {σ : Type} (k : Consts) (c : Collab σ)
    (p : Provider) (id : Identifier) (metadata : Metadata) (spec : ContainerSpec)
    (outputPaths : List (String × String))
    (findContainerFunc :
      σ → (Option CreatingContainer × Option CreatedContainer × Option Error) × σ)
    (createContainerFunc : σ → Except Error CreatingContainer × σ) (fuel : Nat) (w : World σ)
    (r : (Option Container × Option Error) × World σ)
    (h : findOrCreateContainer k c p id metadata spec outputPaths findContainerFunc
      createContainerFunc fuel w = some r) :
    ∃ (w0 : World σ) (lost : List Event), w0.log = w.log ++ lost ∧
      (∀ e ∈ lost, Event.isBeforeLock e = true) ∧
      (w0 = w ∨ Event.Sleep creatingContainerRetryDelay ∈ lost) ∧
      ∀ retry : World σ → Outcome σ,
        findOrCreateContainerBody k c p id metadata spec outputPaths findContainerFunc
          createContainerFunc retry w0 = some r := by
  induction fuel generalizing w with
  | zero => simp [findOrCreateContainer] at h
  | succ n ih =>
    simp only [findOrCreateContainer] at h
    rcases findOrCreateContainerBody_split k c p id metadata spec outputPaths findContainerFunc
        createContainerFunc w with ⟨r1, hr1⟩ | ⟨pre, cc, lock, s0, s1, hpre, -, hr1⟩
    · rw [hr1] at h
      obtain rfl : r1 = r := Option.some.inj h
      exact ⟨w, [], by simp, by simp, Or.inl rfl, hr1⟩
    · rw [hr1] at h
      obtain ⟨w0, lost, hlog, hlost, -, hbody⟩ := ih _ h
      refine ⟨w0, pre ++ [Event.AcquireContainerCreatingLock cc.ID,
        Event.Sleep creatingContainerRetryDelay] ++ lost, ?_, ?_, Or.inr ?_, hbody⟩
      · rw [hlog]
        simp [List.append_assoc]
      · intro e he
        rcases List.mem_append.mp he with h1 | h1
        · rcases List.mem_append.mp h1 with h2 | h2
          · exact hpre e h2
          · simp only [List.mem_cons, List.mem_singleton, List.not_mem_nil, or_false] at h2
            rcases h2 with rfl | rfl <;> rfl
        · exact hlost e h1
      · simp

/-- Calls that come before the lock are not `Created()` transitions. -/
theorem filter_isCreated_before_lock (evs : List Event)
    (h : ∀ e ∈ evs, Event.isBeforeLock e = true) : evs.filter Event.isCreated = [] := by
  rw [List.filter_eq_nil_iff]
  intro e he
  have := h e he
  cases e <;> simp_all [Event.isBeforeLock, Event.isCreated]

/-- `CreatedOnce` survives earlier calls that contain no `Created()` transition. -/
theorem CreatedOnce_prepend {σ : Type} {c : Collab σ} {p : Provider} {w0 w w1 : World σ}
    {container : Container} (evs : List Event) (hlog : w.log = w0.log ++ evs)
    (hevs : evs.filter Event.isCreated = []) (h : CreatedOnce c p w w1 container) :
    CreatedOnce c p w0 w1 container := by
  obtain ⟨cc, created, gc, volumes, pre, post, hl, hpre, hpost, hrun, hcr, hnew⟩ := h
  refine ⟨cc, created, gc, volumes, evs ++ pre, post, ?_, ?_, hpost, ?_, hcr, hnew⟩
  · rw [hl, hlog]
    simp [List.append_assoc]
  · simp [List.filter_append, hevs, hpre]
  · rcases hrun with ⟨hm, hs⟩ | ⟨gs, s, hm, hs⟩
    · exact Or.inl ⟨List.mem_append_right _ hm, hs⟩
    · exact Or.inr ⟨gs, s, List.mem_append_right _ hm, hs⟩

/-- `FoundCreated` survives earlier calls that contain no `Created()` transition. -/
theorem FoundCreated_prepend {σ : Type} {c : Collab σ} {p : Provider}
    {findContainerFunc :
      σ → (Option CreatingContainer × Option CreatedContainer × Option Error) × σ}
    {w0 w w1 : World σ} {container : Container} (evs : List Event)
    (hlog : w.log = w0.log ++ evs) (hevs : evs.filter Event.isCreated = [])
    (h : FoundCreated c p findContainerFunc w w1 container) :
    FoundCreated c p findContainerFunc w0 w1 container := by
  obtain ⟨created, gc, volumes, pre, hl, hpre, hfind, hlook, hnew⟩ := h
  refine ⟨created, gc, volumes, evs ++ pre, ?_, ?_, hfind, hlook, hnew⟩
  · rw [hl, hlog]
    simp [List.append_assoc]
  · simp [List.filter_append, hevs, hpre]

/-- A successful lock step called `Created()` once, after `Create` returned the runtime
container. -/
theorem lockAndCreate_success {σ : Type} (k : Consts) (c : Collab σ) (p : Provider)
    (id : Identifier) (metadata : Metadata) (spec : ContainerSpec)
    (outputPaths : List (String × String)) (image : Image)
    (creatingContainer : CreatingContainer) (w w1 : World σ) (container : Container)
    (h : lockAndCreate k c p id metadata spec outputPaths (fun _ => none) image
      creatingContainer w = some ((some container, none), w1)) :
    CreatedOnce c p w w1 container := by
  revert h
  simp only [lockAndCreate, World.call]
  generalize c.AcquireContainerCreatingLock creatingContainer.ID w.st = r
  obtain ⟨⟨lock, acquired, err⟩, s1⟩ := r
  cases err with
  | some e => simp
  | none =>
    cases acquired with
    | false => simp
    | true =>
      simp only []
      intro h
      have h1 := Option.some.inj h
      have hres : createUnderLock k c p id metadata spec outputPaths image creatingContainer
          ⟨s1, w.log ++ [Event.AcquireContainerCreatingLock creatingContainer.ID]⟩
          = ((some container, none),
            (createUnderLock k c p id metadata spec outputPaths image creatingContainer
              ⟨s1, w.log ++ [Event.AcquireContainerCreatingLock creatingContainer.ID]⟩).2) :=
        Prod.ext (Prod.mk.inj h1).1 rfl
      obtain ⟨gc, gs, created, volumes, pre, sa, sb, sc, hcreate, hcr, hnew, hpre, hmem, hlog⟩ :=
        createUnderLock_success k c p id metadata spec outputPaths image creatingContainer _ _
          container hres
      have hw1 : w1.log = (createUnderLock k c p id metadata spec outputPaths image
          creatingContainer
          ⟨s1, w.log ++ [Event.AcquireContainerCreatingLock creatingContainer.ID]⟩).2.log ++
          [Event.Release lock] := by
        rw [← (Prod.mk.inj h1).2]
      refine ⟨creatingContainer, created, gc, volumes,
        Event.AcquireContainerCreatingLock creatingContainer.ID :: pre, [Event.Release lock],
        ?_, ?_, rfl, Or.inr ⟨gs, sa, List.mem_cons_of_mem _ hmem, hcreate⟩, ⟨sb, hcr⟩,
        ⟨sc, hnew⟩⟩
      · rw [hw1, hlog]
        simp [List.append_assoc]
      · simp [List.filter_cons, hpre, Event.isCreated]

/-- A successful run of lines 539-653 called `Created()` once, after `Create` returned the
runtime container. -/
theorem createContainer_success {σ : Type} (k : Consts) (c : Collab σ) (p : Provider)
    (id : Identifier) (metadata : Metadata) (spec : ContainerSpec)
    (outputPaths : List (String × String))
    (createContainerFunc : σ → Except Error CreatingContainer × σ)
    (creatingContainer : Option CreatingContainer) (w w1 : World σ) (container : Container)
    (h : createContainer k c p id metadata spec outputPaths createContainerFunc (fun _ => none)
      creatingContainer w = some ((some container, none), w1)) :
    CreatedOnce c p w w1 container := by
  revert h
  simp only [createContainer, World.call]
  generalize c.GetImage spec.ImageSpec spec.TeamID id metadata w.st = r1
  obtain ⟨o1, s1⟩ := r1
  cases o1 with
  | error err => simp
  | ok image =>
    cases creatingContainer with
    | some cc =>
      simp only []
      intro h
      exact CreatedOnce_prepend [Event.GetImage spec.ImageSpec spec.TeamID id metadata] rfl rfl
        (lockAndCreate_success k c p id metadata spec outputPaths image cc _ w1 container h)
    | none =>
      simp only []
      generalize createContainerFunc s1 = r2
      obtain ⟨o2, s2⟩ := r2
      cases o2 with
      | error err => simp
      | ok cc =>
        simp only []
        intro h
        exact CreatedOnce_prepend
          [Event.GetImage spec.ImageSpec spec.TeamID id metadata, Event.createContainerFunc]
          (by simp [List.append_assoc]) rfl
          (lockAndCreate_success k c p id metadata spec outputPaths image cc _ w1 container h)

/-- A successful attempt either called `Created()` once, after the runtime container was
found or created, or its `find()` returned a created container and it called no
`Created()`. -/
theorem findOrCreateContainerBody_success {σ : Type} (k : Consts) (c : Collab σ)
    (p : Provider) (id : Identifier) (metadata : Metadata) (spec : ContainerSpec)
    (outputPaths : List (String × String))
    (findContainerFunc :
      σ → (Option CreatingContainer × Option CreatedContainer × Option Error) × σ)
    (createContainerFunc : σ → Except Error CreatingContainer × σ) (w w1 : World σ)
    (container : Container)
    (h : findOrCreateContainerBody k c p id metadata spec outputPaths findContainerFunc
      createContainerFunc (fun _ => none) w = some ((some container, none), w1)) :
    CreatedOnce c p w w1 container ∨
      ((∃ cd, (findContainerFunc w.st).1.2.1 = some cd) ∧
        FoundCreated c p findContainerFunc w w1 container) := by
  revert h
  simp only [findOrCreateContainerBody, World.call]
  generalize hr0 : findContainerFunc w.st = r0
  obtain ⟨⟨creating, created, err⟩, s1⟩ := r0
  cases err with
  | some e => simp
  | none =>
    cases created with
    | some cd =>
      simp only []
      generalize hr1 : c.Lookup cd.Handle s1 = r1
      obtain ⟨⟨gc, e1⟩, s2⟩ := r1
      cases e1 with
      | some e => simp
      | none =>
        simp only [wrapContainer, World.call]
        generalize c.FindVolumesForContainer (some cd) s2 = r2
        obtain ⟨o2, s3⟩ := r2
        cases o2 with
        | error e => simp
        | ok volumes =>
          simp only []
          intro h
          have h1 := Option.some.inj h
          refine Or.inr ⟨⟨cd, rfl⟩, cd, gc, volumes, [], ?_, rfl, ⟨w.st, by rw [hr0]⟩,
            ⟨s1, by rw [hr1]⟩, ⟨s3, congrArg Prod.fst h1⟩⟩
          have := congrArg (fun x => x.2.log) h1
          simpa [List.append_assoc] using this.symm
    | none =>
      cases creating with
      | none =>
        simp only []
        intro h
        exact Or.inl (CreatedOnce_prepend [Event.findContainerFunc] rfl rfl
          (createContainer_success k c p id metadata spec outputPaths createContainerFunc none _
            w1 container h))
      | some cr =>
        simp only []
        generalize hr1 : c.Lookup cr.Handle s1 = r1
        obtain ⟨⟨gc, e1⟩, s2⟩ := r1
        simp only []
        by_cases hnf : e1.map Error.isContainerNotFound = some false
        · simp [hnf]
        · simp only [hnf, if_false]
          cases gc with
          | none =>
            simp only []
            intro h
            exact Or.inl (CreatedOnce_prepend
              [Event.findContainerFunc, Event.Lookup cr.Handle]
              (by simp [List.append_assoc]) rfl
              (createContainer_success k c p id metadata spec outputPaths createContainerFunc
                (some cr) _ w1 container h))
          | some g =>
            simp only []
            intro h
            have h1 := Option.some.inj h
            obtain ⟨created, volumes, s3, s4, hcr, -, hnew, hlog⟩ :=
              markCreated_success c p (some g) cr _ w1 container (Prod.ext (congrArg Prod.fst h1)
                (congrArg Prod.snd h1))
            refine Or.inl ⟨cr, created, g, volumes,
              [Event.findContainerFunc, Event.Lookup cr.Handle], [], ?_, rfl, rfl,
              Or.inl ⟨by simp, s1, by rw [hr1]⟩, ⟨_, by rw [hcr]⟩, ⟨s4, hnew⟩⟩
            rw [hlog]
            simp [List.append_assoc]

/-- C20, counterexample: the database holds a creating container and no created one, the
lock is held by a peer that finishes during the `Sleep`; the call succeeds on its second
attempt and has not called `Created()`. -/
theorem findOrCreateContainer_found_after_lost_lock_calls_no_created :
    (racingFind 0).1 = (some ⟨42, "some-handle"⟩, none, none) ∧
    findOrCreateContainer demoConsts racingPeer demoProvider demoIdentifier demoMetadata
      demoSpec [] racingFind racingCreate 2 ⟨0, []⟩
      = some ((some ⟨some ⟨"some-handle"⟩, some ⟨42, "some-handle"⟩, []⟩, none),
          ⟨1, [Event.findContainerFunc, Event.Lookup "some-handle",
            Event.GetImage demoSpec.ImageSpec demoSpec.TeamID demoIdentifier demoMetadata,
            Event.AcquireContainerCreatingLock 42, Event.Sleep 1000000000,
            Event.findContainerFunc, Event.Lookup "some-handle",
            Event.FindVolumesForContainer (some ⟨42, "some-handle"⟩),
            Event.newGardenWorkerContainer (some ⟨"some-handle"⟩) (some ⟨42, "some-handle"⟩) []
              "w1"]⟩) ∧
    ((findOrCreateContainer demoConsts racingPeer demoProvider demoIdentifier demoMetadata
      demoSpec [] racingFind racingCreate 2 ⟨0, []⟩).map
        (fun r => r.2.log.filter Event.isCreated)) = some [] :=
  ⟨rfl, rfl, rfl⟩

/-- C20 (amended): on every successful run of `findOrCreateContainer` whose first `find()`
returns no created container, either the call made exactly one `Created()` transition,
after the runtime container was found by `Lookup` or returned by `Create`, and returns the
container built from the created container of that transition; or the call slept after a
lost lock, a later `find()` returned a created container, and the call made no `Created()`
transition at all. When `Created()` fails, its error is returned and no container. -/
theorem findOrCreateContainer_created_once_or_found {σ : Type} (k : Consts) (c : Collab σ)
    (p : Provider) (id : Identifier) (metadata : Metadata) (spec : ContainerSpec)
    (outputPaths : List (String × String))
    (findContainerFunc :
      σ → (Option CreatingContainer × Option CreatedContainer × Option Error) × σ)
    (createContainerFunc : σ → Except Error CreatingContainer × σ) (fuel : Nat)
    (w w1 : World σ) (container : Container)
    (hstart : (findContainerFunc w.st).1.2.1 = none)
    (h : findOrCreateContainer k c p id metadata spec outputPaths findContainerFunc
      createContainerFunc fuel w = some ((some container, none), w1)) :
    (CreatedOnce c p w w1 container ∨
      (Event.Sleep creatingContainerRetryDelay ∈ w1.since w ∧
        FoundCreated c p findContainerFunc w w1 container)) ∧
    (∀ (gc : Option GardenContainer) (cc : CreatingContainer) (wm : World σ)
      (created : Option CreatedContainer) (err : Error) (s : σ),
      c.Created cc wm.st = ((created, some err), s) →
      markCreated c p gc cc wm = ((none, some err), ⟨s, wm.log ++ [Event.Created cc]⟩)) := by
  refine ⟨?_, fun gc cc wm created err s hc => markCreated_failure c p gc cc wm created err s hc⟩
  obtain ⟨w0, lost, hlog, hlost, hw0, hbody⟩ :=
    findOrCreateContainer_final_attempt k c p id metadata spec outputPaths findContainerFunc
      createContainerFunc fuel w _ h
  rcases findOrCreateContainerBody_success k c p id metadata spec outputPaths findContainerFunc
      createContainerFunc w0 w1 container (hbody _) with hco | ⟨⟨cd, hcd⟩, hfc⟩
  · exact Or.inl (CreatedOnce_prepend lost hlog (filter_isCreated_before_lock lost hlost) hco)
  · rcases hw0 with rfl | hsleep
    · rw [hstart] at hcd
      cases hcd
    · refine Or.inr ⟨?_, FoundCreated_prepend lost hlog
        (filter_isCreated_before_lock lost hlost) hfc⟩
      obtain ⟨created, gc, volumes, pre, hl, -⟩ := hfc
      rw [World.since, hl, hlog]
      simp only [List.append_assoc, List.drop_left]
      exact List.mem_append_left _ hsleep

/-- C20, instance: the database holds a creating container whose runtime container
exists; the call marks it created once and returns the container built from it. -/
theorem findOrCreateContainer_created_once_or_found_witness :
    (findsCreating ()).1.2.1 = none ∧
    findOrCreateContainer demoConsts demoCollab demoProvider demoIdentifier demoMetadata
      demoSpec [] findsCreating createsRow 1 ⟨(), []⟩
      = some ((some ⟨some ⟨"some-handle"⟩, some ⟨42, "some-handle"⟩, []⟩, none),
          ⟨(), [Event.findContainerFunc, Event.Lookup "some-handle",
            Event.Created ⟨42, "some-handle"⟩,
            Event.FindVolumesForContainer (some ⟨42, "some-handle"⟩),
            Event.newGardenWorkerContainer (some ⟨"some-handle"⟩) (some ⟨42, "some-handle"⟩) []
              "w1"]⟩) ∧
    (CreatedOnce demoCollab demoProvider ⟨(), []⟩
        ⟨(), [Event.findContainerFunc, Event.Lookup "some-handle",
          Event.Created ⟨42, "some-handle"⟩,
          Event.FindVolumesForContainer (some ⟨42, "some-handle"⟩),
          Event.newGardenWorkerContainer (some ⟨"some-handle"⟩) (some ⟨42, "some-handle"⟩) []
            "w1"]⟩
        ⟨some ⟨"some-handle"⟩, some ⟨42, "some-handle"⟩, []⟩ ∨
      (Event.Sleep creatingContainerRetryDelay ∈
          World.since (⟨(), [Event.findContainerFunc, Event.Lookup "some-handle",
            Event.Created ⟨42, "some-handle"⟩,
            Event.FindVolumesForContainer (some ⟨42, "some-handle"⟩),
            Event.newGardenWorkerContainer (some ⟨"some-handle"⟩)
              (some ⟨42, "some-handle"⟩) [] "w1"]⟩ : World Unit) ⟨(), []⟩ ∧
        FoundCreated demoCollab demoProvider findsCreating ⟨(), []⟩
          ⟨(), [Event.findContainerFunc, Event.Lookup "some-handle",
            Event.Created ⟨42, "some-handle"⟩,
            Event.FindVolumesForContainer (some ⟨42, "some-handle"⟩),
            Event.newGardenWorkerContainer (some ⟨"some-handle"⟩) (some ⟨42, "some-handle"⟩) []
              "w1"]⟩
          ⟨some ⟨"some-handle"⟩, some ⟨42, "some-handle"⟩, []⟩)) :=
  ⟨rfl, rfl,
    (findOrCreateContainer_created_once_or_found demoConsts demoCollab demoProvider
      demoIdentifier demoMetadata demoSpec [] findsCreating createsRow 1 ⟨(), []⟩ _ _ rfl
      rfl).1⟩

/-- C17: when the creation lock of the creating container is not acquired, the attempt
calls `Sleep` with `creatingContainerRetryDelay`, which is one second, and the result of
the call is that of `findOrCreateContainer` with the same arguments in the world after the
`Sleep`. The calls of the attempt are `find()`, then `Lookup` and `GetImage` for a creating
container that was found, or `GetImage` and `create()` when none was, then the lock request
and the `Sleep`: no `FetchForContainer`, no `Create`, no
`UpdateContainerTTLToBeRemoved` and no `Created()`. -/
theorem findOrCreateContainer_lost_lock {σ : Type} (k : Consts) (c : Collab σ)
    (p : Provider) (id : Identifier) (metadata : Metadata) (spec : ContainerSpec)
    (outputPaths : List (String × String))
    (findContainerFunc :
      σ → (Option CreatingContainer × Option CreatedContainer × Option Error) × σ)
    (createContainerFunc : σ → Except Error CreatingContainer × σ) (w : World σ) :
    creatingContainerRetryDelay = 1000000000 ∧
    (∀ (cc : CreatingContainer) (gerr : Option Error) (image : Image) (lock : Lock)
      (s1 s2 s3 s4 : σ),
      findContainerFunc w.st = ((some cc, none, none), s1) →
      c.Lookup cc.Handle s1 = ((none, gerr), s2) →
      gerr.map Error.isContainerNotFound ≠ some false →
      c.GetImage spec.ImageSpec spec.TeamID id metadata s2 = (.ok image, s3) →
      c.AcquireContainerCreatingLock cc.ID s3 = ((lock, false, none), s4) →
      ∀ fuel : Nat,
        findOrCreateContainer k c p id metadata spec outputPaths findContainerFunc
          createContainerFunc (fuel + 1) w
        = findOrCreateContainer k c p id metadata spec outputPaths findContainerFunc
          createContainerFunc fuel
            ⟨(c.Sleep creatingContainerRetryDelay s4).2,
              w.log ++ [Event.findContainerFunc, Event.Lookup cc.Handle,
                Event.GetImage spec.ImageSpec spec.TeamID id metadata,
                Event.AcquireContainerCreatingLock cc.ID,
                Event.Sleep creatingContainerRetryDelay]⟩) ∧
    (∀ (cc : CreatingContainer) (image : Image) (lock : Lock) (s1 s2 s3 s4 : σ),
      findContainerFunc w.st = ((none, none, none), s1) →
      c.GetImage spec.ImageSpec spec.TeamID id metadata s1 = (.ok image, s2) →
      createContainerFunc s2 = (.ok cc, s3) →
      c.AcquireContainerCreatingLock cc.ID s3 = ((lock, false, none), s4) →
      ∀ fuel : Nat,
        findOrCreateContainer k c p id metadata spec outputPaths findContainerFunc
          createContainerFunc (fuel + 1) w
        = findOrCreateContainer k c p id metadata spec outputPaths findContainerFunc
          createContainerFunc fuel
            ⟨(c.Sleep creatingContainerRetryDelay s4).2,
              w.log ++ [Event.findContainerFunc,
                Event.GetImage spec.ImageSpec spec.TeamID id metadata,
                Event.createContainerFunc, Event.AcquireContainerCreatingLock cc.ID,
                Event.Sleep creatingContainerRetryDelay]⟩) := by
  refine ⟨rfl, ?_, ?_⟩
  · intro cc gerr image lock s1 s2 s3 s4 hfind hlook hgerr himg hlock fuel
    simp [findOrCreateContainer, findOrCreateContainerBody, createContainer, lockAndCreate,
      World.call, hfind, hlook, hgerr, himg, hlock, List.append_assoc]
  · intro cc image lock s1 s2 s3 s4 hfind himg hcreate hlock fuel
    simp [findOrCreateContainer, findOrCreateContainerBody, createContainer, lockAndCreate,
      World.call, hfind, himg, hcreate, hlock, List.append_assoc]

/-- C17, instance: the lock of the creating container `some-handle` is held by a peer;
the first attempt sleeps one second and the call starts again. -/
theorem findOrCreateContainer_lost_lock_witness :
    racingFind 0 = ((some ⟨42, "some-handle"⟩, none, none), 0) ∧
    racingPeer.AcquireContainerCreatingLock 42 0 = ((⟨1⟩, false, none), 0) ∧
    findOrCreateContainer demoConsts racingPeer demoProvider demoIdentifier demoMetadata
      demoSpec [] racingFind racingCreate 2 ⟨0, []⟩
    = findOrCreateContainer demoConsts racingPeer demoProvider demoIdentifier demoMetadata
      demoSpec [] racingFind racingCreate 1
        ⟨1, [Event.findContainerFunc, Event.Lookup "some-handle",
          Event.GetImage demoSpec.ImageSpec demoSpec.TeamID demoIdentifier demoMetadata,
          Event.AcquireContainerCreatingLock 42, Event.Sleep creatingContainerRetryDelay]⟩ :=
  ⟨rfl, rfl,
    (findOrCreateContainer_lost_lock demoConsts racingPeer demoProvider demoIdentifier
      demoMetadata demoSpec [] racingFind racingCreate ⟨0, []⟩).2.1 ⟨42, "some-handle"⟩
      (some (.ContainerNotFoundError "some-handle")) ⟨1⟩ ⟨1⟩ 0 0 0 0 rfl rfl (by decide) rfl rfl
      1⟩

/-- C16: when `find()` returns a creating container and no created one, a `Lookup` error
that is not a not-found error ends the call and is returned as it is; after a not-found
error with no runtime container the call goes on with `GetImage` and then requests the
creation lock of that creating container, without calling `create()`: what it returns
is the error of `GetImage`, the error of the lock request, the result of the next attempt
when the lock is not acquired, or the result of the creation under the lock. -/
theorem findOrCreateContainer_creating_lookup_error {σ : Type} (k : Consts) (c : Collab σ)
    (p : Provider) (id : Identifier) (metadata : Metadata) (spec : ContainerSpec)
    (outputPaths : List (String × String))
    (findContainerFunc :
      σ → (Option CreatingContainer × Option CreatedContainer × Option Error) × σ)
    (createContainerFunc : σ → Except Error CreatingContainer × σ) (w : World σ)
    (cc : CreatingContainer) (s1 : σ)
    (hfind : findContainerFunc w.st = ((some cc, none, none), s1)) :
    (∀ (gc : Option GardenContainer) (err : Error) (s2 : σ),
      c.Lookup cc.Handle s1 = ((gc, some err), s2) → err.isContainerNotFound = false →
      ∀ fuel : Nat,
        findOrCreateContainer k c p id metadata spec outputPaths findContainerFunc
          createContainerFunc (fuel + 1) w
        = some ((none, some err),
            ⟨s2, w.log ++ [Event.findContainerFunc, Event.Lookup cc.Handle]⟩)) ∧
    (∀ (err : Error) (s2 : σ),
      c.Lookup cc.Handle s1 = ((none, some err), s2) → err.isContainerNotFound = true →
      (∀ (e : Error) (s3 : σ),
        c.GetImage spec.ImageSpec spec.TeamID id metadata s2 = (.error e, s3) →
        ∀ fuel : Nat,
          findOrCreateContainer k c p id metadata spec outputPaths findContainerFunc
            createContainerFunc (fuel + 1) w
          = some ((none, some e),
              ⟨s3, w.log ++ [Event.findContainerFunc, Event.Lookup cc.Handle,
                Event.GetImage spec.ImageSpec spec.TeamID id metadata]⟩)) ∧
      (∀ (image : Image) (s3 : σ) (lock : Lock) (acquired : Bool) (lerr : Option Error)
        (s4 : σ),
        c.GetImage spec.ImageSpec spec.TeamID id metadata s2 = (.ok image, s3) →
        c.AcquireContainerCreatingLock cc.ID s3 = ((lock, acquired, lerr), s4) →
        ∀ fuel : Nat,
          findOrCreateContainer k c p id metadata spec outputPaths findContainerFunc
            createContainerFunc (fuel + 1) w
          = match lerr, acquired with
            | some e, _ =>
              some ((none, some e),
                ⟨s4, w.log ++ [Event.findContainerFunc, Event.Lookup cc.Handle,
                  Event.GetImage spec.ImageSpec spec.TeamID id metadata,
                  Event.AcquireContainerCreatingLock cc.ID]⟩)
            | none, false =>
              findOrCreateContainer k c p id metadata spec outputPaths findContainerFunc
                createContainerFunc fuel
                ⟨(c.Sleep creatingContainerRetryDelay s4).2,
                  w.log ++ [Event.findContainerFunc, Event.Lookup cc.Handle,
                    Event.GetImage spec.ImageSpec spec.TeamID id metadata,
                    Event.AcquireContainerCreatingLock cc.ID,
                    Event.Sleep creatingContainerRetryDelay]⟩
            | none, true =>
              match createUnderLock k c p id metadata spec outputPaths image cc
                  ⟨s4, w.log ++ [Event.findContainerFunc, Event.Lookup cc.Handle,
                    Event.GetImage spec.ImageSpec spec.TeamID id metadata,
                    Event.AcquireContainerCreatingLock cc.ID]⟩ with
              | (r, w2) => some (r, ⟨(c.Release lock w2.st).2, w2.log ++ [Event.Release lock]⟩))) := by
  refine ⟨?_, ?_⟩
  · intro gc err s2 hlook herr fuel
    simp [findOrCreateContainer, findOrCreateContainerBody, World.call, hfind, hlook, herr,
      List.append_assoc]
  · intro err s2 hlook herr
    refine ⟨?_, ?_⟩
    · intro e s3 himg fuel
      simp [findOrCreateContainer, findOrCreateContainerBody, createContainer, World.call,
        hfind, hlook, herr, himg, List.append_assoc]
    · intro image s3 lock acquired lerr s4 himg hlock fuel
      cases lerr with
      | some e =>
        simp [findOrCreateContainer, findOrCreateContainerBody, createContainer,
          lockAndCreate, World.call, hfind, hlook, herr, himg, hlock, List.append_assoc]
      | none =>
        cases acquired with
        | false =>
          simp [findOrCreateContainer, findOrCreateContainerBody, createContainer,
            lockAndCreate, World.call, hfind, hlook, herr, himg, hlock, List.append_assoc]
        | true =>
          simp [findOrCreateContainer, findOrCreateContainerBody, createContainer,
            lockAndCreate, World.call, hfind, hlook, herr, himg, hlock, List.append_assoc]

/-- C16, instance: the database holds the creating container `some-handle`. With a
runtime that cannot be reached the call returns the runtime's error after `find()` and
`Lookup`; with a runtime that reports not-found the call gets the image and requests the
lock of container 42, without calling `create()`. -/
theorem findOrCreateContainer_creating_lookup_error_witness :
    findsCreating () = ((some ⟨42, "some-handle"⟩, none, none), ()) ∧
    findOrCreateContainer demoConsts runtimeDown demoProvider demoIdentifier demoMetadata
      demoSpec [] findsCreating createsRow 1 ⟨(), []⟩
      = some ((none, some (.other "connection refused")),
          ⟨(), [Event.findContainerFunc, Event.Lookup "some-handle"]⟩) ∧
    findOrCreateContainer demoConsts lockBusy demoProvider demoIdentifier demoMetadata
      demoSpec [] findsCreating createsRow 1 ⟨(), []⟩
      = findOrCreateContainer demoConsts lockBusy demoProvider demoIdentifier demoMetadata
        demoSpec [] findsCreating createsRow 0
          ⟨(), [Event.findContainerFunc, Event.Lookup "some-handle",
            Event.GetImage demoSpec.ImageSpec demoSpec.TeamID demoIdentifier demoMetadata,
            Event.AcquireContainerCreatingLock 42, Event.Sleep creatingContainerRetryDelay]⟩ :=
  ⟨rfl,
    (findOrCreateContainer_creating_lookup_error demoConsts runtimeDown demoProvider
      demoIdentifier demoMetadata demoSpec [] findsCreating createsRow ⟨(), []⟩
      ⟨42, "some-handle"⟩ () rfl).1 none (.other "connection refused") () rfl rfl 0,
    ((findOrCreateContainer_creating_lookup_error demoConsts lockBusy demoProvider
      demoIdentifier demoMetadata demoSpec [] findsCreating createsRow ⟨(), []⟩
      ⟨42, "some-handle"⟩ () rfl).2 (.ContainerNotFoundError "some-handle") () rfl rfl).2
      ⟨1⟩ () ⟨1⟩ false none () rfl rfl 0⟩

/-- C22. `FindContainerByHandle` returns a runtime `Lookup` error that is not a not-found
error as it is, with no container and `found = false`; after any `Lookup` error the only
call made is that `Lookup`, so the database is not asked; and when `Lookup` succeeds and
the database lookup fails, that error is returned with no container and `found = false`,
after these two calls. -/
theorem FindContainerByHandle_forwards_errors {σ : Type} (c : Collab σ) (p : Provider)
    (handle : String) (teamID : Int) (w : World σ) :
    (∀ (gc : Option GardenContainer) (err : Error) (s1 : σ),
      c.Lookup handle w.st = ((gc, some err), s1) → err.isContainerNotFound = false →
      FindContainerByHandle c p handle teamID w
        = ((none, false, some err), ⟨s1, w.log ++ [Event.Lookup handle]⟩)) ∧
    (∀ (gc : Option GardenContainer) (err : Error) (s1 : σ),
      c.Lookup handle w.st = ((gc, some err), s1) →
      (FindContainerByHandle c p handle teamID w).2 = ⟨s1, w.log ++ [Event.Lookup handle]⟩) ∧
    (∀ (gc : Option GardenContainer) (s1 : σ) (created : Option CreatedContainer)
      (found : Bool) (err : Error) (s2 : σ),
      c.Lookup handle w.st = ((gc, none), s1) →
      c.FindContainerByHandle teamID handle s1 = ((created, found, some err), s2) →
      FindContainerByHandle c p handle teamID w
        = ((none, false, some err),
            ⟨s2, w.log ++ [Event.Lookup handle, Event.FindContainerByHandle teamID handle]⟩)) := by
  refine ⟨?_, ?_, ?_⟩
  · intro gc err s1 hlook herr
    simp [FindContainerByHandle, World.call, hlook, herr]
  · intro gc err s1 hlook
    cases herr : err.isContainerNotFound <;>
      simp [FindContainerByHandle, World.call, hlook, herr]
  · intro gc s1 created found err s2 hlook hdb
    simp [FindContainerByHandle, World.call, hlook, hdb, List.append_assoc]

/-- C22, instances: a runtime that cannot be reached, and a database whose lookup fails. -/
theorem FindContainerByHandle_forwards_errors_witness :
    FindContainerByHandle runtimeDown demoProvider "some-handle" 1 ⟨(), []⟩
      = ((none, false, some (.other "connection refused")),
          ⟨(), [Event.Lookup "some-handle"]⟩) ∧
    (FindContainerByHandle runtimeLost demoProvider "some-handle" 1 ⟨(), []⟩).2
      = ⟨(), [Event.Lookup "some-handle"]⟩ ∧
    FindContainerByHandle dbDown demoProvider "some-handle" 1 ⟨(), []⟩
      = ((none, false, some (.other "failure!")),
          ⟨(), [Event.Lookup "some-handle", Event.FindContainerByHandle 1 "some-handle"]⟩) :=
  ⟨(FindContainerByHandle_forwards_errors runtimeDown demoProvider "some-handle" 1
      ⟨(), []⟩).1 none (.other "connection refused") () rfl rfl,
   (FindContainerByHandle_forwards_errors runtimeLost demoProvider "some-handle" 1
      ⟨(), []⟩).2.1 none (.ContainerNotFoundError "some-handle") () rfl,
   (FindContainerByHandle_forwards_errors dbDown demoProvider "some-handle" 1
      ⟨(), []⟩).2.2 (some ⟨"some-handle"⟩) () none false (.other "failure!") () rfl rfl⟩

/-- C29. When `find()` returns a creating container and no created one, and the runtime
`Lookup` of its handle returns the container without error, the calls after `find()` and
`Lookup` are `Created()`, then `FindVolumesForContainer` of the created container, then
`newGardenWorkerContainer` of the looked-up runtime container, whose result is returned;
a failure of `Created()` or of `FindVolumesForContainer` ends the call with that error.
No other call is made. -/
theorem findOrCreateContainer_creating_in_runtime {σ : Type} (k : Consts) (c : Collab σ)
    (p : Provider) (id : Identifier) (metadata : Metadata) (spec : ContainerSpec)
    (outputPaths : List (String × String))
    (findContainerFunc :
      σ → (Option CreatingContainer × Option CreatedContainer × Option Error) × σ)
    (createContainerFunc : σ → Except Error CreatingContainer × σ) (w : World σ)
    (cc : CreatingContainer) (gc : GardenContainer) (s1 s2 : σ)
    (hfind : findContainerFunc w.st = ((some cc, none, none), s1))
    (hlook : c.Lookup cc.Handle s1 = ((some gc, none), s2)) :
    (∀ (created : Option CreatedContainer) (err : Error) (s3 : σ),
      c.Created cc s2 = ((created, some err), s3) →
      ∀ fuel : Nat,
        findOrCreateContainer k c p id metadata spec outputPaths findContainerFunc
          createContainerFunc (fuel + 1) w
        = some ((none, some err),
            ⟨s3, w.log ++ [Event.findContainerFunc, Event.Lookup cc.Handle,
              Event.Created cc]⟩)) ∧
    (∀ (created : Option CreatedContainer) (s3 : σ) (err : Error) (s4 : σ),
      c.Created cc s2 = ((created, none), s3) →
      c.FindVolumesForContainer created s3 = (.error err, s4) →
      ∀ fuel : Nat,
        findOrCreateContainer k c p id metadata spec outputPaths findContainerFunc
          createContainerFunc (fuel + 1) w
        = some ((none, some err),
            ⟨s4, w.log ++ [Event.findContainerFunc, Event.Lookup cc.Handle,
              Event.Created cc, Event.FindVolumesForContainer created]⟩)) ∧
    (∀ (created : Option CreatedContainer) (s3 : σ) (volumes : List CreatedVolume) (s4 : σ),
      c.Created cc s2 = ((created, none), s3) →
      c.FindVolumesForContainer created s3 = (.ok volumes, s4) →
      ∀ fuel : Nat,
        findOrCreateContainer k c p id metadata spec outputPaths findContainerFunc
          createContainerFunc (fuel + 1) w
        = some ((c.newGardenWorkerContainer (some gc) created volumes p.workerName s4).1,
            ⟨(c.newGardenWorkerContainer (some gc) created volumes p.workerName s4).2,
              w.log ++ [Event.findContainerFunc, Event.Lookup cc.Handle, Event.Created cc,
                Event.FindVolumesForContainer created,
                Event.newGardenWorkerContainer (some gc) created volumes p.workerName]⟩)) := by
  refine ⟨?_, ?_, ?_⟩
  · intro created err s3 hcr fuel
    simp [findOrCreateContainer, findOrCreateContainerBody, markCreated, World.call, hfind,
      hlook, hcr, List.append_assoc]
  · intro created s3 err s4 hcr hvol fuel
    simp [findOrCreateContainer, findOrCreateContainerBody, markCreated, wrapContainer,
      World.call, hfind, hlook, hcr, hvol, List.append_assoc]
  · intro created s3 volumes s4 hcr hvol fuel
    simp [findOrCreateContainer, findOrCreateContainerBody, markCreated, wrapContainer,
      World.call, hfind, hlook, hcr, hvol, List.append_assoc]

/-- C29, instance: the creating container `some-handle` is in the runtime; the call marks
it created, loads its volumes and returns the container built around the runtime
container. -/
theorem findOrCreateContainer_creating_in_runtime_witness :
    findsCreating () = ((some ⟨42, "some-handle"⟩, none, none), ()) ∧
    demoCollab.Lookup "some-handle" () = ((some ⟨"some-handle"⟩, none), ()) ∧
    findOrCreateContainer demoConsts demoCollab demoProvider demoIdentifier demoMetadata
      demoSpec [] findsCreating createsRow 1 ⟨(), []⟩
      = some ((some ⟨some ⟨"some-handle"⟩, some ⟨42, "some-handle"⟩, []⟩, none),
          ⟨(), [Event.findContainerFunc, Event.Lookup "some-handle",
            Event.Created ⟨42, "some-handle"⟩,
            Event.FindVolumesForContainer (some ⟨42, "some-handle"⟩),
            Event.newGardenWorkerContainer (some ⟨"some-handle"⟩) (some ⟨42, "some-handle"⟩) []
              "w1"]⟩) :=
  ⟨rfl, rfl,
    (findOrCreateContainer_creating_in_runtime demoConsts demoCollab demoProvider
      demoIdentifier demoMetadata demoSpec [] findsCreating createsRow ⟨(), []⟩
      ⟨42, "some-handle"⟩ ⟨"some-handle"⟩ () () rfl rfl).2.2 (some ⟨42, "some-handle"⟩) () []
      () rfl rfl 0⟩

/-- C26, what the code does. Whatever the collaborators answer, no run of
`FindContainerByHandle` calls `Created()`, so no creating container is moved to the
created state and no error of such a transition is returned. When the runtime `Lookup`
returns the container without error, the code asks the database for the created
container of the handle: with `found = false` it returns `(nil, false, nil)`; with
`found = true` it loads the volumes of that created container and returns what
`newGardenWorkerContainer` builds from the runtime container and it, with
`found = true`, or the error of that step with `found = false`. -/
theorem FindContainerByHandle_makes_no_transition {σ : Type} (c : Collab σ) (p : Provider)
    (handle : String) (teamID : Int) (w : World σ) :
    (∃ evs, (FindContainerByHandle c p handle teamID w).2.log = w.log ++ evs ∧
      evs.filter Event.isCreated = []) ∧
    (∀ (gc : Option GardenContainer) (s1 : σ) (created : Option CreatedContainer) (s2 : σ),
      c.Lookup handle w.st = ((gc, none), s1) →
      c.FindContainerByHandle teamID handle s1 = ((created, false, none), s2) →
      FindContainerByHandle c p handle teamID w
        = ((none, false, none),
            ⟨s2, w.log ++ [Event.Lookup handle, Event.FindContainerByHandle teamID handle]⟩)) ∧
    (∀ (gc : Option GardenContainer) (s1 : σ) (created : Option CreatedContainer) (s2 : σ)
      (volumes : List CreatedVolume) (s3 : σ) (container : Option Container) (s4 : σ),
      c.Lookup handle w.st = ((gc, none), s1) →
      c.FindContainerByHandle teamID handle s1 = ((created, true, none), s2) →
      c.FindVolumesForContainer created s2 = (.ok volumes, s3) →
      c.newGardenWorkerContainer gc created volumes p.workerName s3 = ((container, none), s4) →
      FindContainerByHandle c p handle teamID w
        = ((container, true, none),
            ⟨s4, w.log ++ [Event.Lookup handle, Event.FindContainerByHandle teamID handle,
              Event.FindVolumesForContainer created,
              Event.newGardenWorkerContainer gc created volumes p.workerName]⟩)) ∧
    (∀ (gc : Option GardenContainer) (s1 : σ) (created : Option CreatedContainer) (s2 : σ)
      (volumes : List CreatedVolume) (s3 : σ) (container : Option Container) (err : Error)
      (s4 : σ),
      c.Lookup handle w.st = ((gc, none), s1) →
      c.FindContainerByHandle teamID handle s1 = ((created, true, none), s2) →
      c.FindVolumesForContainer created s2 = (.ok volumes, s3) →
      c.newGardenWorkerContainer gc created volumes p.workerName s3
        = ((container, some err), s4) →
      (FindContainerByHandle c p handle teamID w).1 = (none, false, some err)) ∧
    (∀ (gc : Option GardenContainer) (s1 : σ) (created : Option CreatedContainer) (s2 : σ)
      (err : Error) (s3 : σ),
      c.Lookup handle w.st = ((gc, none), s1) →
      c.FindContainerByHandle teamID handle s1 = ((created, true, none), s2) →
      c.FindVolumesForContainer created s2 = (.error err, s3) →
      (FindContainerByHandle c p handle teamID w).1 = (none, false, some err)) := by
  refine ⟨?_, ?_, ?_, ?_, ?_⟩
  · simp only [FindContainerByHandle, World.call]
    generalize c.Lookup handle w.st = r1
    obtain ⟨⟨gc1, e1⟩, s1⟩ := r1
    cases e1 with
    | some e =>
      simp only []
      split_ifs <;> exact ⟨[Event.Lookup handle], rfl, rfl⟩
    | none =>
      simp only []
      generalize c.FindContainerByHandle teamID handle s1 = r2
      obtain ⟨⟨cc2, f2, e2⟩, s2⟩ := r2
      cases e2 with
      | some e =>
        exact ⟨[Event.Lookup handle, Event.FindContainerByHandle teamID handle],
          by simp [List.append_assoc], rfl⟩
      | none =>
        cases f2 with
        | false =>
          exact ⟨[Event.Lookup handle, Event.FindContainerByHandle teamID handle],
            by simp [List.append_assoc], rfl⟩
        | true =>
          simp only []
          generalize c.FindVolumesForContainer cc2 s2 = r3
          obtain ⟨o3, s3⟩ := r3
          cases o3 with
          | error e =>
            exact ⟨[Event.Lookup handle, Event.FindContainerByHandle teamID handle,
              Event.FindVolumesForContainer cc2], by simp [List.append_assoc], rfl⟩
          | ok vols =>
            simp only []
            generalize c.newGardenWorkerContainer gc1 cc2 vols p.workerName s3 = r4
            obtain ⟨⟨ct, e4⟩, s4⟩ := r4
            cases e4 <;>
              exact ⟨[Event.Lookup handle, Event.FindContainerByHandle teamID handle,
                Event.FindVolumesForContainer cc2,
                Event.newGardenWorkerContainer gc1 cc2 vols p.workerName],
                by simp [List.append_assoc], rfl⟩
  · intro gc s1 created s2 hlook hdb
    simp [FindContainerByHandle, World.call, hlook, hdb, List.append_assoc]
  · intro gc s1 created s2 volumes s3 container s4 hlook hdb hvol hnew
    simp [FindContainerByHandle, World.call, hlook, hdb, hvol, hnew, List.append_assoc]
  · intro gc s1 created s2 volumes s3 container err s4 hlook hdb hvol hnew
    simp [FindContainerByHandle, World.call, hlook, hdb, hvol, hnew]
  · intro gc s1 created s2 err s3 hlook hdb hvol
    simp [FindContainerByHandle, World.call, hlook, hdb, hvol]

/-- C26, instances: the runtime has the container `some-handle`; with a database lookup
that reports `found = false` the call returns `(nil, false, nil)` after the two lookups,
and with one that reports a created container the call returns the container built from
it. -/
theorem FindContainerByHandle_makes_no_transition_witness :
    FindContainerByHandle dbEmpty demoProvider "some-handle" 1 ⟨(), []⟩
      = ((none, false, none),
          ⟨(), [Event.Lookup "some-handle", Event.FindContainerByHandle 1 "some-handle"]⟩) ∧
    FindContainerByHandle demoCollab demoProvider "some-handle" 1 ⟨(), []⟩
      = ((some ⟨some ⟨"some-handle"⟩, some ⟨123, "some-handle"⟩, []⟩, true, none),
          ⟨(), [Event.Lookup "some-handle", Event.FindContainerByHandle 1 "some-handle",
            Event.FindVolumesForContainer (some ⟨123, "some-handle"⟩),
            Event.newGardenWorkerContainer (some ⟨"some-handle"⟩)
              (some ⟨123, "some-handle"⟩) [] "w1"]⟩) :=
  ⟨(FindContainerByHandle_makes_no_transition dbEmpty demoProvider "some-handle" 1
      ⟨(), []⟩).2.1 (some ⟨"some-handle"⟩) () none () rfl rfl,
   (FindContainerByHandle_makes_no_transition demoCollab demoProvider "some-handle" 1
      ⟨(), []⟩).2.2.1 (some ⟨"some-handle"⟩) () (some ⟨123, "some-handle"⟩) () [] ()
      (some ⟨some ⟨"some-handle"⟩, some ⟨123, "some-handle"⟩, []⟩) () rfl rfl rfl rfl⟩

/-- The calls of `wrapContainer` load the volumes and build the result. -/
theorem wrapContainer_shape {σ : Type} (c : Collab σ) (p : Provider)
    (gardenContainer : Option GardenContainer) (createdContainer : Option CreatedContainer)
    (w : World σ) :
    ∃ tail, (wrapContainer c p gardenContainer createdContainer w).2.log = w.log ++ tail ∧
      ∀ e ∈ tail, Event.isWrap e = true := by
  simp only [wrapContainer, World.call]
  generalize c.FindVolumesForContainer createdContainer w.st = r
  obtain ⟨o, s1⟩ := r
  cases o with
  | error err => exact ⟨[Event.FindVolumesForContainer createdContainer], rfl, by simp [Event.isWrap]⟩
  | ok volumes =>
    exact ⟨[Event.FindVolumesForContainer createdContainer,
      Event.newGardenWorkerContainer gardenContainer createdContainer volumes p.workerName],
      by simp [List.append_assoc], by simp [Event.isWrap]⟩

/-- The calls of `markCreated` are `Created()` and then those of `wrapContainer`. -/
theorem markCreated_shape {σ : Type} (c : Collab σ) (p : Provider)
    (gardenContainer : Option GardenContainer) (creatingContainer : CreatingContainer)
    (w : World σ) :
    ∃ tail, (markCreated c p gardenContainer creatingContainer w).2.log = w.log ++ tail ∧
      MarkedCreated creatingContainer tail := by
  simp only [markCreated, World.call]
  generalize c.Created creatingContainer w.st = r
  obtain ⟨⟨created, err⟩, s1⟩ := r
  cases err with
  | some e => exact ⟨[Event.Created creatingContainer], rfl, [], rfl, by simp⟩
  | none =>
    simp only []
    obtain ⟨tail, hlog, htail⟩ := wrapContainer_shape c p gardenContainer created
      ⟨s1, w.log ++ [Event.Created creatingContainer]⟩
    exact ⟨Event.Created creatingContainer :: tail, by rw [hlog]; simp [List.append_assoc],
      tail, rfl, htail⟩

/-- The calls of `createGardenContainer` are an initial part of the volume requests, all
of them when it gets to `Create`, whose result is then the result of the run. -/
theorem createGardenContainer_shape {σ : Type} (k : Consts) (c : Collab σ) (p : Provider)
    (creatingContainer : CreatingContainer) (spec : ContainerSpec)
    (outputPaths : List (String × String)) (imageMetadata : ImageMetadata) (imageURL : String)
    (w : World σ) :
    ∃ reqs rest, reqs ++ rest = volumeRequestsOf creatingContainer spec outputPaths ∧
      (∀ e ∈ reqs, Event.isVolumeRequest e = true) ∧
      ((∃ err s,
          createGardenContainer k c p creatingContainer spec outputPaths imageMetadata imageURL w
            = (.error err, ⟨s, w.log ++ reqs⟩)) ∨
        (∃ gs s,
          createGardenContainer k c p creatingContainer spec outputPaths imageMetadata imageURL w
            = ((c.Create gs s).1, ⟨(c.Create gs s).2, w.log ++ reqs ++ [Event.Create gs]⟩))) := by
  have hvol : ∀ e ∈ volumeRequestsOf creatingContainer spec outputPaths,
      Event.isVolumeRequest e = true := by
    intro e he
    rcases List.mem_append.mp he with h | h
    · obtain ⟨x, -, rfl⟩ := List.mem_map.mp h
      rfl
    · obtain ⟨x, -, rfl⟩ := List.mem_map.mp h
      rfl
  obtain ⟨reqs, hall, htrace⟩ := createGardenContainer_trace k c p creatingContainer spec
    outputPaths imageMetadata imageURL w
  have hcalls := createGardenContainer_calls k c p creatingContainer spec outputPaths
    imageMetadata imageURL w
  rcases htrace with ⟨err, s, heq⟩ | ⟨gs, s, heq⟩
  · have hsince : (createGardenContainer k c p creatingContainer spec outputPaths imageMetadata
        imageURL w).2.since w = reqs := by
      rw [heq]
      simp [World.since]
    rcases hcalls with ⟨outVols, cowVols, -, -, hlog⟩ | ⟨err1, done, rest, -, hsplit, hlog⟩
    · rw [hsince] at hlog
      rw [hlog] at hall
      have := hall _ (List.mem_append_right _ (List.mem_singleton.mpr rfl))
      simp [Event.isVolumeRequest] at this
    · rw [hsince] at hlog
      subst hlog
      exact ⟨reqs, rest, hsplit, hall, Or.inl ⟨err, s, heq⟩⟩
  · have hsince : (createGardenContainer k c p creatingContainer spec outputPaths imageMetadata
        imageURL w).2.since w = reqs ++ [Event.Create gs] := by
      rw [heq]
      simp [World.since, List.append_assoc]
    rcases hcalls with ⟨outVols, cowVols, -, -, hlog⟩ | ⟨err1, done, rest, -, hsplit, hlog⟩
    · rw [hsince] at hlog
      have hreqs : reqs = volumeRequestsOf creatingContainer spec outputPaths :=
        (List.append_inj' hlog rfl).1
      exact ⟨reqs, [], by rw [hreqs]; simp, hall, Or.inr ⟨gs, s, heq⟩⟩
    · rw [hsince] at hlog
      have hmem : Event.Create gs ∈ done ++ rest := by
        rw [← hlog]
        exact List.mem_append_left _ (List.mem_append_right _ (List.mem_singleton.mpr rfl))
      rw [hsplit] at hmem
      have := hvol _ hmem
      simp [Event.isVolumeRequest] at this

/-- The calls of `createUnderLock` have the shape `UnderLock`. -/
theorem createUnderLock_shape {σ : Type} (k : Consts) (c : Collab σ) (p : Provider)
    (id : Identifier) (metadata : Metadata) (spec : ContainerSpec)
    (outputPaths : List (String × String)) (image : Image)
    (creatingContainer : CreatingContainer) (w : World σ) :
    ∃ evs,
      (createUnderLock k c p id metadata spec outputPaths image creatingContainer w).2.log
        = w.log ++ evs ∧
      UnderLock c creatingContainer spec outputPaths evs := by
  have hfb : Event.isBuild (Event.FetchForContainer image creatingContainer) = true := rfl
  have hfv : Event.isVolumeRequest (Event.FetchForContainer image creatingContainer) = false :=
    rfl
  simp only [createUnderLock, World.call]
  generalize c.FetchForContainer image creatingContainer w.st = r1
  obtain ⟨o1, s1⟩ := r1
  cases o1 with
  | error err =>
    exact ⟨[Event.FetchForContainer image creatingContainer], rfl,
      [Event.FetchForContainer image creatingContainer], [], by simp, by simp [hfb],
      ⟨volumeRequestsOf creatingContainer spec outputPaths, by simp [hfv]⟩, Or.inl rfl⟩
  | ok fetchedImage =>
    simp only []
    obtain ⟨reqs, rest, hsplit, hall, htrace⟩ := createGardenContainer_shape k c p
      creatingContainer spec outputPaths fetchedImage.Metadata fetchedImage.URL
      ⟨s1, w.log ++ [Event.FetchForContainer image creatingContainer]⟩
    have hfilter : reqs.filter Event.isVolumeRequest = reqs := List.filter_eq_self.mpr hall
    have hbuild : ∀ e ∈ reqs, Event.isBuild e = true := by
      intro e he
      have := hall e he
      cases e <;> simp_all [Event.isVolumeRequest, Event.isBuild]
    rcases htrace with ⟨err, s, hcgc⟩ | ⟨gs, s, hcgc⟩
    · rw [hcgc]
      refine ⟨Event.FetchForContainer image creatingContainer :: reqs,
        by simp [List.append_assoc],
        Event.FetchForContainer image creatingContainer :: reqs, [], by simp, ?_,
        ⟨rest, by simp [List.filter_cons, hfv, hfilter, hsplit]⟩, Or.inl rfl⟩
      intro e he
      rcases List.mem_cons.mp he with rfl | he
      · exact hfb
      · exact hbuild e he
    · rw [hcgc]
      have hcb : Event.isBuild (Event.Create gs) = true := rfl
      have hcv : Event.isVolumeRequest (Event.Create gs) = false := rfl
      generalize hr2 : c.Create gs s = r2
      obtain ⟨o2, s2⟩ := r2
      cases o2 with
      | error err =>
        refine ⟨Event.FetchForContainer image creatingContainer :: (reqs ++ [Event.Create gs]),
          by simp [List.append_assoc],
          Event.FetchForContainer image creatingContainer :: (reqs ++ [Event.Create gs]), [],
          by simp, ?_,
          ⟨rest, by simp [List.filter_cons, List.filter_append, hfv, hcv, hfilter, hsplit]⟩,
          Or.inl rfl⟩
        intro e he
        rcases List.mem_cons.mp he with rfl | he
        · exact hfb
        · rcases List.mem_append.mp he with he | he
          · exact hbuild e he
          · rw [List.mem_singleton.mp he]
            exact hcb
      | ok gc =>
        simp only []
        generalize c.UpdateContainerTTLToBeRemoved _ _ _ s2 = r3
        obtain ⟨o3, s3⟩ := r3
        generalize hupd : Event.UpdateContainerTTLToBeRemoved _ _ _ = upd
        have hub : Event.isBuild upd = true := by rw [← hupd]; rfl
        have huv : Event.isVolumeRequest upd = false := by rw [← hupd]; rfl
        have hball : ∀ e ∈ Event.FetchForContainer image creatingContainer ::
            (reqs ++ [Event.Create gs, upd]), Event.isBuild e = true := by
          intro e he
          rcases List.mem_cons.mp he with rfl | he
          · exact hfb
          · rcases List.mem_append.mp he with he | he
            · exact hbuild e he
            · rcases List.mem_cons.mp he with rfl | he
              · exact hcb
              · rw [List.mem_singleton.mp he]
                exact hub
        have hvreq : (Event.FetchForContainer image creatingContainer ::
            (reqs ++ [Event.Create gs, upd])).filter Event.isVolumeRequest ++ rest
            = volumeRequestsOf creatingContainer spec outputPaths := by
          simp [List.filter_cons, List.filter_append, hfv, hcv, huv, hfilter, hsplit]
        cases o3 with
        | some err =>
          exact ⟨Event.FetchForContainer image creatingContainer ::
              (reqs ++ [Event.Create gs, upd]),
            by simp [List.append_assoc],
            Event.FetchForContainer image creatingContainer ::
              (reqs ++ [Event.Create gs, upd]), [], by simp, hball, ⟨rest, hvreq⟩, Or.inl rfl⟩
        | none =>
          simp only []
          obtain ⟨tail, hlog, hmark⟩ := markCreated_shape c p (some gc) creatingContainer
            ⟨s3, w.log ++ [Event.FetchForContainer image creatingContainer] ++ reqs ++
              [Event.Create gs] ++ [upd]⟩
          refine ⟨Event.FetchForContainer image creatingContainer ::
              (reqs ++ [Event.Create gs, upd]) ++ tail,
            by rw [hlog]; simp [List.append_assoc],
            Event.FetchForContainer image creatingContainer ::
              (reqs ++ [Event.Create gs, upd]), tail, rfl, hball, ⟨rest, hvreq⟩,
            Or.inr ⟨hmark, gs, s, gc, ?_, by rw [hr2]⟩⟩
          exact List.mem_cons_of_mem _ (List.mem_append_right _ (List.mem_cons_self _ _))

/-- Calls made before the lock can be put in front of a `FinalAttempt`. -/
theorem FinalAttempt_prepend {σ : Type} {c : Collab σ} {spec : ContainerSpec}
    {outputPaths : List (String × String)}
    {findContainerFunc :
      σ → (Option CreatingContainer × Option CreatedContainer × Option Error) × σ}
    {createContainerFunc : σ → Except Error CreatingContainer × σ} (evs0 evs : List Event)
    (h0 : ∀ e ∈ evs0, Event.isBeforeLock e = true)
    (h : FinalAttempt c spec outputPaths findContainerFunc createContainerFunc evs) :
    FinalAttempt c spec outputPaths findContainerFunc createContainerFunc (evs0 ++ evs) := by
  obtain ⟨pre, tail, rfl, hpre, hcases⟩ := h
  refine ⟨evs0 ++ pre, tail, by simp [List.append_assoc], ?_, ?_⟩
  · intro e he
    rcases List.mem_append.mp he with h | h
    · exact h0 e h
    · exact hpre e h
  · rcases hcases with hw | ⟨cc, g, hm, hl, hg, ho⟩ |
      ⟨cc, lock, s0, s1, pre0, mid, rfl, hacq, htail, hul, ho⟩
    · exact Or.inl hw
    · exact Or.inr (Or.inl ⟨cc, g, hm, List.mem_append_right _ hl, hg, ho⟩)
    · exact Or.inr (Or.inr ⟨cc, lock, s0, s1, evs0 ++ pre0, mid, by simp [List.append_assoc],
        hacq, htail, hul, ho⟩)

/-- The calls of a lock step that ends the call. -/
theorem lockAndCreate_final {σ : Type} (k : Consts) (c : Collab σ) (p : Provider)
    (id : Identifier) (metadata : Metadata) (spec : ContainerSpec)
    (outputPaths : List (String × String))
    (findContainerFunc :
      σ → (Option CreatingContainer × Option CreatedContainer × Option Error) × σ)
    (createContainerFunc : σ → Except Error CreatingContainer × σ) (image : Image)
    (creatingContainer : CreatingContainer) (w w1 : World σ)
    (res : Option Container × Option Error)
    (horigin : (∃ s, (findContainerFunc s).1.1 = some creatingContainer) ∨
      (∃ s, (createContainerFunc s).1 = .ok creatingContainer))
    (h : lockAndCreate k c p id metadata spec outputPaths (fun _ => none) image
      creatingContainer w = some (res, w1)) :
    ∃ evs, w1.log = w.log ++ evs ∧
      FinalAttempt c spec outputPaths findContainerFunc createContainerFunc evs := by
  revert h
  simp only [lockAndCreate, World.call]
  generalize hr : c.AcquireContainerCreatingLock creatingContainer.ID w.st = r
  obtain ⟨⟨lock, acquired, err⟩, s1⟩ := r
  cases err with
  | some e =>
    simp only []
    intro h
    refine ⟨[Event.AcquireContainerCreatingLock creatingContainer.ID],
      by rw [← (Prod.mk.inj (Option.some.inj h)).2],
      [Event.AcquireContainerCreatingLock creatingContainer.ID], [], rfl, ?_, Or.inl (by simp)⟩
    intro e he
    rw [List.mem_singleton.mp he]
    rfl
  | none =>
    cases acquired with
    | false => simp
    | true =>
      simp only []
      intro h
      obtain ⟨mid, hlog, hul⟩ := createUnderLock_shape k c p id metadata spec outputPaths image
        creatingContainer
        ⟨s1, w.log ++ [Event.AcquireContainerCreatingLock creatingContainer.ID]⟩
      refine ⟨[Event.AcquireContainerCreatingLock creatingContainer.ID] ++
          (mid ++ [Event.Release lock]), ?_,
        [Event.AcquireContainerCreatingLock creatingContainer.ID],
        mid ++ [Event.Release lock], rfl, ?_,
        Or.inr (Or.inr ⟨creatingContainer, lock, w.st, s1, [], mid, rfl, hr, rfl, hul,
          horigin⟩)⟩
      · rw [← (Prod.mk.inj (Option.some.inj h)).2]
        simp [hlog, List.append_assoc]
      · intro e he
        rw [List.mem_singleton.mp he]
        rfl

/-- The calls of lines 539-653 when they end the call. -/
theorem createContainer_final {σ : Type} (k : Consts) (c : Collab σ) (p : Provider)
    (id : Identifier) (metadata : Metadata) (spec : ContainerSpec)
    (outputPaths : List (String × String))
    (findContainerFunc :
      σ → (Option CreatingContainer × Option CreatedContainer × Option Error) × σ)
    (createContainerFunc : σ → Except Error CreatingContainer × σ)
    (creatingContainer : Option CreatingContainer) (w w1 : World σ)
    (res : Option Container × Option Error)
    (hcc : ∀ cc, creatingContainer = some cc → ∃ s, (findContainerFunc s).1.1 = some cc)
    (h : createContainer k c p id metadata spec outputPaths createContainerFunc (fun _ => none)
      creatingContainer w = some (res, w1)) :
    ∃ evs, w1.log = w.log ++ evs ∧
      FinalAttempt c spec outputPaths findContainerFunc createContainerFunc evs := by
  have hgi : ∀ e ∈ [Event.GetImage spec.ImageSpec spec.TeamID id metadata],
      Event.isBeforeLock e = true := by
    intro e he
    rw [List.mem_singleton.mp he]
    rfl
  have hgc : ∀ e ∈ [Event.GetImage spec.ImageSpec spec.TeamID id metadata,
      Event.createContainerFunc], Event.isBeforeLock e = true := by
    intro e he
    rcases List.mem_cons.mp he with rfl | he
    · rfl
    · rw [List.mem_singleton.mp he]
      rfl
  revert h
  simp only [createContainer, World.call]
  generalize c.GetImage spec.ImageSpec spec.TeamID id metadata w.st = r1
  obtain ⟨o1, s1⟩ := r1
  cases o1 with
  | error err =>
    simp only []
    intro h
    exact ⟨[Event.GetImage spec.ImageSpec spec.TeamID id metadata],
      by rw [← (Prod.mk.inj (Option.some.inj h)).2],
      [Event.GetImage spec.ImageSpec spec.TeamID id metadata], [], rfl, hgi, Or.inl (by simp)⟩
  | ok image =>
    cases creatingContainer with
    | some cc =>
      simp only []
      intro h
      obtain ⟨evs, hlog, hfa⟩ := lockAndCreate_final k c p id metadata spec outputPaths
        findContainerFunc createContainerFunc image cc _ w1 res (Or.inl (hcc cc rfl)) h
      exact ⟨[Event.GetImage spec.ImageSpec spec.TeamID id metadata] ++ evs,
        by rw [hlog]; simp [List.append_assoc], FinalAttempt_prepend _ _ hgi hfa⟩
    | none =>
      simp only []
      generalize hr2 : createContainerFunc s1 = r2
      obtain ⟨o2, s2⟩ := r2
      cases o2 with
      | error err =>
        simp only []
        intro h
        exact ⟨[Event.GetImage spec.ImageSpec spec.TeamID id metadata,
            Event.createContainerFunc],
          by rw [← (Prod.mk.inj (Option.some.inj h)).2]; simp [List.append_assoc],
          [Event.GetImage spec.ImageSpec spec.TeamID id metadata, Event.createContainerFunc],
          [], by simp, hgc, Or.inl (by simp)⟩
      | ok cc =>
        simp only []
        intro h
        obtain ⟨evs, hlog, hfa⟩ := lockAndCreate_final k c p id metadata spec outputPaths
          findContainerFunc createContainerFunc image cc _ w1 res
          (Or.inr ⟨s1, by rw [hr2]⟩) h
        exact ⟨[Event.GetImage spec.ImageSpec spec.TeamID id metadata,
            Event.createContainerFunc] ++ evs,
          by rw [hlog]; simp [List.append_assoc], FinalAttempt_prepend _ _ hgc hfa⟩

/-- The calls of an attempt that ends the call. -/
theorem findOrCreateContainerBody_final {σ : Type} (k : Consts) (c : Collab σ)
    (p : Provider) (id : Identifier) (metadata : Metadata) (spec : ContainerSpec)
    (outputPaths : List (String × String))
    (findContainerFunc :
      σ → (Option CreatingContainer × Option CreatedContainer × Option Error) × σ)
    (createContainerFunc : σ → Except Error CreatingContainer × σ) (w w1 : World σ)
    (res : Option Container × Option Error)
    (h : findOrCreateContainerBody k c p id metadata spec outputPaths findContainerFunc
      createContainerFunc (fun _ => none) w = some (res, w1)) :
    ∃ evs, w1.log = w.log ++ evs ∧
      FinalAttempt c spec outputPaths findContainerFunc createContainerFunc evs := by
  have hf : ∀ e ∈ [Event.findContainerFunc], Event.isBeforeLock e = true := by
    intro e he
    rw [List.mem_singleton.mp he]
    rfl
  have hfl : ∀ h : String, ∀ e ∈ [Event.findContainerFunc, Event.Lookup h],
      Event.isBeforeLock e = true := by
    intro h e he
    rcases List.mem_cons.mp he with rfl | he
    · rfl
    · rw [List.mem_singleton.mp he]
      rfl
  revert h
  simp only [findOrCreateContainerBody, World.call]
  generalize hr0 : findContainerFunc w.st = r0
  obtain ⟨⟨creating, created, err⟩, s1⟩ := r0
  cases err with
  | some e =>
    simp only []
    intro h
    exact ⟨[Event.findContainerFunc], by rw [← (Prod.mk.inj (Option.some.inj h)).2],
      [Event.findContainerFunc], [], rfl, hf, Or.inl (by simp)⟩
  | none =>
    cases created with
    | some cd =>
      simp only []
      generalize c.Lookup cd.Handle s1 = r1
      obtain ⟨⟨gc, e1⟩, s2⟩ := r1
      cases e1 with
      | some e =>
        simp only []
        intro h
        exact ⟨[Event.findContainerFunc, Event.Lookup cd.Handle],
          by rw [← (Prod.mk.inj (Option.some.inj h)).2]; simp [List.append_assoc],
          [Event.findContainerFunc, Event.Lookup cd.Handle], [], by simp, hfl _,
          Or.inl (by simp)⟩
      | none =>
        simp only []
        intro h
        obtain ⟨tail, hlog, htail⟩ := wrapContainer_shape c p gc (some cd)
          ⟨s2, w.log ++ [Event.findContainerFunc] ++ [Event.Lookup cd.Handle]⟩
        refine ⟨[Event.findContainerFunc, Event.Lookup cd.Handle] ++ tail, ?_,
          [Event.findContainerFunc, Event.Lookup cd.Handle], tail, rfl, hfl _, Or.inl htail⟩
        have hw1 := congrArg (fun x => x.2.log) (Option.some.inj h)
        simp only at hw1
        rw [← hw1, hlog]
        simp [List.append_assoc]
    | none =>
      cases creating with
      | none =>
        simp only []
        intro h
        obtain ⟨evs, hlog, hfa⟩ := createContainer_final k c p id metadata spec outputPaths
          findContainerFunc createContainerFunc none _ w1 res (by intro cc hcc; cases hcc) h
        exact ⟨[Event.findContainerFunc] ++ evs, by rw [hlog]; simp [List.append_assoc],
          FinalAttempt_prepend _ _ hf hfa⟩
      | some cr =>
        simp only []
        generalize hr1 : c.Lookup cr.Handle s1 = r1
        obtain ⟨⟨gc, e1⟩, s2⟩ := r1
        simp only []
        by_cases hnf : e1.map Error.isContainerNotFound = some false
        · simp only [hnf, if_true]
          intro h
          exact ⟨[Event.findContainerFunc, Event.Lookup cr.Handle],
            by rw [← (Prod.mk.inj (Option.some.inj h)).2]; simp [List.append_assoc],
            [Event.findContainerFunc, Event.Lookup cr.Handle], [], by simp, hfl _,
            Or.inl (by simp)⟩
        · simp only [hnf, if_false]
          cases gc with
          | none =>
            simp only []
            intro h
            obtain ⟨evs, hlog, hfa⟩ := createContainer_final k c p id metadata spec outputPaths
              findContainerFunc createContainerFunc (some cr) _ w1 res
              (by
                intro cc hcc
                cases hcc
                exact ⟨w.st, by rw [hr0]⟩) h
            exact ⟨[Event.findContainerFunc, Event.Lookup cr.Handle] ++ evs,
              by rw [hlog]; simp [List.append_assoc], FinalAttempt_prepend _ _ (hfl _) hfa⟩
          | some g =>
            simp only []
            intro h
            obtain ⟨tail, hlog, hmark⟩ := markCreated_shape c p (some g) cr
              ⟨s2, w.log ++ [Event.findContainerFunc] ++ [Event.Lookup cr.Handle]⟩
            refine ⟨[Event.findContainerFunc, Event.Lookup cr.Handle] ++ tail, ?_,
              [Event.findContainerFunc, Event.Lookup cr.Handle], tail, rfl, hfl _,
              Or.inr (Or.inl ⟨cr, g, hmark, by simp, ⟨s1, by rw [hr1]⟩,
                ⟨w.st, by rw [hr0]⟩⟩)⟩
            have hw1 := congrArg (fun x => x.2.log) (Option.some.inj h)
            simp only at hw1
            rw [← hw1, hlog]
            simp [List.append_assoc]

/-- The calls of a run of `findOrCreateContainer` that returns have the shape
`FinalAttempt`. -/
theorem findOrCreateContainer_shape {σ : Type} (k : Consts) (c : Collab σ)
    (p : Provider) (id : Identifier) (metadata : Metadata) (spec : ContainerSpec)
    (outputPaths : List (String × String))
    (findContainerFunc :
      σ → (Option CreatingContainer × Option CreatedContainer × Option Error) × σ)
    (createContainerFunc : σ → Except Error CreatingContainer × σ) (fuel : Nat)
    (w w1 : World σ) (res : Option Container × Option Error)
    (h : findOrCreateContainer k c p id metadata spec outputPaths findContainerFunc
      createContainerFunc fuel w = some (res, w1)) :
    ∃ evs, w1.log = w.log ++ evs ∧
      FinalAttempt c spec outputPaths findContainerFunc createContainerFunc evs := by
  obtain ⟨w0, lost, hlog, hlost, -, hbody⟩ :=
    findOrCreateContainer_final_attempt k c p id metadata spec outputPaths findContainerFunc
      createContainerFunc fuel w _ h
  obtain ⟨evs, hlog1, hfa⟩ := findOrCreateContainerBody_final k c p id metadata spec
    outputPaths findContainerFunc createContainerFunc w0 w1 res (hbody _)
  exact ⟨lost ++ evs, by rw [hlog1, hlog]; simp [List.append_assoc],
    FinalAttempt_prepend lost evs hlost hfa⟩

/-- No call is both `isBeforeLock` and `isUpdateTTL`. -/
theorem isBeforeLock_not_isUpdateTTL (e : Event) (h : Event.isBeforeLock e = true) : Event.isUpdateTTL e = false := by
  cases e <;> simp_all [Event.isBeforeLock, Event.isUpdateTTL]

/-- No call is both `isBeforeLock` and `isRelease`. -/
theorem isBeforeLock_not_isRelease (e : Event) (h : Event.isBeforeLock e = true) : Event.isRelease e = false := by
  cases e <;> simp_all [Event.isBeforeLock, Event.isRelease]

/-- No call is both `isBeforeLock` and `isVolumeRequest`. -/
theorem isBeforeLock_not_isVolumeRequest (e : Event) (h : Event.isBeforeLock e = true) : Event.isVolumeRequest e = false := by
  cases e <;> simp_all [Event.isBeforeLock, Event.isVolumeRequest]

/-- No call is both `isVolumeRequest` and `isUpdateTTL`. -/
theorem isVolumeRequest_not_isUpdateTTL (e : Event) (h : Event.isVolumeRequest e = true) : Event.isUpdateTTL e = false := by
  cases e <;> simp_all [Event.isVolumeRequest, Event.isUpdateTTL]

/-- No call is both `isVolumeRequest` and `isCreated`. -/
theorem isVolumeRequest_not_isCreated (e : Event) (h : Event.isVolumeRequest e = true) : Event.isCreated e = false := by
  cases e <;> simp_all [Event.isVolumeRequest, Event.isCreated]

/-- No call is both `isBuild` and `isRelease`. -/
theorem isBuild_not_isRelease (e : Event) (h : Event.isBuild e = true) : Event.isRelease e = false := by
  cases e <;> simp_all [Event.isBuild, Event.isRelease]

/-- No call is both `isBuild` and `isCreated`. -/
theorem isBuild_not_isCreated (e : Event) (h : Event.isBuild e = true) : Event.isCreated e = false := by
  cases e <;> simp_all [Event.isBuild, Event.isCreated]

/-- No call is both `isWrap` and `isRelease`. -/
theorem isWrap_not_isRelease (e : Event) (h : Event.isWrap e = true) : Event.isRelease e = false := by
  cases e <;> simp_all [Event.isWrap, Event.isRelease]

/-- No call is both `isWrap` and `isCreated`. -/
theorem isWrap_not_isCreated (e : Event) (h : Event.isWrap e = true) : Event.isCreated e = false := by
  cases e <;> simp_all [Event.isWrap, Event.isCreated]

/-- No call is both `isWrap` and `isVolumeRequest`. -/
theorem isWrap_not_isVolumeRequest (e : Event) (h : Event.isWrap e = true) : Event.isVolumeRequest e = false := by
  cases e <;> simp_all [Event.isWrap, Event.isVolumeRequest]

/-- Calls of one class are not calls of a class that is disjoint from it. -/
theorem filter_class (evs : List Event) (cls q : Event → Bool)
    (hall : ∀ e ∈ evs, cls e = true) (hq : ∀ e, cls e = true → q e = false) :
    evs.filter q = [] := by
  rw [List.filter_eq_nil_iff]
  intro e he
  simp [hq e (hall e he)]

/-- An attempt that gets to the lock request goes on with the lock step. -/
theorem findOrCreateContainer_at_lock {σ : Type} (k : Consts) (c : Collab σ)
    (p : Provider) (id : Identifier) (metadata : Metadata) (spec : ContainerSpec)
    (outputPaths : List (String × String))
    (findContainerFunc :
      σ → (Option CreatingContainer × Option CreatedContainer × Option Error) × σ)
    (createContainerFunc : σ → Except Error CreatingContainer × σ) (w : World σ)
    (image : Image) (cc : CreatingContainer) (wl : World σ)
    (h : ReachesLock c id metadata spec findContainerFunc createContainerFunc w image cc wl) :
    (∃ before, wl.log = w.log ++ before ∧ ∀ e ∈ before, Event.isBeforeLock e = true) ∧
    ∀ fuel : Nat,
      findOrCreateContainer k c p id metadata spec outputPaths findContainerFunc
        createContainerFunc (fuel + 1) w
      = lockAndCreate k c p id metadata spec outputPaths
          (findOrCreateContainer k c p id metadata spec outputPaths findContainerFunc
            createContainerFunc fuel) image cc wl := by
  rcases h with ⟨gerr, s1, s2, s3, hfind, hlook, hgerr, himg, rfl⟩ |
    ⟨s1, s2, s3, hfind, himg, hcreate, rfl⟩
  · refine ⟨⟨_, rfl, ?_⟩, ?_⟩
    · intro e he
      simp only [List.mem_cons, List.mem_singleton, List.not_mem_nil, or_false] at he
      rcases he with rfl | rfl | rfl <;> rfl
    · intro fuel
      simp [findOrCreateContainer, findOrCreateContainerBody, createContainer, World.call,
        hfind, hlook, hgerr, himg, List.append_assoc]
  · refine ⟨⟨_, rfl, ?_⟩, ?_⟩
    · intro e he
      simp only [List.mem_cons, List.mem_singleton, List.not_mem_nil, or_false] at he
      rcases he with rfl | rfl | rfl <;> rfl
    · intro fuel
      simp [findOrCreateContainer, findOrCreateContainerBody, createContainer, World.call,
        hfind, himg, hcreate, List.append_assoc]

/-- When the requests for the output paths `done` are answered with a volume, the loop
over `done ++ rest` goes on with `rest` from the state after them, with one request
logged per entry of `done`. -/
theorem outputVolumeMounts_found {σ : Type} (c : Collab σ) (cc : CreatingContainer)
    (spec : ContainerSpec) (done rest : List (String × String))
    (volumeMounts : List VolumeMount) (w : World σ) (s1 : σ)
    (h : OutputVolumesFound c cc spec done w.st s1) :
    ∃ volumeMounts1, outputVolumeMounts c cc spec (done ++ rest) volumeMounts w
      = outputVolumeMounts c cc spec rest volumeMounts1
          ⟨s1, w.log ++ done.map (outputRequest cc spec)⟩ := by
  induction done generalizing volumeMounts w with
  | nil =>
    simp only [OutputVolumesFound] at h
    subst h
    exact ⟨volumeMounts, by simp⟩
  | cons entry done ih =>
    obtain ⟨name, outputPath⟩ := entry
    obtain ⟨v, s2, hcall, hrest⟩ := h
    obtain ⟨vm1, hvm⟩ := ih (volumeMounts ++ [⟨v, outputPath⟩])
      ⟨s2, w.log ++ [outputRequest cc spec (name, outputPath)]⟩ hrest
    refine ⟨vm1, ?_⟩
    simp only [List.cons_append, outputVolumeMounts, World.call, hcall]
    simpa [outputRequest, List.append_assoc] using hvm

/-- The loop over the inputs, as `outputVolumeMounts_found`. -/
theorem inputVolumeMounts_found {σ : Type} (c : Collab σ) (cc : CreatingContainer)
    (spec : ContainerSpec) (done rest : List VolumeMount)
    (volumeMounts : List VolumeMount) (w : World σ) (s1 : σ)
    (h : InputVolumesFound c cc spec done w.st s1) :
    ∃ volumeMounts1, inputVolumeMounts c cc spec (done ++ rest) volumeMounts w
      = inputVolumeMounts c cc spec rest volumeMounts1
          ⟨s1, w.log ++ done.map (inputRequest cc spec)⟩ := by
  induction done generalizing volumeMounts w with
  | nil =>
    simp only [InputVolumesFound] at h
    subst h
    exact ⟨volumeMounts, by simp⟩
  | cons mount done ih =>
    obtain ⟨v, s2, hcall, hrest⟩ := h
    obtain ⟨vm1, hvm⟩ := ih (volumeMounts ++ [⟨v, mount.MountPath⟩])
      ⟨s2, w.log ++ [inputRequest cc spec mount]⟩ hrest
    refine ⟨vm1, ?_⟩
    simp only [List.cons_append, inputVolumeMounts, World.call, hcall]
    simpa [inputRequest, List.append_assoc] using hvm

/-- A failing volume request ends `createGardenContainer`: it returns the error of the
request, in the state that the request left, and its calls are the volume requests up to
the failing one. -/
theorem createGardenContainer_volume_request_fails {σ : Type} (k : Consts) (c : Collab σ)
    (p : Provider) (cc : CreatingContainer) (spec : ContainerSpec)
    (outputPaths : List (String × String)) (imageMetadata : ImageMetadata) (imageURL : String)
    (w : World σ) (e : Error) (s1 : σ) (reqs : List Event)
    (h : VolumeRequestFails c cc spec outputPaths w.st e s1 reqs) :
    createGardenContainer k c p cc spec outputPaths imageMetadata imageURL w
      = (.error e, ⟨s1, w.log ++ reqs⟩) ∧
    ∀ ev ∈ reqs, Event.isVolumeRequest ev = true := by
  rcases h with ⟨done, name, outputPath, rest, s0, hsplit, hfound, hfail, rfl⟩ |
    ⟨done, mount, rest, s0, s2, hfound, hsplit, hfound2, hfail, rfl⟩
  · refine ⟨?_, ?_⟩
    · obtain ⟨vm1, hvm⟩ := outputVolumeMounts_found c cc spec done ((name, outputPath) :: rest)
        [] w s0 hfound
      simp only [createGardenContainer, hsplit, hvm, outputVolumeMounts, World.call, hfail]
      simp [outputRequest, List.append_assoc]
    · intro ev hev
      obtain ⟨x, -, rfl⟩ := List.mem_map.mp hev
      rfl
  · refine ⟨?_, ?_⟩
    · obtain ⟨vm1, hvm⟩ := outputVolumeMounts_found c cc spec outputPaths [] [] w s0 hfound
      rw [List.append_nil] at hvm
      obtain ⟨vm2, hvm2⟩ := inputVolumeMounts_found c cc spec done (mount :: rest)
        (appendMounts spec.Mounts vm1) ⟨s0, w.log ++ outputPaths.map (outputRequest cc spec)⟩
        s2 hfound2
      simp only [createGardenContainer, hvm, outputVolumeMounts, hsplit, hvm2,
        inputVolumeMounts, World.call, hfail]
      simp [inputRequest, List.append_assoc]
    · intro ev hev
      rcases List.mem_append.mp hev with h | h
      · obtain ⟨x, -, rfl⟩ := List.mem_map.mp h
        rfl
      · obtain ⟨x, -, rfl⟩ := List.mem_map.mp h
        rfl

/-- When `createGardenContainer` returns an error under the lock, `findOrCreateContainer`
returns that error and no container, after the `Release()` of the lock, and the run has
called neither `UpdateContainerTTLToBeRemoved` nor `Created()`. -/
theorem findOrCreateContainer_build_error {σ : Type} (k : Consts) (c : Collab σ)
    (p : Provider) (id : Identifier) (metadata : Metadata) (spec : ContainerSpec)
    (outputPaths : List (String × String))
    (findContainerFunc :
      σ → (Option CreatingContainer × Option CreatedContainer × Option Error) × σ)
    (createContainerFunc : σ → Except Error CreatingContainer × σ) (w : World σ)
    (image : Image) (cc : CreatingContainer) (wl : World σ) (lock : Lock) (s1 : σ)
    (fetchedImage : FetchedImage) (s2 : σ) (e : Error) (w3 : World σ)
    (hreach : ReachesLock c id metadata spec findContainerFunc createContainerFunc w image cc
      wl)
    (hlock : c.AcquireContainerCreatingLock cc.ID wl.st = ((lock, true, none), s1))
    (hfetch : c.FetchForContainer image cc s1 = (.ok fetchedImage, s2))
    (hcgc : createGardenContainer k c p cc spec outputPaths fetchedImage.Metadata
      fetchedImage.URL ⟨s2, wl.log ++ [Event.AcquireContainerCreatingLock cc.ID,
        Event.FetchForContainer image cc]⟩ = (.error e, w3)) :
    (∀ fuel : Nat,
      findOrCreateContainer k c p id metadata spec outputPaths findContainerFunc
        createContainerFunc (fuel + 1) w
      = some ((none, some e), ⟨(c.Release lock w3.st).2, w3.log ++ [Event.Release lock]⟩)) ∧
    ((w3.log ++ [Event.Release lock]).drop w.log.length).filter Event.isUpdateTTL = [] ∧
    ((w3.log ++ [Event.Release lock]).drop w.log.length).filter Event.isCreated = [] := by
  obtain ⟨⟨before, hbefore, hball⟩, hat⟩ := findOrCreateContainer_at_lock k c p id metadata
    spec outputPaths findContainerFunc createContainerFunc w image cc wl hreach
  have hlist : wl.log ++ [Event.AcquireContainerCreatingLock cc.ID] ++
      [Event.FetchForContainer image cc]
      = wl.log ++ [Event.AcquireContainerCreatingLock cc.ID,
        Event.FetchForContainer image cc] := by simp [List.append_assoc]
  refine ⟨?_, ?_⟩
  · intro fuel
    rw [hat fuel]
    simp [lockAndCreate, createUnderLock, World.call, hlock, hfetch, hlist, hcgc]
  · obtain ⟨reqs, hall, htrace⟩ := createGardenContainer_trace k c p cc spec outputPaths
      fetchedImage.Metadata fetchedImage.URL
      ⟨s2, wl.log ++ [Event.AcquireContainerCreatingLock cc.ID,
        Event.FetchForContainer image cc]⟩
    have hbu : before.filter Event.isUpdateTTL = [] := filter_class before _ _ hball
      isBeforeLock_not_isUpdateTTL
    have hbc : before.filter Event.isCreated = [] := filter_isCreated_before_lock before hball
    have hru : reqs.filter Event.isUpdateTTL = [] := filter_class reqs _ _ hall
      isVolumeRequest_not_isUpdateTTL
    have hrc : reqs.filter Event.isCreated = [] := filter_class reqs _ _ hall
      isVolumeRequest_not_isCreated
    have hw3 : w3.log = w.log ++ (before ++ [Event.AcquireContainerCreatingLock cc.ID,
          Event.FetchForContainer image cc] ++ reqs) ∨
        ∃ gs, w3.log = w.log ++ (before ++ [Event.AcquireContainerCreatingLock cc.ID,
          Event.FetchForContainer image cc] ++ reqs ++ [Event.Create gs]) := by
      rcases htrace with ⟨err, s, heq⟩ | ⟨gs, s, heq⟩
      · rw [hcgc] at heq
        left
        rw [(Prod.mk.inj heq).2]
        simp [hbefore, List.append_assoc]
      · rw [hcgc] at heq
        right
        refine ⟨gs, ?_⟩
        rw [(Prod.mk.inj heq).2]
        simp [hbefore, List.append_assoc]
    rcases hw3 with hw3 | ⟨gs, hw3⟩
    · rw [hw3]
      simp [List.append_assoc, List.filter_append, List.filter_cons, hbu, hbc, hru, hrc,
        Event.isUpdateTTL, Event.isCreated]
    · rw [hw3]
      simp [List.append_assoc, List.filter_append, List.filter_cons, hbu, hbc, hru, hrc,
        Event.isUpdateTTL, Event.isCreated]

/-- C21. Let finding or creating a volume fail while the mounts are built: the volume
service answers the request for an output path or for an input with the error `e`, after
answering the requests before it with a volume (`VolumeRequestFails`). Then
`createGardenContainer` returns `e`, and its calls are the volume requests up to the
failing one, so the runtime `Create` is not called. And when this happens in an attempt of
`findOrCreateContainer` that has got to the lock, acquired it and fetched the image,
`findOrCreateContainer` returns `e` and no container, after the `Release()` of the lock,
and the run has called neither `UpdateContainerTTLToBeRemoved` nor `Created()`. -/
theorem findOrCreateContainer_volume_failure {σ : Type} (k : Consts) (c : Collab σ)
    (p : Provider) (id : Identifier) (metadata : Metadata) (spec : ContainerSpec)
    (outputPaths : List (String × String))
    (findContainerFunc :
      σ → (Option CreatingContainer × Option CreatedContainer × Option Error) × σ)
    (createContainerFunc : σ → Except Error CreatingContainer × σ) (w : World σ) :
    (∀ (cc : CreatingContainer) (imageMetadata : ImageMetadata) (imageURL : String)
      (w0 : World σ) (e : Error) (s1 : σ) (reqs : List Event),
      VolumeRequestFails c cc spec outputPaths w0.st e s1 reqs →
      createGardenContainer k c p cc spec outputPaths imageMetadata imageURL w0
        = (.error e, ⟨s1, w0.log ++ reqs⟩) ∧
      (∀ ev ∈ reqs, Event.isVolumeRequest ev = true) ∧
      ∀ gardenSpec, Event.Create gardenSpec ∉ reqs) ∧
    (∀ (image : Image) (cc : CreatingContainer) (wl : World σ) (lock : Lock) (s1 : σ)
      (fetchedImage : FetchedImage) (s2 : σ) (e : Error) (s3 : σ) (reqs : List Event),
      ReachesLock c id metadata spec findContainerFunc createContainerFunc w image cc wl →
      c.AcquireContainerCreatingLock cc.ID wl.st = ((lock, true, none), s1) →
      c.FetchForContainer image cc s1 = (.ok fetchedImage, s2) →
      VolumeRequestFails c cc spec outputPaths s2 e s3 reqs →
      (∀ fuel : Nat,
        findOrCreateContainer k c p id metadata spec outputPaths findContainerFunc
          createContainerFunc (fuel + 1) w
        = some ((none, some e), ⟨(c.Release lock s3).2,
            wl.log ++ [Event.AcquireContainerCreatingLock cc.ID,
              Event.FetchForContainer image cc] ++ reqs ++ [Event.Release lock]⟩)) ∧
      ((wl.log ++ [Event.AcquireContainerCreatingLock cc.ID,
          Event.FetchForContainer image cc] ++ reqs ++ [Event.Release lock]).drop
        w.log.length).filter Event.isUpdateTTL = [] ∧
      ((wl.log ++ [Event.AcquireContainerCreatingLock cc.ID,
          Event.FetchForContainer image cc] ++ reqs ++ [Event.Release lock]).drop
        w.log.length).filter Event.isCreated = []) := by
  refine ⟨?_, ?_⟩
  · intro cc imageMetadata imageURL w0 e s1 reqs h
    obtain ⟨hres, hall⟩ := createGardenContainer_volume_request_fails k c p cc spec outputPaths
      imageMetadata imageURL w0 e s1 reqs h
    refine ⟨hres, hall, ?_⟩
    intro gardenSpec hmem
    have := hall _ hmem
    simp [Event.isVolumeRequest] at this
  · intro image cc wl lock s1 fetchedImage s2 e s3 reqs hreach hlock hfetch hfail
    obtain ⟨hres, -⟩ := createGardenContainer_volume_request_fails k c p cc spec outputPaths
      fetchedImage.Metadata fetchedImage.URL
      ⟨s2, wl.log ++ [Event.AcquireContainerCreatingLock cc.ID,
        Event.FetchForContainer image cc]⟩ e s3 reqs hfail
    exact findOrCreateContainer_build_error k c p id metadata spec outputPaths
      findContainerFunc createContainerFunc w image cc wl lock s1 fetchedImage s2 e _ hreach
      hlock hfetch hres

/-- C21, instances. With a volume service that fails every request, the request for the
output volume is answered with an error and `createGardenContainer` returns it after that
one request. With a volume service that fails the requests for copy-on-write volumes, no
container is in the database, the output path gets its volume and the request for the
input fails: `findOrCreateContainer` returns that error after releasing the lock, without
`Create`, TTL update or `Created()`. -/
theorem findOrCreateContainer_volume_failure_witness :
    createGardenContainer demoConsts volumesFail demoProvider ⟨43, "new-handle"⟩ demoSpec
        [("output", "/some/path")] ⟨["some", "env"], "image-user"⟩
        "raw:///var/vcap/some-path/rootfs" ⟨(), []⟩
      = (.error (.other "oh noes"),
          ⟨(), [Event.FindOrCreateVolumeForContainer ⟨.OutputStrategy "output", true⟩
            ⟨43, "new-handle"⟩ 1 "/some/path"]⟩) ∧
    findOrCreateContainer demoConsts inputVolumesFail demoProvider demoIdentifier demoMetadata
      demoSpec [("output", "/some/path")] findsNothing createsRow 1 ⟨(), []⟩
      = some ((none, some (.other "oh noes")),
          ⟨(), [Event.findContainerFunc,
            Event.GetImage demoSpec.ImageSpec demoSpec.TeamID demoIdentifier demoMetadata,
            Event.createContainerFunc, Event.AcquireContainerCreatingLock 43,
            Event.FetchForContainer ⟨1⟩ ⟨43, "new-handle"⟩,
            Event.FindOrCreateVolumeForContainer ⟨.OutputStrategy "output", true⟩
              ⟨43, "new-handle"⟩ 1 "/some/path",
            Event.FindOrCreateVolumeForContainer
              ⟨.ContainerRootFSStrategy ⟨"input-volume", "/volumes/input"⟩, true⟩
              ⟨43, "new-handle"⟩ 1 "/some/input/path",
            Event.Release ⟨1⟩]⟩) :=
  ⟨((findOrCreateContainer_volume_failure demoConsts volumesFail demoProvider demoIdentifier
      demoMetadata demoSpec [("output", "/some/path")] findsNothing createsRow ⟨(), []⟩).1
      ⟨43, "new-handle"⟩ ⟨["some", "env"], "image-user"⟩ "raw:///var/vcap/some-path/rootfs"
      ⟨(), []⟩ (.other "oh noes") ()
      [Event.FindOrCreateVolumeForContainer ⟨.OutputStrategy "output", true⟩
        ⟨43, "new-handle"⟩ 1 "/some/path"]
      (Or.inl ⟨[], "output", "/some/path", [], (), rfl, rfl, rfl, rfl⟩)).1,
   ((findOrCreateContainer_volume_failure demoConsts inputVolumesFail demoProvider
      demoIdentifier demoMetadata demoSpec [("output", "/some/path")] findsNothing createsRow
      ⟨(), []⟩).2
      ⟨1⟩ ⟨43, "new-handle"⟩
      ⟨(), [Event.findContainerFunc,
        Event.GetImage demoSpec.ImageSpec demoSpec.TeamID demoIdentifier demoMetadata,
        Event.createContainerFunc]⟩
      ⟨1⟩ ()
      ⟨⟨["some", "env"], "image-user"⟩, "raw:///var/vcap/some-path/rootfs", some [("v", "1")]⟩
      () (.other "oh noes") ()
      [Event.FindOrCreateVolumeForContainer ⟨.OutputStrategy "output", true⟩
        ⟨43, "new-handle"⟩ 1 "/some/path",
       Event.FindOrCreateVolumeForContainer
        ⟨.ContainerRootFSStrategy ⟨"input-volume", "/volumes/input"⟩, true⟩
        ⟨43, "new-handle"⟩ 1 "/some/input/path"]
      (Or.inr ⟨(), (), (), rfl, rfl, rfl, rfl⟩) rfl rfl
      (Or.inr ⟨[], ⟨⟨"input-volume", "/volumes/input"⟩, "/some/input/path"⟩, [], (), (),
        ⟨⟨"vol:/some/path", "/volumes/some/path"⟩, (), rfl, rfl⟩, rfl, rfl, rfl, rfl⟩)).1 0⟩

/-- The calls of lines 631-653 are in no class that excludes `Created()` and the calls
that load volumes and build the result. -/
theorem MarkedCreated_filter (cc : CreatingContainer) (tail : List Event) (q : Event → Bool)
    (hq : ∀ e, Event.isWrap e = true → q e = false) (hc : q (Event.Created cc) = false)
    (h : MarkedCreated cc tail) : tail.filter q = [] := by
  obtain ⟨rest, rfl, hrest⟩ := h
  simp [List.filter_cons, hc, filter_class rest _ q hrest hq]

/-- No `Release()` is called while the lock is held. -/
theorem UnderLock_filter_release {σ : Type} (c : Collab σ) (cc : CreatingContainer)
    (spec : ContainerSpec) (outputPaths : List (String × String)) (mid : List Event)
    (h : UnderLock c cc spec outputPaths mid) : mid.filter Event.isRelease = [] := by
  obtain ⟨build, tail, rfl, hb, -, ht⟩ := h
  rw [List.filter_append, filter_class build _ _ hb isBuild_not_isRelease]
  rcases ht with rfl | ⟨hm, -⟩
  · rfl
  · rw [MarkedCreated_filter cc tail _ isWrap_not_isRelease rfl hm]
    rfl

/-- C25. When an attempt of `findOrCreateContainer` gets to the lock request and the lock
is acquired, the call returns what the creation under the lock returns, whatever step
of it failed or not, and its last call is the one `Release()` of that lock; when the lock
request fails the call returns its error, and when the lock is not acquired the call
sleeps and starts again, both without a `Release()`. Over a whole run that returns there
is either no `Release()`, or exactly one, as the last call, of a lock that a request
acquired. -/
theorem findOrCreateContainer_releases_lock_once {σ : Type} (k : Consts) (c : Collab σ)
    (p : Provider) (id : Identifier) (metadata : Metadata) (spec : ContainerSpec)
    (outputPaths : List (String × String))
    (findContainerFunc :
      σ → (Option CreatingContainer × Option CreatedContainer × Option Error) × σ)
    (createContainerFunc : σ → Except Error CreatingContainer × σ) (w : World σ) :
    (∀ (image : Image) (cc : CreatingContainer) (wl : World σ) (lock : Lock) (s1 : σ),
      ReachesLock c id metadata spec findContainerFunc createContainerFunc w image cc wl →
      c.AcquireContainerCreatingLock cc.ID wl.st = ((lock, true, none), s1) →
      ∃ before mid,
        before.filter Event.isRelease = [] ∧ mid.filter Event.isRelease = [] ∧
        (createUnderLock k c p id metadata spec outputPaths image cc
          ⟨s1, wl.log ++ [Event.AcquireContainerCreatingLock cc.ID]⟩).2.log
          = w.log ++ before ++ [Event.AcquireContainerCreatingLock cc.ID] ++ mid ∧
        ∀ fuel : Nat,
          findOrCreateContainer k c p id metadata spec outputPaths findContainerFunc
            createContainerFunc (fuel + 1) w
          = some ((createUnderLock k c p id metadata spec outputPaths image cc
                ⟨s1, wl.log ++ [Event.AcquireContainerCreatingLock cc.ID]⟩).1,
              ⟨(c.Release lock (createUnderLock k c p id metadata spec outputPaths image cc
                  ⟨s1, wl.log ++ [Event.AcquireContainerCreatingLock cc.ID]⟩).2.st).2,
                w.log ++ before ++ [Event.AcquireContainerCreatingLock cc.ID] ++ mid ++
                  [Event.Release lock]⟩)) ∧
    (∀ (image : Image) (cc : CreatingContainer) (wl : World σ) (lock : Lock)
      (acquired : Bool) (err : Error) (s1 : σ),
      ReachesLock c id metadata spec findContainerFunc createContainerFunc w image cc wl →
      c.AcquireContainerCreatingLock cc.ID wl.st = ((lock, acquired, some err), s1) →
      ∀ fuel : Nat,
        findOrCreateContainer k c p id metadata spec outputPaths findContainerFunc
          createContainerFunc (fuel + 1) w
        = some ((none, some err),
            ⟨s1, wl.log ++ [Event.AcquireContainerCreatingLock cc.ID]⟩)) ∧
    (∀ (image : Image) (cc : CreatingContainer) (wl : World σ) (lock : Lock) (s1 : σ),
      ReachesLock c id metadata spec findContainerFunc createContainerFunc w image cc wl →
      c.AcquireContainerCreatingLock cc.ID wl.st = ((lock, false, none), s1) →
      ∀ fuel : Nat,
        findOrCreateContainer k c p id metadata spec outputPaths findContainerFunc
          createContainerFunc (fuel + 1) w
        = findOrCreateContainer k c p id metadata spec outputPaths findContainerFunc
          createContainerFunc fuel
            ⟨(c.Sleep creatingContainerRetryDelay s1).2,
              wl.log ++ [Event.AcquireContainerCreatingLock cc.ID,
                Event.Sleep creatingContainerRetryDelay]⟩) ∧
    (∀ (fuel : Nat) (res : Option Container × Option Error) (w1 : World σ),
      findOrCreateContainer k c p id metadata spec outputPaths findContainerFunc
        createContainerFunc fuel w = some (res, w1) →
      (w1.since w).filter Event.isRelease = [] ∨
      ∃ (cc : CreatingContainer) (lock : Lock) (s0 s1 : σ) (before mid : List Event),
        c.AcquireContainerCreatingLock cc.ID s0 = ((lock, true, none), s1) ∧
        w1.since w = before ++ [Event.AcquireContainerCreatingLock cc.ID] ++ mid ++
          [Event.Release lock] ∧
        before.filter Event.isRelease = [] ∧ mid.filter Event.isRelease = []) := by
  refine ⟨?_, ?_, ?_, ?_⟩
  · intro image cc wl lock s1 hreach hlock
    obtain ⟨⟨before, hbefore, hball⟩, hat⟩ := findOrCreateContainer_at_lock k c p id metadata
      spec outputPaths findContainerFunc createContainerFunc w image cc wl hreach
    obtain ⟨mid, hlog, hul⟩ := createUnderLock_shape k c p id metadata spec outputPaths image
      cc ⟨s1, wl.log ++ [Event.AcquireContainerCreatingLock cc.ID]⟩
    have hlog1 : (createUnderLock k c p id metadata spec outputPaths image cc
          ⟨s1, wl.log ++ [Event.AcquireContainerCreatingLock cc.ID]⟩).2.log
          = w.log ++ before ++ [Event.AcquireContainerCreatingLock cc.ID] ++ mid := by
      rw [hlog, hbefore]
    refine ⟨before, mid, filter_class before _ _ hball isBeforeLock_not_isRelease,
      UnderLock_filter_release c cc spec outputPaths mid hul, hlog1, ?_⟩
    intro fuel
    rw [hat fuel, ← hlog1]
    simp [lockAndCreate, World.call, hlock]
  · intro image cc wl lock acquired err s1 hreach hlock fuel
    rw [(findOrCreateContainer_at_lock k c p id metadata spec outputPaths findContainerFunc
      createContainerFunc w image cc wl hreach).2 fuel]
    simp [lockAndCreate, World.call, hlock]
  · intro image cc wl lock s1 hreach hlock fuel
    rw [(findOrCreateContainer_at_lock k c p id metadata spec outputPaths findContainerFunc
      createContainerFunc w image cc wl hreach).2 fuel]
    simp [lockAndCreate, World.call, hlock, List.append_assoc]
  · intro fuel res w1 h
    obtain ⟨evs, hlog, pre, tail, rfl, hpre, hcases⟩ := findOrCreateContainer_shape k c p id
      metadata spec outputPaths findContainerFunc createContainerFunc fuel w w1 res h
    have hsince : w1.since w = pre ++ tail := by rw [World.since, hlog, List.drop_left]
    rcases hcases with hw | ⟨cc, g, hm, -, -, -⟩ |
      ⟨cc, lock, s0, s1, pre0, mid, rfl, hacq, rfl, hul, -⟩
    · left
      rw [hsince, List.filter_append, filter_class pre _ _ hpre isBeforeLock_not_isRelease,
        filter_class tail _ _ hw isWrap_not_isRelease]
      rfl
    · left
      rw [hsince, List.filter_append, filter_class pre _ _ hpre isBeforeLock_not_isRelease,
        MarkedCreated_filter cc tail _ isWrap_not_isRelease rfl hm]
      rfl
    · right
      refine ⟨cc, lock, s0, s1, pre0, mid, hacq, by rw [hsince]; simp [List.append_assoc], ?_,
        UnderLock_filter_release c cc spec outputPaths mid hul⟩
      exact filter_class pre0 _ _ (fun e he => hpre e (List.mem_append_left _ he))
        isBeforeLock_not_isRelease

/-- C25, instances: with a volume service that fails, the lock is acquired and released
once, as the last call; with the lock held by a peer the attempt ends without
`Release()`. -/
theorem findOrCreateContainer_releases_lock_once_witness :
    findOrCreateContainer demoConsts volumesFail demoProvider demoIdentifier demoMetadata
      demoSpec [("output", "/some/path")] findsNothing createsRow 1 ⟨(), []⟩
      = some ((none, some (.other "oh noes")),
          ⟨(), [Event.findContainerFunc,
            Event.GetImage demoSpec.ImageSpec demoSpec.TeamID demoIdentifier demoMetadata,
            Event.createContainerFunc, Event.AcquireContainerCreatingLock 43,
            Event.FetchForContainer ⟨1⟩ ⟨43, "new-handle"⟩,
            Event.FindOrCreateVolumeForContainer ⟨.OutputStrategy "output", true⟩
              ⟨43, "new-handle"⟩ 1 "/some/path",
            Event.Release ⟨1⟩]⟩) ∧
    findOrCreateContainer demoConsts lockBusy demoProvider demoIdentifier demoMetadata
      demoSpec [] findsCreating createsRow 1 ⟨(), []⟩
      = findOrCreateContainer demoConsts lockBusy demoProvider demoIdentifier demoMetadata
        demoSpec [] findsCreating createsRow 0
          ⟨(), [Event.findContainerFunc, Event.Lookup "some-handle",
            Event.GetImage demoSpec.ImageSpec demoSpec.TeamID demoIdentifier demoMetadata,
            Event.AcquireContainerCreatingLock 42, Event.Sleep creatingContainerRetryDelay]⟩ := by
  refine ⟨?_, ?_⟩
  · obtain ⟨before, mid, -, -, hlogeq, h⟩ :=
      (findOrCreateContainer_releases_lock_once demoConsts volumesFail demoProvider
        demoIdentifier demoMetadata demoSpec [("output", "/some/path")] findsNothing createsRow
        ⟨(), []⟩).1 ⟨1⟩ ⟨43, "new-handle"⟩
        ⟨(), [Event.findContainerFunc,
          Event.GetImage demoSpec.ImageSpec demoSpec.TeamID demoIdentifier demoMetadata,
          Event.createContainerFunc]⟩ ⟨1⟩ ()
        (Or.inr ⟨(), (), (), rfl, rfl, rfl, rfl⟩) rfl
    have h0 := h 0
    rw [← hlogeq] at h0
    exact h0.trans rfl
  · exact (findOrCreateContainer_releases_lock_once demoConsts lockBusy demoProvider
      demoIdentifier demoMetadata demoSpec [] findsCreating createsRow ⟨(), []⟩).2.2.1 ⟨1⟩
      ⟨42, "some-handle"⟩
      ⟨(), [Event.findContainerFunc, Event.Lookup "some-handle",
        Event.GetImage demoSpec.ImageSpec demoSpec.TeamID demoIdentifier demoMetadata]⟩
      ⟨1⟩ ()
      (Or.inl ⟨some (.ContainerNotFoundError "some-handle"), (), (), (), rfl, rfl,
        by decide, rfl, rfl⟩) rfl 0

/-- C27. In a run of `findOrCreateContainer` that returns, `Created()` is called at most
once; when it is called, it is called on a creating container that `find()` or
`create()` returned, after a `Lookup` of its handle, which returns a container in some
state, or after a `Create` that returned a container. When the run returns a container
and every `Lookup` without error returns a container, the returned container is what
`newGardenWorkerContainer` built around a runtime container. -/
theorem findOrCreateContainer_created_only_with_runtime {σ : Type} (k : Consts)
    (c : Collab σ) (p : Provider) (id : Identifier) (metadata : Metadata)
    (spec : ContainerSpec) (outputPaths : List (String × String))
    (findContainerFunc :
      σ → (Option CreatingContainer × Option CreatedContainer × Option Error) × σ)
    (createContainerFunc : σ → Except Error CreatingContainer × σ) (fuel : Nat)
    (w w1 : World σ) (res : Option Container × Option Error)
    (h : findOrCreateContainer k c p id metadata spec outputPaths findContainerFunc
      createContainerFunc fuel w = some (res, w1)) :
    ((w1.since w).filter Event.isCreated = [] ∨
      ∃ (pre : List Event) (cc : CreatingContainer) (post : List Event) (g : GardenContainer),
        w1.since w = pre ++ Event.Created cc :: post ∧
        pre.filter Event.isCreated = [] ∧ post.filter Event.isCreated = [] ∧
        ((∃ s, (findContainerFunc s).1.1 = some cc) ∨
          (∃ s, (createContainerFunc s).1 = .ok cc)) ∧
        ((Event.Lookup cc.Handle ∈ pre ∧ ∃ s, (c.Lookup cc.Handle s).1.1 = some g) ∨
          (∃ gs s, Event.Create gs ∈ pre ∧ (c.Create gs s).1 = .ok g))) ∧
    (∀ container : Container, res = (some container, none) →
      (∀ handle s, (c.Lookup handle s).1.2 = none → (c.Lookup handle s).1.1 ≠ none) →
      ∃ (g : GardenContainer) (created : Option CreatedContainer)
        (volumes : List CreatedVolume) (s : σ),
        (c.newGardenWorkerContainer (some g) created volumes p.workerName s).1
          = (some container, none)) := by
  refine ⟨?_, ?_⟩
  · obtain ⟨evs, hlog, pre, tail, rfl, hpre, hcases⟩ := findOrCreateContainer_shape k c p id
      metadata spec outputPaths findContainerFunc createContainerFunc fuel w w1 res h
    have hsince : w1.since w = pre ++ tail := by rw [World.since, hlog, List.drop_left]
    have hprec : pre.filter Event.isCreated = [] := filter_isCreated_before_lock pre hpre
    rcases hcases with hw | ⟨cc, g, ⟨rest, rfl, hrest⟩, hl, hg, ho⟩ |
      ⟨cc, lock, s0, s1, pre0, mid, rfl, hacq, rfl, ⟨build, tail2, rfl, hb, -, ht⟩, ho⟩
    · left
      rw [hsince, List.filter_append, hprec, filter_class tail _ _ hw isWrap_not_isCreated]
      rfl
    · right
      exact ⟨pre, cc, rest, g, hsince, hprec, filter_class rest _ _ hrest isWrap_not_isCreated,
        Or.inl ho, Or.inl ⟨hl, hg⟩⟩
    · have hbc : build.filter Event.isCreated = [] :=
        filter_class build _ _ hb isBuild_not_isCreated
      rcases ht with rfl | ⟨⟨rest, rfl, hrest⟩, gs, s, g, hmem, hcreate⟩
      · left
        rw [hsince]
        simp only [List.filter_append, hprec, hbc]
        rfl
      · right
        refine ⟨pre0 ++ [Event.AcquireContainerCreatingLock cc.ID] ++ build, cc,
          rest ++ [Event.Release lock], g, by rw [hsince]; simp [List.append_assoc], ?_, ?_,
          ho, Or.inr ⟨gs, s, List.mem_append_right _ hmem, hcreate⟩⟩
        · rw [List.filter_append, hprec, hbc]
          rfl
        · rw [List.filter_append, filter_class rest _ _ hrest isWrap_not_isCreated]
          rfl
  · intro container hres hlookup
    subst hres
    obtain ⟨w0, lost, hlog, hlost, -, hbody⟩ :=
      findOrCreateContainer_final_attempt k c p id metadata spec outputPaths findContainerFunc
        createContainerFunc fuel w _ h
    rcases findOrCreateContainerBody_success k c p id metadata spec outputPaths
        findContainerFunc createContainerFunc w0 w1 container (hbody _) with
      ⟨cc, created, gc, volumes, pre, post, -, -, -, -, -, s, hnew⟩ |
      ⟨-, created, gc, volumes, pre, -, -, -, ⟨s1, hlook⟩, s, hnew⟩
    · exact ⟨gc, created, volumes, s, hnew⟩
    · cases gc with
      | none =>
        have := hlookup created.Handle s1 (by rw [hlook])
        rw [hlook] at this
        exact absurd rfl this
      | some g => exact ⟨g, some created, volumes, s, hnew⟩

/-- C27, instance: the creating container `some-handle` is in the runtime; `Created()` is
called once, after the `Lookup` that found it. -/
theorem findOrCreateContainer_created_only_with_runtime_witness :
    findOrCreateContainer demoConsts demoCollab demoProvider demoIdentifier demoMetadata
      demoSpec [] findsCreating createsRow 1 ⟨(), []⟩
      = some ((some ⟨some ⟨"some-handle"⟩, some ⟨42, "some-handle"⟩, []⟩, none),
          ⟨(), [Event.findContainerFunc, Event.Lookup "some-handle",
            Event.Created ⟨42, "some-handle"⟩,
            Event.FindVolumesForContainer (some ⟨42, "some-handle"⟩),
            Event.newGardenWorkerContainer (some ⟨"some-handle"⟩) (some ⟨42, "some-handle"⟩) []
              "w1"]⟩) ∧
    ∃ (g : GardenContainer) (created : Option CreatedContainer)
      (volumes : List CreatedVolume) (s : Unit),
      (demoCollab.newGardenWorkerContainer (some g) created volumes demoProvider.workerName
          s).1
        = (some ⟨some ⟨"some-handle"⟩, some ⟨42, "some-handle"⟩, []⟩, none) :=
  ⟨rfl,
    (findOrCreateContainer_created_only_with_runtime demoConsts demoCollab demoProvider
      demoIdentifier demoMetadata demoSpec [] findsCreating createsRow 1 ⟨(), []⟩ _ _ rfl).2
      _ rfl (by intro handle s _; simp [demoCollab])⟩

/-- The volume requests of a run that returns are an initial part of the volume requests
of a complete `createGardenContainer` for some creating container. -/
theorem FinalAttempt_volume_requests {σ : Type} (c : Collab σ) (spec : ContainerSpec)
    (outputPaths : List (String × String))
    (findContainerFunc :
      σ → (Option CreatingContainer × Option CreatedContainer × Option Error) × σ)
    (createContainerFunc : σ → Except Error CreatingContainer × σ) (evs : List Event)
    (h : FinalAttempt c spec outputPaths findContainerFunc createContainerFunc evs) :
    ∃ cc rest, evs.filter Event.isVolumeRequest ++ rest
      = volumeRequestsOf cc spec outputPaths := by
  obtain ⟨pre, tail, rfl, hpre, hcases⟩ := h
  have hprev : pre.filter Event.isVolumeRequest = [] :=
    filter_class pre _ _ hpre isBeforeLock_not_isVolumeRequest
  rcases hcases with hw | ⟨cc, g, hm, -, -, -⟩ |
    ⟨cc, lock, s0, s1, pre0, mid, rfl, -, rfl, ⟨build, tail2, rfl, -, ⟨rest, hrest⟩, ht⟩, -⟩
  · refine ⟨⟨0, ""⟩, volumeRequestsOf ⟨0, ""⟩ spec outputPaths, ?_⟩
    rw [List.filter_append, hprev, filter_class tail _ _ hw isWrap_not_isVolumeRequest]
    rfl
  · refine ⟨⟨0, ""⟩, volumeRequestsOf ⟨0, ""⟩ spec outputPaths, ?_⟩
    rw [List.filter_append, hprev,
      MarkedCreated_filter cc tail _ isWrap_not_isVolumeRequest rfl hm]
    rfl
  · have htail2 : tail2.filter Event.isVolumeRequest = [] := by
      rcases ht with rfl | ⟨hm, -⟩
      · rfl
      · exact MarkedCreated_filter cc tail2 _ isWrap_not_isVolumeRequest rfl hm
    refine ⟨cc, rest, ?_⟩
    rw [← hrest]
    simp only [List.filter_append, hprev, htail2]
    simp [Event.isVolumeRequest]

/-- The call that gets the resource cache is one call, not a volume request. -/
theorem resourceCacheFor_log {σ : Type} (g : CacheCollab σ) (id : Identifier)
    (metadata : Metadata) (resourceTypes : ResourceTypes) (resourceTypeName : String)
    (version : Version) (source : Source) (params : Params) (w : World σ) :
    ∃ ev, Event.isVolumeRequest ev = false ∧
      (resourceCacheFor g id metadata resourceTypes resourceTypeName version source params
        w).2.log = w.log ++ [ev] := by
  simp only [resourceCacheFor, World.call]
  split_ifs
  · refine ⟨_, ?_, rfl⟩
    rfl
  · refine ⟨_, ?_, rfl⟩
    rfl
  · refine ⟨_, ?_, rfl⟩
    rfl

/-- C28. `FindOrCreateResourceGetContainer` does not read `outputPaths`: two calls that
differ only in it return the same result after the same calls, so with the same volume
requests and the same spec for the runtime `Create`. In a run that returns, the volume
requests are an initial part of the requests for the inputs, one
`ContainerRootFSStrategy` request per input, and no call requests an `OutputStrategy`
volume. -/
theorem FindOrCreateResourceGetContainer_ignores_outputPaths {σ : Type} (k : Consts)
    (c : Collab σ) (g : CacheCollab σ) (p : Provider) (id : Identifier) (metadata : Metadata)
    (spec : ContainerSpec) (resourceTypes : ResourceTypes) (resourceTypeName : String)
    (version : Version) (source : Source) (params : Params) (fuel : Nat) (w : World σ) :
    (∀ outputPaths1 outputPaths2 : List (String × String),
      FindOrCreateResourceGetContainer k c g p id metadata spec resourceTypes outputPaths1
        resourceTypeName version source params fuel w
      = FindOrCreateResourceGetContainer k c g p id metadata spec resourceTypes outputPaths2
        resourceTypeName version source params fuel w) ∧
    (∀ (outputPaths : List (String × String)) (res : Option Container × Option Error)
      (w1 : World σ),
      FindOrCreateResourceGetContainer k c g p id metadata spec resourceTypes outputPaths
        resourceTypeName version source params fuel w = some (res, w1) →
      (∃ cc rest, (w1.since w).filter Event.isVolumeRequest ++ rest
        = spec.Inputs.map (inputRequest cc spec)) ∧
      (∀ e ∈ w1.since w, ∀ (name : String) (privileged : Bool) (cc : CreatingContainer)
        (teamID : Int) (path : String),
        e ≠ Event.FindOrCreateVolumeForContainer ⟨.OutputStrategy name, privileged⟩ cc teamID
          path)) := by
  refine ⟨fun _ _ => rfl, ?_⟩
  intro outputPaths res w1 h
  have hreqs : ∃ cc rest, (w1.since w).filter Event.isVolumeRequest ++ rest
      = spec.Inputs.map (inputRequest cc spec) := by
    obtain ⟨ev, hev, hlog⟩ := resourceCacheFor_log g id metadata resourceTypes
      resourceTypeName version source params w
    simp only [FindOrCreateResourceGetContainer] at h
    generalize resourceCacheFor g id metadata resourceTypes resourceTypeName version source
      params w = r at h hlog
    obtain ⟨o, w0⟩ := r
    simp only at hlog
    cases o with
    | error err =>
      simp only [Option.some.injEq, Prod.mk.injEq] at h
      obtain ⟨-, rfl⟩ := h
      refine ⟨⟨0, ""⟩, spec.Inputs.map (inputRequest ⟨0, ""⟩ spec), ?_⟩
      simp [World.since, hlog, List.filter_cons, hev]
    | ok resourceCache =>
      simp only at h
      obtain ⟨evs, hlog1, hfa⟩ := findOrCreateContainer_shape k c p id metadata spec [] _ _
        fuel w0 w1 res h
      obtain ⟨cc, rest, hrest⟩ := FinalAttempt_volume_requests c spec [] _ _ evs hfa
      refine ⟨cc, rest, ?_⟩
      have hsince : w1.since w = ev :: evs := by
        rw [World.since, hlog1, hlog]
        simp [List.append_assoc]
      rw [hsince, List.filter_cons, hev]
      simpa [volumeRequestsOf] using hrest
  refine ⟨hreqs, ?_⟩
  intro e he name privileged cc teamID path heq
  obtain ⟨cc1, rest, hrest⟩ := hreqs
  have hmem : e ∈ (w1.since w).filter Event.isVolumeRequest ++ rest :=
    List.mem_append_left _ (List.mem_filter.mpr ⟨he, by rw [heq]; rfl⟩)
  rw [hrest] at hmem
  obtain ⟨mount, -, hm⟩ := List.mem_map.mp hmem
  rw [heq] at hm
  simp [inputRequest] at hm

/-- C28, instance: a resource-get container for build 4 with one input, called with an
output path, on a volume service that fails. The only volume request is the one for the
input, with `ContainerRootFSStrategy`. -/
theorem FindOrCreateResourceGetContainer_ignores_outputPaths_witness :
    FindOrCreateResourceGetContainer demoConsts volumesFail demoCacheCollab demoProvider
      demoIdentifier demoMetadata demoSpec [] [("output", "/some/path")] "git"
      (some [("ref", "abc")]) none none 1 ⟨(), []⟩
      = some ((none, some (.other "oh noes")),
          ⟨(), [Event.FindOrCreateResourceCacheForBuild 4 "git" (some [("ref", "abc")]) none
              none 1 [],
            Event.findContainerFunc,
            Event.GetImage demoSpec.ImageSpec demoSpec.TeamID demoIdentifier demoMetadata,
            Event.createContainerFunc, Event.AcquireContainerCreatingLock 43,
            Event.FetchForContainer ⟨1⟩ ⟨43, "new-handle"⟩,
            Event.FindOrCreateVolumeForContainer
              ⟨.ContainerRootFSStrategy ⟨"input-volume", "/volumes/input"⟩, true⟩
              ⟨43, "new-handle"⟩ 1 "/some/input/path",
            Event.Release ⟨1⟩]⟩) ∧
    ∃ cc rest,
      (World.since (⟨(), [Event.FindOrCreateResourceCacheForBuild 4 "git"
              (some [("ref", "abc")]) none none 1 [],
            Event.findContainerFunc,
            Event.GetImage demoSpec.ImageSpec demoSpec.TeamID demoIdentifier demoMetadata,
            Event.createContainerFunc, Event.AcquireContainerCreatingLock 43,
            Event.FetchForContainer ⟨1⟩ ⟨43, "new-handle"⟩,
            Event.FindOrCreateVolumeForContainer
              ⟨.ContainerRootFSStrategy ⟨"input-volume", "/volumes/input"⟩, true⟩
              ⟨43, "new-handle"⟩ 1 "/some/input/path",
            Event.Release ⟨1⟩]⟩ : World Unit) ⟨(), []⟩).filter Event.isVolumeRequest ++ rest
        = demoSpec.Inputs.map (inputRequest cc demoSpec) :=
  ⟨rfl,
    ((FindOrCreateResourceGetContainer_ignores_outputPaths demoConsts volumesFail
      demoCacheCollab demoProvider demoIdentifier demoMetadata demoSpec [] "git"
      (some [("ref", "abc")]) none none 1 ⟨(), []⟩).2 [("output", "/some/path")] _ _ rfl).1⟩

/-! ## resource: theorems -/

/-- The first loop, started with a volume `l`: either `l` stays and no later handle is
smaller, or the result is the first later volume with the smallest handle, which is
smaller than that of `l`. -/
theorem lowestVolumeFrom_some {α : Type} (Handle : α → String) (vs : List α) (l : α) :
    (lowestVolumeFrom Handle (some l) vs = some l ∧ ∀ u ∈ vs, Handle l ≤ Handle u) ∨
    (∃ pre m post, vs = pre ++ m :: post ∧ lowestVolumeFrom Handle (some l) vs = some m ∧
      Handle m < Handle l ∧ (∀ u ∈ pre, Handle m < Handle u) ∧
      ∀ u ∈ vs, Handle m ≤ Handle u) := by
  induction vs generalizing l with
  | nil => exact Or.inl ⟨rfl, by simp⟩
  | cons v rest ih =>
    by_cases hlt : Handle v < Handle l
    · simp only [lowestVolumeFrom, hlt, if_true]
      rcases ih v with ⟨hres, hall⟩ | ⟨pre, m, post, hsplit, hres, hm, hpre, hall⟩
      · refine Or.inr ⟨[], v, rest, rfl, hres, hlt, by simp, ?_⟩
        intro u hu
        rcases List.mem_cons.mp hu with rfl | hu
        · exact le_refl _
        · exact hall u hu
      · refine Or.inr ⟨v :: pre, m, post, by rw [hsplit]; rfl, hres, lt_trans hm hlt, ?_, ?_⟩
        · intro u hu
          rcases List.mem_cons.mp hu with rfl | hu
          · exact hm
          · exact hpre u hu
        · intro u hu
          rcases List.mem_cons.mp hu with rfl | hu
          · exact le_of_lt hm
          · exact hall u hu
    · simp only [lowestVolumeFrom, hlt, if_false]
      have hle : Handle l ≤ Handle v := not_lt.mp hlt
      rcases ih l with ⟨hres, hall⟩ | ⟨pre, m, post, hsplit, hres, hm, hpre, hall⟩
      · refine Or.inl ⟨hres, ?_⟩
        intro u hu
        rcases List.mem_cons.mp hu with rfl | hu
        · exact hle
        · exact hall u hu
      · refine Or.inr ⟨v :: pre, m, post, by rw [hsplit]; rfl, hres, hm, ?_, ?_⟩
        · intro u hu
          rcases List.mem_cons.mp hu with rfl | hu
          · exact lt_of_lt_of_le hm hle
          · exact hpre u hu
        · intro u hu
          rcases List.mem_cons.mp hu with rfl | hu
          · exact le_of_lt (lt_of_lt_of_le hm hle)
          · exact hall u hu

/-- C30. `selectLowestAlphabeticalVolume` returns `nil` for the empty list and calls no
`Destroy()`. For a non-empty list it returns an element `v` at a position such that the
handle of `v` is at most every handle of the list and strictly below the handle of every
element before that position; the `Destroy()` calls are, in order, the elements of the
list that are not `v`, so `v` gets none and every other volume gets as many calls as it
has occurrences in the list. -/
theorem selectLowestAlphabeticalVolume_spec {α : Type} [DecidableEq α] (Handle : α → String)
    (volumes : List α) :
    selectLowestAlphabeticalVolume Handle ([] : List α) = (none, []) ∧
    (volumes ≠ [] →
      ∃ pre v post, volumes = pre ++ v :: post ∧
        (selectLowestAlphabeticalVolume Handle volumes).1 = some v ∧
        (∀ u ∈ volumes, Handle v ≤ Handle u) ∧ (∀ u ∈ pre, Handle v < Handle u) ∧
        (selectLowestAlphabeticalVolume Handle volumes).2 = volumes.filter (fun u => u ≠ v) ∧
        v ∉ (selectLowestAlphabeticalVolume Handle volumes).2 ∧
        ∀ u, u ≠ v →
          (selectLowestAlphabeticalVolume Handle volumes).2.countP (fun x => x = u)
            = volumes.countP (fun x => x = u)) := by
  refine ⟨rfl, ?_⟩
  intro hne
  obtain ⟨v0, rest, rfl⟩ := List.exists_cons_of_ne_nil hne
  have key : ∃ pre v post, v0 :: rest = pre ++ v :: post ∧
      lowestVolumeFrom Handle none (v0 :: rest) = some v ∧
      (∀ u ∈ v0 :: rest, Handle v ≤ Handle u) ∧ (∀ u ∈ pre, Handle v < Handle u) := by
    rcases lowestVolumeFrom_some Handle rest v0 with
      ⟨hres, hall⟩ | ⟨pre, m, post, hsplit, hres, hm, hpre, hall⟩
    · refine ⟨[], v0, rest, rfl, hres, ?_, by simp⟩
      intro u hu
      rcases List.mem_cons.mp hu with rfl | hu
      · exact le_refl _
      · exact hall u hu
    · refine ⟨v0 :: pre, m, post, by rw [hsplit]; rfl, hres, ?_, ?_⟩
      · intro u hu
        rcases List.mem_cons.mp hu with rfl | hu
        · exact le_of_lt hm
        · exact hall u hu
      · intro u hu
        rcases List.mem_cons.mp hu with rfl | hu
        · exact hm
        · exact hpre u hu
  obtain ⟨pre, v, post, hsplit, hres, hall, hpre⟩ := key
  have hdest : (selectLowestAlphabeticalVolume Handle (v0 :: rest)).2
      = (v0 :: rest).filter (fun u => u ≠ v) := by
    simp only [selectLowestAlphabeticalVolume, hres]
    congr 1
    funext u
    simp
  refine ⟨pre, v, post, hsplit, hres, hall, hpre, hdest, ?_, ?_⟩
  · rw [hdest]
    simp
  · intro u hu
    rw [hdest, List.countP_filter]
    congr 1
    funext x
    by_cases hx : x = u
    · simp [hx, hu]
    · simp [hx]

/-- C30, instance: of the handles `b`, `a`, `a` the second volume is returned and the
first and the third are destroyed. -/
theorem selectLowestAlphabeticalVolume_spec_witness :
    selectLowestAlphabeticalVolume Prod.snd demoVolumes
      = (some (2, "a"), [(1, "b"), (3, "a")]) ∧
    demoVolumes ≠ [] ∧
    ∃ pre v post, demoVolumes = pre ++ v :: post ∧
      (selectLowestAlphabeticalVolume Prod.snd demoVolumes).1 = some v ∧
      (∀ u ∈ demoVolumes, v.2 ≤ u.2) ∧ (∀ u ∈ pre, v.2 < u.2) ∧
      (selectLowestAlphabeticalVolume Prod.snd demoVolumes).2
        = demoVolumes.filter (fun u => u ≠ v) ∧
      v ∉ (selectLowestAlphabeticalVolume Prod.snd demoVolumes).2 ∧
      ∀ u, u ≠ v →
        (selectLowestAlphabeticalVolume Prod.snd demoVolumes).2.countP (fun x => x = u)
          = demoVolumes.countP (fun x => x = u) := by
  have h1 : ("a" : String) < "b" := by rw [String.lt_iff_toList_lt]; decide
  have h2 : ¬ ("a" : String) < "a" := lt_irrefl _
  exact ⟨by simp [selectLowestAlphabeticalVolume, lowestVolumeFrom, demoVolumes, h1, h2],
    by simp [demoVolumes],
    (selectLowestAlphabeticalVolume_spec Prod.snd demoVolumes).2 (by simp [demoVolumes])⟩

end Atc
